import Mathlib

/-!
# Project-assignment engine of the internship-management backend

A shallow embedding of the role-transition controllers
(`backend/controllers/projectAssignmentsController.js`,
`backend/controllers/internAssignmentsController.js` and `approveProject` of
`backend/controllers/projectsController.js`) over an explicit store of users,
projects and project assignments; of the other project controllers
(`addProject`, `updateProject`, `deleteProject`); of the notification mails
of the assignment controller; and of the attendance backfill
(`backend/controllers/attendanceController.js`) and the working-day helper
of `backend/utils/autoMarkAbsentees.js` over calendar days.

Conventions of the embedding

* A stored Mongo identifier is a natural number. The `userId` of the token
  is the string `signin` made of a stored identifier, and is kept as that
  identifier.
* A `userId` of a request body is a string. Where a controller both casts
  it (`findById`, a query filter, a pushed roster entry) and compares it with
  `x.userId.toString()`, the body carries an `IdString`, which keeps the
  identifier the string is cast to apart from the way the string spells it.
  Where a controller only compares the string with `x.userId.toString()`
  before it writes (the reviews and the removals), the body carries the
  identifier whose `toString()` the string is; any other string matches no
  roster entry, exactly as an identifier that no roster holds.
* `projectId`, `assignmentId` and `developerId` are only ever cast and are
  kept as the identifier they are cast to.
* `new Date()` is an explicit `now` argument of every controller.
* A controller maps the store before the request to a response and the store
  after it; a database write happens exactly where the source awaits `save()`.
* `req.user` is the decoded token: `userId, email, verified, type, company,
  isApproved` (the token carries no `_id`, so `req.user._id` is undefined).
-/

namespace InternManage

abbrev UserId := Nat
abbrev ProjectId := Nat
abbrev AssignmentId := Nat
abbrev Company := String
abbrev Timestamp := Nat

/-! ## Data model -/

/-- A document of `models/usersModel.js` (the fields the controllers read). -/
structure User where
  _id : UserId
  name : String
  email : String
  type : String
  company : Option Company
  deriving DecidableEq, Repr

/-- A document of `models/projectsModel.js` (the fields the controllers read). -/
structure Project where
  _id : ProjectId
  name : String
  company : Company
  isApproved : Bool
  suggested_by : Option String
  deriving DecidableEq, Repr

/-- An entry of `assignedDevelopers`, `assignedInterns` or `panelists`. -/
structure AssignedEntry where
  userId : UserId
  assignedBy : Option UserId
  assignedAt : Timestamp
  deriving DecidableEq, Repr

/-- An entry of `volunteerDevelopers`, `volunteerInterns` or `volunteerPanelists`. -/
structure VolunteerEntry where
  userId : UserId
  requestedAt : Timestamp
  status : String
  reviewedBy : Option UserId
  reviewedAt : Option Timestamp
  deriving DecidableEq, Repr

/-- A ProjectAssignment document: one project reference, the denormalised
company and the six rosters the controllers read and write. -/
structure ProjectAssignment where
  _id : AssignmentId
  projectId : ProjectId
  company : Option Company
  assignedDevelopers : List AssignedEntry
  assignedInterns : List AssignedEntry
  panelists : List AssignedEntry
  volunteerDevelopers : List VolunteerEntry
  volunteerInterns : List VolunteerEntry
  volunteerPanelists : List VolunteerEntry
  deriving DecidableEq, Repr

/-- The three collections the role-transition controllers touch. -/
structure Store where
  users : List User
  projects : List Project
  assignments : List ProjectAssignment
  deriving DecidableEq, Repr

/-- The decoded token attached to the request as `req.user`. -/
structure Actor where
  userId : UserId
  email : String
  verified : Bool
  type : String
  company : Option Company
  isApproved : Bool
  deriving DecidableEq, Repr

/-- What `res.status(..).json({ success, .. })` sends: the HTTP status and the
`success` flag (absent in the responses of the intern-assignment controller
that carry only a message). -/
structure Response where
  status : Nat
  success : Option Bool
  deriving DecidableEq, Repr

/-- Outcome of one controller call: the response and the store after it. -/
structure Result where
  res : Response
  store : Store
  deriving DecidableEq, Repr

/-- Parameter standing for the schema of `models/projectAssignmentsModel.js`,
which is not among the sources. What the schema enforces when a new document
is inserted is left open: whether `projectId` carries a unique index, whether
`company` is required, and what the `userId` path of a roster entry makes of
the value `approveProject` passes (the project's `suggested_by`, an e-mail
address or nothing): `none` when the cast or validation rejects it. The
controllers are defined, and the results proved, for every such schema. -/
structure AssignmentSchema where
  uniqueProjectId : Bool
  companyRequired : Bool
  castUserId : Option String → Option UserId

/-- A user identifier as a request body spells it. Of such a string the
controllers observe the ObjectId Mongoose casts it to (in `findById`, in a
query filter and in a pushed roster entry) and whether it is the string
`toString()` gives for a stored identifier, which is 24 lower-case hexadecimal
digits. `canonical id` is that spelling of `id`; `variant id` is any other
string that is cast to `id`, such as the same digits with the letters in upper
case; `invalid` is a string the cast rejects with a `CastError`. -/
inductive IdString where
  | canonical (id : UserId)
  | variant (id : UserId)
  | invalid
  deriving DecidableEq, Repr

/-- Method `toString()` of a stored ObjectId. -/
def ObjectId.toString (id : UserId) : IdString := .canonical id

/-- The ObjectId Mongoose casts a string to; `none` when it throws a
`CastError`. -/
def IdString.cast : IdString → Option UserId
  | .canonical id => some id
  | .variant id => some id
  | .invalid => none

/-- JavaScript truthiness of an optional string: `!x` holds for `undefined`
and for the empty string. -/
def isFalsy (x : Option String) : Bool :=
  match x with
  | none => true
  | some c => c == ""

/-! ## Queries -/

/-- Lookup `User.findById(id)`; an undefined id finds nothing. -/
def User.findById (s : Store) (id : Option UserId) : Option User :=
  match id with
  | none => none
  | some i => s.users.find? (fun u => u._id == i)

/-- Lookup `Project.findById(id)`; an undefined id finds nothing. -/
def Project.findById (s : Store) (id : Option ProjectId) : Option Project :=
  match id with
  | none => none
  | some i => s.projects.find? (fun p => p._id == i)

/-- Lookup `ProjectAssignment.findById(id)`. -/
def ProjectAssignment.findById (s : Store) (id : AssignmentId) : Option ProjectAssignment :=
  s.assignments.find? (fun a => a._id == id)

/-- Lookup `ProjectAssignment.findOne({ projectId })`: the first assignment of
the project in collection order. -/
def ProjectAssignment.findOne (s : Store) (projectId : ProjectId) : Option ProjectAssignment :=
  s.assignments.find? (fun a => a.projectId == projectId)

/-- Test `roster.some(e => e.userId.toString() === userId)` on an assigned
roster, for the `userId` of the token or of a review body. -/
def hasUser (roster : List AssignedEntry) (userId : UserId) : Bool :=
  roster.any (fun e => e.userId == userId)

/-- Test `roster.some(e => e.userId.toString() === userId)` on an assigned
roster, for a `userId` string of a direct-assignment body. -/
def hasUserString (roster : List AssignedEntry) (userId : IdString) : Bool :=
  roster.any (fun e => ObjectId.toString e.userId == userId)

/-- Lookup `ProjectAssignment.findOne({ 'assignedDevelopers.userId': userId })`:
the first assignment, of any project, that lists the user as a mentor. -/
def ProjectAssignment.findOneByMentor (s : Store) (userId : UserId) : Option ProjectAssignment :=
  s.assignments.find? (fun a => hasUser a.assignedDevelopers userId)

/-! ## Writes -/

/-- An identifier no stored assignment carries (a freshly generated ObjectId). -/
def freshId (s : Store) : AssignmentId :=
  (s.assignments.map (fun a => a._id)).foldr max 0 + 1

/-- Constructor `new ProjectAssignment({ projectId, company, assignedDevelopers })`:
rosters left out of the constructor default to empty arrays. -/
def ProjectAssignment.new (s : Store) (projectId : ProjectId) (company : Option Company)
    (assignedDevelopers : List AssignedEntry) : ProjectAssignment :=
  { _id := freshId s, projectId := projectId, company := company,
    assignedDevelopers := assignedDevelopers, assignedInterns := [], panelists := [],
    volunteerDevelopers := [], volunteerInterns := [], volunteerPanelists := [] }

/-- Replace the first stored document carrying the identifier of `a` by `a`. -/
def replaceDoc (a : ProjectAssignment) : List ProjectAssignment → List ProjectAssignment
  | [] => []
  | x :: xs => if x._id = a._id then a :: xs else x :: replaceDoc a xs

/-- Whether the schema accepts the insertion of the new document `a`. -/
def insertAccepted (cfg : AssignmentSchema) (s : Store) (a : ProjectAssignment) : Bool :=
  (!cfg.uniqueProjectId || !s.assignments.any (fun x => x.projectId == a.projectId))
    && (!cfg.companyRequired || !isFalsy a.company)

/-- Write `await assignment.save()`: a loaded document is written back in
place; a new document is inserted when the schema accepts it, and otherwise
`save` throws (`none`). -/
def ProjectAssignment.save (cfg : AssignmentSchema) (s : Store) (a : ProjectAssignment) :
    Option Store :=
  if s.assignments.any (fun x => x._id == a._id) then
    some { s with assignments := replaceDoc a s.assignments }
  else if insertAccepted cfg s a then
    some { s with assignments := s.assignments ++ [a] }
  else none

/-- A response that leaves the store as it was. -/
def reply (s : Store) (status : Nat) (success : Option Bool) : Result :=
  { res := { status := status, success := success }, store := s }

/-- Save, then answer `status` with `success: true`; a rejected save lands in
the `catch` block: 500 with `success: false`, nothing written. -/
def saveAndReply (cfg : AssignmentSchema) (s : Store) (a : ProjectAssignment) (status : Nat) :
    Result :=
  match ProjectAssignment.save cfg s a with
  | some s1 => { res := { status := status, success := some true }, store := s1 }
  | none => reply s 500 (some false)

/-- Write-back of a document that was loaded from the store. -/
def updateAndReply (s : Store) (a : ProjectAssignment) (status : Nat) : Result :=
  { res := { status := status, success := some true },
    store := { s with assignments := replaceDoc a s.assignments } }

/-! ## Dynamic roster selection -/

/-- The value of `volunteerField` in the source. -/
inductive VolunteerField where
  | volunteerDevelopers
  | volunteerInterns
  deriving DecidableEq, Repr

/-- The value of `assignedField` in the source. -/
inductive AssignedField where
  | assignedDevelopers
  | assignedInterns
  deriving DecidableEq, Repr

/-- Selector `type === 'developer' ? 'volunteerDevelopers' : 'volunteerInterns'`. -/
def volunteerFieldOf (type : String) : VolunteerField :=
  if type = "developer" then .volunteerDevelopers else .volunteerInterns

/-- Selector `userType === 'developer' ? 'assignedDevelopers' : 'assignedInterns'`. -/
def assignedFieldOf (userType : String) : AssignedField :=
  if userType = "developer" then .assignedDevelopers else .assignedInterns

/-- Read `assignment[volunteerField]`. -/
def ProjectAssignment.getVolunteers (a : ProjectAssignment) : VolunteerField → List VolunteerEntry
  | .volunteerDevelopers => a.volunteerDevelopers
  | .volunteerInterns => a.volunteerInterns

/-- Write `assignment[volunteerField]`. -/
def ProjectAssignment.setVolunteers (a : ProjectAssignment) (f : VolunteerField)
    (r : List VolunteerEntry) : ProjectAssignment :=
  match f with
  | .volunteerDevelopers => { a with volunteerDevelopers := r }
  | .volunteerInterns => { a with volunteerInterns := r }

/-- Read `assignment[assignedField]`. -/
def ProjectAssignment.getAssigned (a : ProjectAssignment) : AssignedField → List AssignedEntry
  | .assignedDevelopers => a.assignedDevelopers
  | .assignedInterns => a.assignedInterns

/-- Write `assignment[assignedField]`. -/
def ProjectAssignment.setAssigned (a : ProjectAssignment) (f : AssignedField)
    (r : List AssignedEntry) : ProjectAssignment :=
  match f with
  | .assignedDevelopers => { a with assignedDevelopers := r }
  | .assignedInterns => { a with assignedInterns := r }

/-- Position `roster.findIndex(v => v.userId.toString() === userId)`; `none` is `-1`. -/
def findIndex (userId : UserId) : List VolunteerEntry → Option Nat
  | [] => none
  | v :: vs => if v.userId = userId then some 0 else (findIndex userId vs).map (· + 1)

/-- In-place update of the roster entry at a position. -/
def updateAt (f : VolunteerEntry → VolunteerEntry) : List VolunteerEntry → Nat → List VolunteerEntry
  | [], _ => []
  | v :: vs, 0 => f v :: vs
  | v :: vs, n + 1 => v :: updateAt f vs n

/-- The three assignments `status = .., reviewedBy = req.user.userId, reviewedAt = new Date()`. -/
def stampReview (status : String) (reviewer : UserId) (now : Timestamp) (v : VolunteerEntry) :
    VolunteerEntry :=
  { v with status := status, reviewedBy := some reviewer, reviewedAt := some now }

/-- The pushed volunteer entry `{ userId, requestedAt: new Date(), status: 'pending' }`. -/
def pendingEntry (userId : UserId) (now : Timestamp) : VolunteerEntry :=
  { userId := userId, requestedAt := now, status := "pending", reviewedBy := none,
    reviewedAt := none }

/-- The pushed roster entry `{ userId, assignedBy, assignedAt: new Date() }`. -/
def assignedEntry (userId : UserId) (assignedBy : Option UserId) (now : Timestamp) :
    AssignedEntry :=
  { userId := userId, assignedBy := assignedBy, assignedAt := now }

/-! ## Request bodies and the Joi schemas of `middlewares/validator.js` -/

/-- Body of the volunteer requests. -/
structure VolunteerBody where
  projectId : Option ProjectId
  deriving DecidableEq, Repr

/-- Schema `volunteerSchema`: `projectId` is required. -/
def volunteerSchema (b : VolunteerBody) : Option ProjectId := b.projectId

/-- Body of the review requests. -/
structure ReviewBody where
  assignmentId : Option AssignmentId
  userId : Option UserId
  userType : Option String
  status : Option String
  deriving DecidableEq, Repr

/-- A review body that passed validation. -/
structure ReviewValue where
  assignmentId : AssignmentId
  userId : UserId
  userType : String
  status : String
  deriving DecidableEq, Repr

/-- Schema `reviewVolunteerSchema`: all four fields required, `userType` one of
`developer, intern`, `status` one of `pending, approved, rejected`. -/
def reviewVolunteerSchema (b : ReviewBody) : Option ReviewValue :=
  match b.assignmentId, b.userId, b.userType, b.status with
  | some a, some u, some t, some st =>
    if ["developer", "intern"].contains t && ["pending", "approved", "rejected"].contains st then
      some { assignmentId := a, userId := u, userType := t, status := st }
    else none
  | _, _, _, _ => none

/-- Body of the direct-assignment requests. -/
structure AssignBody where
  projectId : Option ProjectId
  userId : Option IdString
  userType : Option String
  deriving DecidableEq, Repr

/-- A direct-assignment body that passed validation. -/
structure AssignValue where
  projectId : ProjectId
  userId : IdString
  userType : String
  deriving DecidableEq, Repr

/-- Schema `assignUserSchema`: all three fields required, `userType` one of
`developer, intern`. -/
def assignUserSchema (b : AssignBody) : Option AssignValue :=
  match b.projectId, b.userId, b.userType with
  | some p, some u, some t =>
    if ["developer", "intern"].contains t then
      some { projectId := p, userId := u, userType := t }
    else none
  | _, _, _ => none

/-- Body of the removal requests. -/
structure RemoveBody where
  assignmentId : Option AssignmentId
  userId : Option UserId
  userType : Option String
  deriving DecidableEq, Repr

/-- A removal body that passed validation. -/
structure RemoveValue where
  assignmentId : AssignmentId
  userId : UserId
  userType : String
  deriving DecidableEq, Repr

/-- Schema `removeUserSchema`: all three fields required, `userType` one of
`developer, intern`. -/
def removeUserSchema (b : RemoveBody) : Option RemoveValue :=
  match b.assignmentId, b.userId, b.userType with
  | some a, some u, some t =>
    if ["developer", "intern"].contains t then
      some { assignmentId := a, userId := u, userType := t }
    else none
  | _, _, _ => none

/-! ## Controllers of `projectAssignmentsController.js` -/

/-- Controller `exports.volunteerForProject`. -/
def volunteerForProject (cfg : AssignmentSchema) (s : Store) (actor : Actor)
    (body : VolunteerBody) (now : Timestamp) : Result :=
  if !actor.verified then reply s 403 (some false)
  else if !(["developer", "intern"].contains actor.type) then reply s 403 (some false)
  else if !actor.isApproved then reply s 403 (some false)
  else
    match volunteerSchema body with
    | none => reply s 400 (some false)
    | some projectId =>
      match Project.findById s (some projectId) with
      | none => reply s 404 (some false)
      | some project =>
        if !project.isApproved then reply s 403 (some false)
        else if some project.company ≠ actor.company then reply s 403 (some false)
        else
          let assignment := (ProjectAssignment.findOne s projectId).getD
            (ProjectAssignment.new s projectId actor.company [])
          if actor.type = "developer" ∧ hasUser assignment.panelists actor.userId then
            reply s 400 (some false)
          else
            let volunteerField := volunteerFieldOf actor.type
            let existingVolunteer :=
              (assignment.getVolunteers volunteerField).find? (fun v => v.userId == actor.userId)
            if existingVolunteer.isSome then reply s 400 (some false)
            else
              saveAndReply cfg s
                (assignment.setVolunteers volunteerField
                  (assignment.getVolunteers volunteerField ++ [pendingEntry actor.userId now]))
                201

/-- Controller `exports.reviewVolunteerRequest`. -/
def reviewVolunteerRequest (s : Store) (actor : Actor) (body : ReviewBody) (now : Timestamp) :
    Result :=
  if !actor.verified then reply s 403 (some false)
  else if !(["hr", "admin"].contains actor.type) then reply s 403 (some false)
  else
    match reviewVolunteerSchema body with
    | none => reply s 400 (some false)
    | some value =>
      match ProjectAssignment.findById s value.assignmentId with
      | none => reply s 404 (some false)
      | some assignment =>
        if actor.type = "hr" ∧ (isFalsy actor.company ∨ assignment.company ≠ actor.company) then
          reply s 403 (some false)
        else
          let volunteerField := volunteerFieldOf value.userType
          match findIndex value.userId (assignment.getVolunteers volunteerField) with
          | none => reply s 404 (some false)
          | some volunteerIndex =>
            let reviewed := assignment.setVolunteers volunteerField
              (updateAt (stampReview value.status actor.userId now)
                (assignment.getVolunteers volunteerField) volunteerIndex)
            if value.status = "approved" then
              if value.userType = "developer" ∧ hasUser reviewed.panelists value.userId then
                reply s 400 (some false)
              else
                let assignedField := assignedFieldOf value.userType
                updateAndReply s
                  (reviewed.setAssigned assignedField
                    (reviewed.getAssigned assignedField ++
                      [assignedEntry value.userId (some actor.userId) now]))
                  200
            else updateAndReply s reviewed 200

/-- Controller `exports.assignUserToProject`. The string `userId` of the body
is cast by `User.findById` (a `CastError` ends in the `catch` block), by the
query of the global mentor check and by the push; the panelist check and the
already-assigned check compare it with `toString()` of the stored
identifiers. -/
def assignUserToProject (cfg : AssignmentSchema) (s : Store) (actor : Actor)
    (body : AssignBody) (now : Timestamp) : Result :=
  if !actor.verified then reply s 403 (some false)
  else if !(["hr", "admin"].contains actor.type) then reply s 403 (some false)
  else
    match assignUserSchema body with
    | none => reply s 400 (some false)
    | some value =>
      match Project.findById s (some value.projectId) with
      | none => reply s 404 (some false)
      | some project =>
        match value.userId.cast with
        | none => reply s 500 (some false)
        | some userId =>
          match User.findById s (some userId) with
          | none => reply s 404 (some false)
          | some user =>
            if user.type ≠ value.userType then reply s 400 (some false)
            else if actor.type = "hr" ∧ isFalsy actor.company then reply s 403 (some false)
            else if actor.type = "hr" ∧ some project.company ≠ actor.company then
              reply s 403 (some false)
            else if actor.type = "hr" ∧ user.company ≠ actor.company then
              reply s 403 (some false)
            else
              let assignment := (ProjectAssignment.findOne s value.projectId).getD
                (ProjectAssignment.new s value.projectId (some project.company) [])
              if value.userType = "developer" ∧
                  (ProjectAssignment.findOneByMentor s userId).isSome then
                reply s 400 (some false)
              else if value.userType = "developer" ∧
                  hasUserString assignment.panelists value.userId then
                reply s 400 (some false)
              else
                let assignedField := assignedFieldOf value.userType
                let existingUserInProject :=
                  (assignment.getAssigned assignedField).find?
                    (fun a => ObjectId.toString a.userId == value.userId)
                if existingUserInProject.isSome then reply s 400 (some false)
                else
                  saveAndReply cfg s
                    (assignment.setAssigned assignedField
                      (assignment.getAssigned assignedField ++
                        [assignedEntry userId (some actor.userId) now]))
                    201

/-- Body of `removePanelistFromProject`, read from `req.body` without a schema. -/
structure RemovePanelistBody where
  assignmentId : Option AssignmentId
  userId : Option UserId
  deriving DecidableEq, Repr

/-- Controller `exports.removePanelistFromProject`. -/
def removePanelistFromProject (s : Store) (actor : Actor) (body : RemovePanelistBody) : Result :=
  if !actor.verified then reply s 403 (some false)
  else if !(["hr", "admin"].contains actor.type) then reply s 403 (some false)
  else
    match body.assignmentId, body.userId with
    | some assignmentId, some userId =>
      match ProjectAssignment.findById s assignmentId with
      | none => reply s 404 (some false)
      | some assignment =>
        if actor.type = "hr" ∧ assignment.company ≠ actor.company then reply s 403 (some false)
        else
          let initialLength := assignment.panelists.length
          let panelists := assignment.panelists.filter (fun p => p.userId != userId)
          if panelists.length = initialLength then reply s 404 (some false)
          else updateAndReply s { assignment with panelists := panelists } 200
    | _, _ => reply s 400 (some false)

/-- Controller `exports.removeUserFromProject`. -/
def removeUserFromProject (s : Store) (actor : Actor) (body : RemoveBody) : Result :=
  if !actor.verified then reply s 403 (some false)
  else if !(["hr", "admin"].contains actor.type) then reply s 403 (some false)
  else
    match removeUserSchema body with
    | none => reply s 400 (some false)
    | some value =>
      match ProjectAssignment.findById s value.assignmentId with
      | none => reply s 404 (some false)
      | some assignment =>
        if actor.type = "hr" ∧ (isFalsy actor.company ∨ assignment.company ≠ actor.company) then
          reply s 403 (some false)
        else
          let assignedField := assignedFieldOf value.userType
          let initialLength := (assignment.getAssigned assignedField).length
          let remaining :=
            (assignment.getAssigned assignedField).filter (fun a => a.userId != value.userId)
          if remaining.length = initialLength then reply s 404 (some false)
          else updateAndReply s (assignment.setAssigned assignedField remaining) 200

/-- Controller `exports.volunteerForPanelist`. -/
def volunteerForPanelist (cfg : AssignmentSchema) (s : Store) (actor : Actor)
    (body : VolunteerBody) (now : Timestamp) : Result :=
  if !actor.verified then reply s 403 (some false)
  else if actor.type ≠ "developer" then reply s 403 (some false)
  else if !actor.isApproved then reply s 403 (some false)
  else
    match volunteerSchema body with
    | none => reply s 400 (some false)
    | some projectId =>
      match Project.findById s (some projectId) with
      | none => reply s 404 (some false)
      | some project =>
        if !project.isApproved then reply s 403 (some false)
        else if some project.company ≠ actor.company then reply s 403 (some false)
        else
          let assignment := (ProjectAssignment.findOne s projectId).getD
            (ProjectAssignment.new s projectId actor.company [])
          if hasUser assignment.assignedDevelopers actor.userId then reply s 400 (some false)
          else
            let existingVolunteer :=
              assignment.volunteerPanelists.find? (fun v => v.userId == actor.userId)
            if existingVolunteer.isSome then reply s 400 (some false)
            else
              saveAndReply cfg s
                { assignment with
                  volunteerPanelists :=
                    assignment.volunteerPanelists ++ [pendingEntry actor.userId now] }
                201

/-- Controller `exports.reviewPanelistVolunteerRequest`. -/
def reviewPanelistVolunteerRequest (s : Store) (actor : Actor) (body : ReviewBody)
    (now : Timestamp) : Result :=
  if !actor.verified then reply s 403 (some false)
  else if !(["hr", "admin"].contains actor.type) then reply s 403 (some false)
  else
    match reviewVolunteerSchema body with
    | none => reply s 400 (some false)
    | some value =>
      match ProjectAssignment.findById s value.assignmentId with
      | none => reply s 404 (some false)
      | some assignment =>
        if actor.type = "hr" ∧ (isFalsy actor.company ∨ assignment.company ≠ actor.company) then
          reply s 403 (some false)
        else
          match findIndex value.userId assignment.volunteerPanelists with
          | none => reply s 404 (some false)
          | some volunteerIndex =>
            if value.status = "approved" ∧ hasUser assignment.assignedDevelopers value.userId then
              reply s 400 (some false)
            else
              let reviewed := { assignment with
                volunteerPanelists :=
                  updateAt (stampReview value.status actor.userId now)
                    assignment.volunteerPanelists volunteerIndex }
              if value.status = "approved" then
                updateAndReply s
                  { reviewed with
                    panelists :=
                      reviewed.panelists ++ [assignedEntry value.userId (some actor.userId) now] }
                  200
              else updateAndReply s reviewed 200

/-- Controller `exports.assignPanelist`; the schema is applied to the body
with `userType` forced to `developer`. The string `userId` of the body is cast
by `User.findById` (a `CastError` ends in the `catch` block) and by the push;
the mentor check and the panelist check compare it with `toString()` of the
stored identifiers. -/
def assignPanelist (cfg : AssignmentSchema) (s : Store) (actor : Actor) (body : AssignBody)
    (now : Timestamp) : Result :=
  if !actor.verified then reply s 403 (some false)
  else if !(["hr", "admin"].contains actor.type) then reply s 403 (some false)
  else
    match assignUserSchema { body with userType := some "developer" } with
    | none => reply s 400 (some false)
    | some value =>
      match Project.findById s (some value.projectId) with
      | none => reply s 404 (some false)
      | some project =>
        match value.userId.cast with
        | none => reply s 500 (some false)
        | some userId =>
          match User.findById s (some userId) with
          | none => reply s 404 (some false)
          | some user =>
            if user.type ≠ "developer" then reply s 404 (some false)
            else if actor.type = "hr" ∧ isFalsy actor.company then reply s 403 (some false)
            else if actor.type = "hr" ∧
                (some project.company ≠ actor.company ∨ user.company ≠ actor.company) then
              reply s 403 (some false)
            else
              let assignment := (ProjectAssignment.findOne s value.projectId).getD
                (ProjectAssignment.new s value.projectId (some project.company) [])
              if hasUserString assignment.assignedDevelopers value.userId then
                reply s 400 (some false)
              else if hasUserString assignment.panelists value.userId then
                reply s 400 (some false)
              else
                saveAndReply cfg s
                  { assignment with
                    panelists :=
                      assignment.panelists ++ [assignedEntry userId (some actor.userId) now] }
                  201

/-- Body carrying only `projectId`, read from `req.body` without a schema. -/
structure ProjectIdBody where
  projectId : Option ProjectId
  deriving DecidableEq, Repr

/-- The value of `Math.random()`: the fraction `num / den` in `[0, 1)`. -/
structure Draw where
  num : Nat
  den : Nat
  lt : num < den

/-- Index `Math.floor(Math.random() * length)`. -/
def Draw.index (d : Draw) (length : Nat) : Nat := d.num * length / d.den

/-- Query `User.find({ type: 'developer', company, _id: { $nin: excludedIds } })`. -/
def availableDevelopers (s : Store) (company : Company) (excludedIds : List UserId) : List User :=
  s.users.filter (fun u =>
    u.type == "developer" && u.company == some company && !excludedIds.contains u._id)

/-- Controller `exports.assignRandomPanelist`. The fetched assignment is bound
with `const`, so the branch that would create a missing assignment throws a
TypeError on the reassignment and the request ends in the `catch` block. -/
def assignRandomPanelist (s : Store) (actor : Actor) (body : ProjectIdBody) (draw : Draw)
    (now : Timestamp) : Result :=
  if !(["hr", "admin"].contains actor.type) then reply s 403 (some false)
  else
    match Project.findById s body.projectId, body.projectId with
    | some project, some projectId =>
      let assignment := ProjectAssignment.findOne s projectId
      let assignedDeveloperIds :=
        match assignment with
        | some a => a.assignedDevelopers.map (fun d => d.userId)
        | none => []
      let panelistIds :=
        match assignment with
        | some a => a.panelists.map (fun p => p.userId)
        | none => []
      let excludedIds := assignedDeveloperIds ++ panelistIds
      let available := availableDevelopers s project.company excludedIds
      if available.length = 0 then reply s 404 (some false)
      else
        match available.get? (draw.index available.length) with
        | none => reply s 500 (some false)
        | some randomDeveloper =>
          match assignment with
          | none => reply s 500 (some false)
          | some a =>
            updateAndReply s
              { a with
                panelists :=
                  a.panelists ++ [assignedEntry randomDeveloper._id (some actor.userId) now] }
              201
    | _, _ => reply s 404 (some false)

/-- Controller `exports.initializeProjectAssignment`. -/
def initializeProjectAssignment (cfg : AssignmentSchema) (s : Store) (actor : Actor)
    (body : ProjectIdBody) : Result :=
  if !actor.verified then reply s 403 (some false)
  else if !(["hr", "admin"].contains actor.type) then reply s 403 (some false)
  else
    match body.projectId with
    | none => reply s 400 (some false)
    | some projectId =>
      match Project.findById s (some projectId) with
      | none => reply s 404 (some false)
      | some project =>
        if !project.isApproved then reply s 403 (some false)
        else if actor.type = "hr" ∧ isFalsy actor.company then reply s 403 (some false)
        else if actor.type = "hr" ∧ some project.company ≠ actor.company then
          reply s 403 (some false)
        else if (ProjectAssignment.findOne s projectId).isSome then reply s 400 (some false)
        else
          saveAndReply cfg s (ProjectAssignment.new s projectId (some project.company) []) 201

/-! ## `approveProject` of `projectsController.js` -/

/-- Write `await project.save()`: the loaded project is written back in place. -/
def replaceProject (p : Project) : List Project → List Project
  | [] => []
  | x :: xs => if x._id = p._id then p :: xs else x :: replaceProject p xs

/-- Controller `exports.approveProject`. The project is saved as approved
first; the assignment seeded with `project.suggested_by` is saved afterwards,
and a rejection of that second save ends in the `catch` block with the project
already approved. -/
def approveProject (cfg : AssignmentSchema) (s : Store) (actor : Actor) (id : ProjectId)
    (now : Timestamp) : Result :=
  if !actor.verified then reply s 403 (some false)
  else if !(["admin", "hr"].contains actor.type) then reply s 403 (some false)
  else
    match Project.findById s (some id) with
    | none => reply s 404 (some false)
    | some project =>
      if actor.type = "hr" ∧ some project.company ≠ actor.company then reply s 403 (some false)
      else
        let s1 : Store :=
          { s with projects := replaceProject { project with isApproved := true } s.projects }
        match cfg.castUserId project.suggested_by with
        | none => reply s1 500 (some false)
        | some userId =>
          let projectAssignment := ProjectAssignment.new s1 project._id (some project.company)
            [assignedEntry userId none now]
          match ProjectAssignment.save cfg s1 projectAssignment with
          | none => reply s1 500 (some false)
          | some s2 => { res := { status := 200, success := some true }, store := s2 }

/-! ## Controllers of `internAssignmentsController.js` -/

/-- Body of `assignInternToDeveloper`, read from `req.body` without a schema. -/
structure InternAssignBody where
  internId : Option IdString
  developerId : Option UserId
  projectId : Option ProjectId
  deriving DecidableEq, Repr

/-- Controller `exports.assignInternToDeveloper`. Its failure responses carry
only a message. A body without `projectId` finds no assignment and builds one
without a project reference, which the save rejects. The string `internId` of
the body is cast by `User.findById` (an undefined one finds nothing, a
`CastError` ends in the `catch` block) and by the push; the already-assigned
check compares it with `toString()` of the stored identifiers. -/
def assignInternToDeveloper (cfg : AssignmentSchema) (s : Store) (actor : Actor)
    (body : InternAssignBody) (now : Timestamp) : Result :=
  if !actor.verified then reply s 403 none
  else if !(["hr", "admin"].contains actor.type) then reply s 403 none
  else
    match body.internId with
    | none => reply s 404 none
    | some internId =>
      match internId.cast with
      | none => reply s 500 none
      | some internObjectId =>
        match User.findById s (some internObjectId) with
        | none => reply s 404 none
        | some intern =>
          if intern.type ≠ "intern" then reply s 404 none
          else
            match User.findById s body.developerId, body.developerId with
            | some developer, some developerId =>
              if developer.type ≠ "developer" then reply s 404 none
              else
                match body.projectId with
                | none => reply s 500 none
                | some projectId =>
                  let projectAssignment := (ProjectAssignment.findOne s projectId).getD
                    (ProjectAssignment.new s projectId actor.company
                      [assignedEntry developerId none now])
                  if hasUserString projectAssignment.assignedInterns internId then
                    reply s 400 none
                  else
                    match ProjectAssignment.save cfg s
                        { projectAssignment with
                          assignedInterns :=
                            projectAssignment.assignedInterns ++
                              [assignedEntry internObjectId none now] }
                    with
                    | some s1 => { res := { status := 200, success := some true }, store := s1 }
                    | none => reply s 500 none
            | _, _ => reply s 404 none

/-- Controller `exports.removeInternAssignment`; `projectId` and `internId`
are route parameters. -/
def removeInternAssignment (s : Store) (actor : Actor) (projectId : ProjectId)
    (internId : UserId) : Result :=
  if !(["hr", "admin"].contains actor.type) then reply s 403 none
  else
    match ProjectAssignment.findOne s projectId with
    | none => reply s 404 none
    | some projectAssignment =>
      updateAndReply s
        { projectAssignment with
          assignedInterns :=
            projectAssignment.assignedInterns.filter (fun a => a.userId != internId) }
        200

/-! ## The engine as a transition system -/

/-- One request to a roster-mutating endpoint, with everything the controller
reads besides the store. -/
inductive Op where
  | volunteerForProject (actor : Actor) (body : VolunteerBody) (now : Timestamp)
  | reviewVolunteerRequest (actor : Actor) (body : ReviewBody) (now : Timestamp)
  | assignUserToProject (actor : Actor) (body : AssignBody) (now : Timestamp)
  | removePanelistFromProject (actor : Actor) (body : RemovePanelistBody)
  | removeUserFromProject (actor : Actor) (body : RemoveBody)
  | volunteerForPanelist (actor : Actor) (body : VolunteerBody) (now : Timestamp)
  | reviewPanelistVolunteerRequest (actor : Actor) (body : ReviewBody) (now : Timestamp)
  | assignPanelist (actor : Actor) (body : AssignBody) (now : Timestamp)
  | assignRandomPanelist (actor : Actor) (body : ProjectIdBody) (draw : Draw) (now : Timestamp)
  | initializeProjectAssignment (actor : Actor) (body : ProjectIdBody)
  | approveProject (actor : Actor) (id : ProjectId) (now : Timestamp)
  | assignInternToDeveloper (actor : Actor) (body : InternAssignBody) (now : Timestamp)
  | removeInternAssignment (actor : Actor) (projectId : ProjectId) (internId : UserId)

/-- Dispatch of one request to its controller. -/
def step (cfg : AssignmentSchema) (s : Store) : Op → Result
  | .volunteerForProject actor body now => volunteerForProject cfg s actor body now
  | .reviewVolunteerRequest actor body now => reviewVolunteerRequest s actor body now
  | .assignUserToProject actor body now => assignUserToProject cfg s actor body now
  | .removePanelistFromProject actor body => removePanelistFromProject s actor body
  | .removeUserFromProject actor body => removeUserFromProject s actor body
  | .volunteerForPanelist actor body now => volunteerForPanelist cfg s actor body now
  | .reviewPanelistVolunteerRequest actor body now => reviewPanelistVolunteerRequest s actor body now
  | .assignPanelist actor body now => assignPanelist cfg s actor body now
  | .assignRandomPanelist actor body draw now => assignRandomPanelist s actor body draw now
  | .initializeProjectAssignment actor body => initializeProjectAssignment cfg s actor body
  | .approveProject actor id now => approveProject cfg s actor id now
  | .assignInternToDeveloper actor body now => assignInternToDeveloper cfg s actor body now
  | .removeInternAssignment actor projectId internId =>
    removeInternAssignment s actor projectId internId

/-- The store after a sequence of requests handled one after the other. -/
def run (cfg : AssignmentSchema) (s : Store) (ops : List Op) : Store :=
  ops.foldl (fun st op => (step cfg st op).store) s

/-! ## Invariants of a single assignment document -/

/-- A property holds of every stored assignment. -/
def AllDocs (P : ProjectAssignment → Prop) (s : Store) : Prop :=
  ∀ a ∈ s.assignments, P a

/-- Whether a body string is a `variant` spelling of an identifier. -/
def IdString.isVariant : IdString → Bool
  | .variant _ => true
  | _ => false

/-- Whether the request carries no `variant` spelling of a user identifier:
the `userId` of a direct-assignment body and the `internId` of an
intern-assignment body are the string `toString()` gives for the identifier,
or a string that is no identifier at all. -/
def Op.spellsCanonically : Op → Bool
  | .assignUserToProject _ body _ =>
    match body.userId with
    | some userId => !userId.isVariant
    | none => true
  | .assignPanelist _ body _ =>
    match body.userId with
    | some userId => !userId.isVariant
    | none => true
  | .assignInternToDeveloper _ body _ =>
    match body.internId with
    | some internId => !internId.isVariant
    | none => true
  | _ => true

/-- Closure of a document property under every write the controllers perform,
each with the guard the controller has checked just before the write. The
guards of a new mentor and of a new panelist are available only under
`guarded`: the direct-assignment controllers establish them by comparing
strings, which decides membership only for a canonical spelling. -/
structure DocInvariant (guarded : Prop) (P : ProjectAssignment → Prop) : Prop where
  fresh : ∀ s projectId company, P (ProjectAssignment.new s projectId company [])
  seeded : ∀ s projectId company e, P (ProjectAssignment.new s projectId company [e])
  pushVolunteer : ∀ a f u now, P a →
    ((a.getVolunteers f).find? (fun v => v.userId == u)).isSome = false →
    P (a.setVolunteers f (a.getVolunteers f ++ [pendingEntry u now]))
  pushVolunteerPanelist : ∀ a u now, P a →
    (a.volunteerPanelists.find? (fun v => v.userId == u)).isSome = false →
    P { a with volunteerPanelists := a.volunteerPanelists ++ [pendingEntry u now] }
  stamp : ∀ a f g i, P a → (∀ v, (g v).userId = v.userId) →
    P (a.setVolunteers f (updateAt g (a.getVolunteers f) i))
  stampPanelist : ∀ a g i, P a → (∀ v, (g v).userId = v.userId) →
    P { a with volunteerPanelists := updateAt g a.volunteerPanelists i }
  pushMentor : ∀ a u by_ now, P a → (guarded → hasUser a.panelists u = false) →
    P (a.setAssigned .assignedDevelopers (a.assignedDevelopers ++ [assignedEntry u by_ now]))
  pushIntern : ∀ a e, P a → P (a.setAssigned .assignedInterns (a.assignedInterns ++ [e]))
  pushPanelist : ∀ a u by_ now, P a → (guarded → hasUser a.assignedDevelopers u = false) →
    P { a with panelists := a.panelists ++ [assignedEntry u by_ now] }
  filterAssigned : ∀ a f q, P a → P (a.setAssigned f ((a.getAssigned f).filter q))
  filterPanelists : ∀ a q, P a → P { a with panelists := a.panelists.filter q }

/-- Mentor/panelist exclusion inside one assignment. -/
def Exclusive (a : ProjectAssignment) : Prop :=
  ∀ d ∈ a.assignedDevelopers, ∀ p ∈ a.panelists, d.userId ≠ p.userId

/-- A volunteer roster holds at most one entry per user. -/
def OnePerUser (roster : List VolunteerEntry) : Prop :=
  (roster.map (fun v => v.userId)).Nodup

/-- A volunteer roster holds no two entries with status `pending` for one user. -/
def NoDoublePending (roster : List VolunteerEntry) : Prop :=
  ((roster.filter (fun v => v.status == "pending")).map (fun v => v.userId)).Nodup

/-- Each of the three volunteer rosters holds at most one entry per user. -/
def VolunteersUnique (a : ProjectAssignment) : Prop :=
  OnePerUser a.volunteerDevelopers ∧ OnePerUser a.volunteerInterns ∧
    OnePerUser a.volunteerPanelists

/-- The assignments that list the user as a mentor. -/
def mentorAssignments (s : Store) (u : UserId) : List ProjectAssignment :=
  s.assignments.filter (fun a => hasUser a.assignedDevelopers u)

/-- Global mentor uniqueness: every user is in `assignedDevelopers` of at most
one stored assignment. -/
def GlobalMentorUnique (s : Store) : Prop :=
  ∀ a ∈ s.assignments, ∀ d ∈ a.assignedDevelopers, (mentorAssignments s d.userId).length ≤ 1

/-- A refused request: a failure response and an untouched store. -/
def Refused (s : Store) (r : Result) : Prop :=
  r.res.success = some false ∧ 400 ≤ r.res.status ∧ r.store = s

/-! ## A concrete deployment used to exercise the controllers -/

/-- A schema with a unique index on `projectId`, a required `company`, and a
`userId` path that rejects whatever is not an identifier. -/
def strictSchema : AssignmentSchema :=
  { uniqueProjectId := true, companyRequired := true, castUserId := fun _ => none }

/-- A verified, approved developer of Acme. -/
def devAcme : Actor :=
  { userId := 1, email := "dev@acme.com", verified := true, type := "developer",
    company := some "Acme", isApproved := true }

/-- A verified, approved HR user of Acme. -/
def hrAcme : Actor :=
  { userId := 9, email := "hr@acme.com", verified := true, type := "hr",
    company := some "Acme", isApproved := true }

/-- An empty assignment document. -/
def emptyAssignment (id : AssignmentId) (projectId : ProjectId) (company : Company) :
    ProjectAssignment :=
  { _id := id, projectId := projectId, company := some company, assignedDevelopers := [],
    assignedInterns := [], panelists := [], volunteerDevelopers := [], volunteerInterns := [],
    volunteerPanelists := [] }

/-- Two companies. Acme has a developer (1), an intern (2), an HR user (9),
two approved projects (10, 11) and one project awaiting approval (21); the
developer mentors project 10. Globex has a developer (30) and one approved
project (20). -/
def demoStore : Store :=
  { users :=
      [{ _id := 1, name := "Dev", email := "dev@acme.com", type := "developer",
         company := some "Acme" },
       { _id := 2, name := "Ina", email := "ina@acme.com", type := "intern",
         company := some "Acme" },
       { _id := 9, name := "Hra", email := "hr@acme.com", type := "hr", company := some "Acme" },
       { _id := 30, name := "Gil", email := "gil@globex.com", type := "developer",
         company := some "Globex" }],
    projects :=
      [{ _id := 10, name := "Billing", company := "Acme", isApproved := true,
         suggested_by := some "hr@acme.com" },
       { _id := 11, name := "Search", company := "Acme", isApproved := true,
         suggested_by := some "hr@acme.com" },
       { _id := 21, name := "Draft", company := "Acme", isApproved := false,
         suggested_by := some "dev@acme.com" },
       { _id := 20, name := "Ledger", company := "Globex", isApproved := true,
         suggested_by := none }],
    assignments :=
      [{ emptyAssignment 100 10 "Acme" with
         assignedDevelopers := [{ userId := 1, assignedBy := some 9, assignedAt := 0 }] },
       emptyAssignment 101 11 "Acme",
       emptyAssignment 200 20 "Globex"] }

/-- The developer volunteers as mentor for project 11, then HR approves. -/
def secondMentorOps : List Op :=
  [.volunteerForProject devAcme { projectId := some 11 } 5,
   .reviewVolunteerRequest hrAcme
     { assignmentId := some 101, userId := some 1, userType := some "developer",
       status := some "approved" } 6]

/-- The deployment after the developer, mentor of project 10, has volunteered
for project 11. -/
def pendingStore : Store :=
  { demoStore with
    assignments :=
      [{ emptyAssignment 100 10 "Acme" with
         assignedDevelopers := [{ userId := 1, assignedBy := some 9, assignedAt := 0 }] },
       { emptyAssignment 101 11 "Acme" with volunteerDevelopers := [pendingEntry 1 5] },
       emptyAssignment 200 20 "Globex"] }

/-- A deployment whose user identifiers have letters among their hexadecimal
digits. Acme has the developers 2748 (ObjectId `000000000000000000000abc`)
and 2750 (`000000000000000000000abe`), the intern 2749
(`000000000000000000000abd`), an HR user (9) and the approved project 11,
whose assignment 101 has developer 2748 as mentor, intern 2749 as intern and
developer 2750 as panelist. A `variant` string of one of these identifiers is
the same 24 digits with the letters in upper case. -/
def hexStore : Store :=
  { users :=
      [{ _id := 2748, name := "Dev", email := "dev@acme.com", type := "developer",
         company := some "Acme" },
       { _id := 2749, name := "Ina", email := "ina@acme.com", type := "intern",
         company := some "Acme" },
       { _id := 2750, name := "Pan", email := "pan@acme.com", type := "developer",
         company := some "Acme" },
       { _id := 9, name := "Hra", email := "hr@acme.com", type := "hr", company := some "Acme" }],
    projects :=
      [{ _id := 11, name := "Search", company := "Acme", isApproved := true,
         suggested_by := some "hr@acme.com" }],
    assignments :=
      [{ emptyAssignment 101 11 "Acme" with
         assignedDevelopers := [{ userId := 2748, assignedBy := some 9, assignedAt := 0 }],
         assignedInterns := [{ userId := 2749, assignedBy := some 9, assignedAt := 1 }],
         panelists := [{ userId := 2750, assignedBy := some 9, assignedAt := 2 }] }] }

/-- The random draw `0`. -/
def drawZero : Draw := { num := 0, den := 1, lt := Nat.zero_lt_one }


/-- HR tries to make the mentor of project 10 a panelist of it, draws a random
panelist for it, and assigns the developer as panelist of project 11, then as
its mentor; every identifier in its canonical spelling. -/
def panelOps : List Op :=
  [.assignPanelist hrAcme
     { projectId := some 10, userId := some (.canonical 1), userType := none } 3,
   .assignRandomPanelist hrAcme { projectId := some 10 } drawZero 4,
   .assignPanelist hrAcme
     { projectId := some 11, userId := some (.canonical 1), userType := none } 5,
   .assignUserToProject hrAcme
     { projectId := some 11, userId := some (.canonical 1), userType := some "developer" } 6]

/-- The review body with which HR approves developer 1 as mentor on assignment 101. -/
def approveDevBody : ReviewBody :=
  { assignmentId := some 101, userId := some 1, userType := some "developer",
    status := some "approved" }

/-- The deployment with the developer, mentor of project 10, also a panelist
of project 11 and holding a pending panelist request there. -/
def panelistStore : Store :=
  { demoStore with
    assignments :=
      [{ emptyAssignment 100 10 "Acme" with
         assignedDevelopers := [{ userId := 1, assignedBy := some 9, assignedAt := 0 }] },
       { emptyAssignment 101 11 "Acme" with
         panelists := [{ userId := 1, assignedBy := some 9, assignedAt := 3 }],
         volunteerPanelists := [pendingEntry 1 2] },
       emptyAssignment 200 20 "Globex"] }

/-- The developer volunteers twice as mentor and once as panelist for project
11; HR reviews the mentor request with status `pending`, then rejects it. -/
def volunteerOps : List Op :=
  [.volunteerForProject devAcme { projectId := some 11 } 5,
   .volunteerForProject devAcme { projectId := some 11 } 6,
   .volunteerForPanelist devAcme { projectId := some 11 } 7,
   .reviewVolunteerRequest hrAcme
     { assignmentId := some 101, userId := some 1, userType := some "developer",
       status := some "pending" } 8,
   .reviewVolunteerRequest hrAcme
     { assignmentId := some 101, userId := some 1, userType := some "developer",
       status := some "rejected" } 9]

/-! ## Further deployments: reviewed entries and lenient schemas -/

/-- The mentor request of developer 1, made at time 5 and rejected by HR at
time 6. -/
def rejectedEntry : VolunteerEntry :=
  { userId := 1, requestedAt := 5, status := "rejected", reviewedBy := some 9,
    reviewedAt := some 6 }

/-- The deployment after the developer has volunteered as mentor for project
11 and HR has rejected the request. -/
def rejectedStore : Store :=
  { demoStore with
    assignments :=
      [{ emptyAssignment 100 10 "Acme" with
         assignedDevelopers := [{ userId := 1, assignedBy := some 9, assignedAt := 0 }] },
       { emptyAssignment 101 11 "Acme" with volunteerDevelopers := [rejectedEntry] },
       emptyAssignment 200 20 "Globex"] }

/-- The developer volunteers as mentor for project 11 and HR rejects. -/
def rejectOps : List Op :=
  [.volunteerForProject devAcme { projectId := some 11 } 5,
   .reviewVolunteerRequest hrAcme
     { assignmentId := some 101, userId := some 1, userType := some "developer",
       status := some "rejected" } 6]

/-- An actor allowed to review on an assignment: verified, and either an
admin or an HR user with a company, which is the company of the assignment. -/
def MayReview (actor : Actor) (assignment : ProjectAssignment) : Prop :=
  actor.verified = true ∧
    (actor.type = "admin" ∨
      (actor.type = "hr" ∧ isFalsy actor.company = false ∧ assignment.company = actor.company))

/-! ## What one request does to the stored assignments -/

/-- The three volunteer rosters of an assignment. -/
inductive VolunteerRoster where
  | volunteerDevelopers
  | volunteerInterns
  | volunteerPanelists
  deriving DecidableEq, Repr

/-- Read one of the three volunteer rosters. -/
def ProjectAssignment.volunteers (a : ProjectAssignment) : VolunteerRoster → List VolunteerEntry
  | .volunteerDevelopers => a.volunteerDevelopers
  | .volunteerInterns => a.volunteerInterns
  | .volunteerPanelists => a.volunteerPanelists

/-- Assignment identifiers are pairwise different (Mongo's `_id` index). -/
def UniqueIds (s : Store) : Prop :=
  (s.assignments.map (fun a => a._id)).Nodup

/-- The request is a review call (of either kind) whose body names the
assignment `id` and the user `u`. -/
def Op.reviews (op : Op) (id : AssignmentId) (u : UserId) : Prop :=
  match op with
  | .reviewVolunteerRequest _ body _ => body.assignmentId = some id ∧ body.userId = some u
  | .reviewPanelistVolunteerRequest _ body _ =>
    body.assignmentId = some id ∧ body.userId = some u
  | _ => False

/-- The assignment `id` holds the entry `e` at position `i` of the roster `r`. -/
def EntryAt (s : Store) (id : AssignmentId) (r : VolunteerRoster) (i : Nat)
    (e : VolunteerEntry) : Prop :=
  ∃ a ∈ s.assignments, a._id = id ∧ (a.volunteers r)[i]? = some e

/-- The written document `b` has the identifier of the loaded document `a`,
and still holds the entry `e` at position `i` of the roster `r` if `a` was the
assignment `id` and held it. -/
def Kept (id : AssignmentId) (r : VolunteerRoster) (i : Nat) (e : VolunteerEntry)
    (a b : ProjectAssignment) : Prop :=
  b._id = a._id ∧ (a._id = id → (a.volunteers r)[i]? = some e → (b.volunteers r)[i]? = some e)

/-- Closure of a relation between the loaded and the written document under
the writes the controllers perform; the two review stamps are guarded by what
the request names. -/
structure DocRelation (op : Op) (R : ProjectAssignment → ProjectAssignment → Prop) : Prop where
  refl : ∀ a, R a a
  trans : ∀ a b c, R a b → R b c → R a c
  pushVolunteer : ∀ a f e, R a (a.setVolunteers f (a.getVolunteers f ++ [e]))
  pushVolunteerPanelist : ∀ a e,
    R a { a with volunteerPanelists := a.volunteerPanelists ++ [e] }
  stamp : ∀ a f u g idx, op.reviews a._id u →
    findIndex u (a.getVolunteers f) = some idx →
    R a (a.setVolunteers f (updateAt g (a.getVolunteers f) idx))
  stampPanelist : ∀ a u g idx, op.reviews a._id u →
    findIndex u a.volunteerPanelists = some idx →
    R a { a with volunteerPanelists := updateAt g a.volunteerPanelists idx }
  setAssigned : ∀ a f l, R a (a.setAssigned f l)
  setPanelists : ∀ a l, R a { a with panelists := l }

/-- The shapes a request can give to the assignment collection: untouched, one
stored document written back in place, or one new document appended. -/
def Effect (R : ProjectAssignment → ProjectAssignment → Prop) (s t : Store) : Prop :=
  t.assignments = s.assignments ∨
    (∃ a ∈ s.assignments, ∃ b, b._id = a._id ∧ R a b ∧
      t.assignments = replaceDoc b s.assignments) ∨
    (∃ b, b._id = freshId s ∧ t.assignments = s.assignments ++ [b])

/-- Requests after the rejection that do not review developer 1 on assignment
101: the developer volunteers as panelist, HR reviews an intern nobody entered,
assigns the intern directly and removes the intern again. -/
def bystanderOps : List Op :=
  [.volunteerForPanelist devAcme { projectId := some 11 } 8,
   .reviewVolunteerRequest hrAcme
     { assignmentId := some 101, userId := some 2, userType := some "intern",
       status := some "approved" } 9,
   .assignUserToProject hrAcme
     { projectId := some 11, userId := some (.canonical 2), userType := some "intern" } 10,
   .removeUserFromProject hrAcme
     { assignmentId := some 101, userId := some 2, userType := some "intern" }]

/-- The assignment a successful review leaves, in the words of the
specification: the reviewed volunteer entry `old`, at position `i` of the
roster of the role, carries the decided status, the reviewer and the time of
the review; on approval one entry for the user, assigned by the reviewer, is
appended to `assignedDevelopers` (role developer) or `assignedInterns` (role
intern); everything else is as in the assignment `a` before the review. -/
def reviewOutcome (a : ProjectAssignment) (value : ReviewValue) (reviewer : UserId)
    (now : Timestamp) (i : Nat) (old : VolunteerEntry) : ProjectAssignment :=
  let stamped : VolunteerEntry :=
    { old with status := value.status, reviewedBy := some reviewer, reviewedAt := some now }
  let pushed : AssignedEntry :=
    { userId := value.userId, assignedBy := some reviewer, assignedAt := now }
  { a with
    volunteerDevelopers :=
      if value.userType = "developer" then a.volunteerDevelopers.set i stamped
      else a.volunteerDevelopers,
    volunteerInterns :=
      if value.userType = "intern" then a.volunteerInterns.set i stamped
      else a.volunteerInterns,
    assignedDevelopers :=
      if value.status = "approved" ∧ value.userType = "developer" then
        a.assignedDevelopers ++ [pushed]
      else a.assignedDevelopers,
    assignedInterns :=
      if value.status = "approved" ∧ value.userType = "intern" then a.assignedInterns ++ [pushed]
      else a.assignedInterns }

/-- A schema without a unique index on `projectId`, without required fields,
and with a `userId` path that turns the e-mail addresses of the demo users
into their identifiers: the schema most favourable to `approveProject`. -/
def resolvingSchema : AssignmentSchema :=
  { uniqueProjectId := false, companyRequired := false,
    castUserId := fun e =>
      if e = some "dev@acme.com" then some 1
      else if e = some "hr@acme.com" then some 9
      else none }

/-- The resolving schema with the unique index on `projectId` the
specification describes. -/
def indexedSchema : AssignmentSchema :=
  { resolvingSchema with uniqueProjectId := true }

/-- At most one stored assignment per project. -/
def OnePerProject (s : Store) : Prop :=
  (s.assignments.map (fun a => a.projectId)).Nodup

/-- A roster without the entries of one user, in the words of the
specification. -/
def withoutUser (roster : List AssignedEntry) (userId : UserId) : List AssignedEntry :=
  roster.filter (fun e => decide (e.userId ≠ userId))

/-- An actor allowed to manage a project: verified, and either an admin or an
HR user with a company, which is the company of the project. -/
def MayManage (actor : Actor) (project : Project) : Prop :=
  actor.verified = true ∧
    (actor.type = "admin" ∨
      (actor.type = "hr" ∧ isFalsy actor.company = false ∧
        actor.company = some project.company))

/-- Assignment 101 with intern 2 assigned after an approved request. -/
def internDoc : ProjectAssignment :=
  { emptyAssignment 101 11 "Acme" with
    assignedInterns := [{ userId := 2, assignedBy := some 9, assignedAt := 4 }],
    volunteerInterns :=
      [{ userId := 2, requestedAt := 3, status := "approved", reviewedBy := some 9,
         reviewedAt := some 4 }] }

/-- The deployment with intern 2 assigned to project 11. -/
def internStore : Store :=
  { demoStore with
    assignments :=
      [{ emptyAssignment 100 10 "Acme" with
         assignedDevelopers := [{ userId := 1, assignedBy := some 9, assignedAt := 0 }] },
       internDoc,
       emptyAssignment 200 20 "Globex"] }

/-- Assignment 101 as it is in `panelistStore`: developer 1 is a panelist and
holds a pending panelist request. -/
def panelistDoc : ProjectAssignment :=
  { emptyAssignment 101 11 "Acme" with
    panelists := [{ userId := 1, assignedBy := some 9, assignedAt := 3 }],
    volunteerPanelists := [pendingEntry 1 2] }

/-- Project 21 is approved twice. -/
def approveTwiceOps : List Op :=
  [.approveProject hrAcme 21 7, .approveProject hrAcme 21 8]

/-- The deployment with project 21 approved and not yet given an assignment. -/
def approvedStore : Store :=
  { demoStore with
    projects :=
      [{ _id := 10, name := "Billing", company := "Acme", isApproved := true,
         suggested_by := some "hr@acme.com" },
       { _id := 11, name := "Search", company := "Acme", isApproved := true,
         suggested_by := some "hr@acme.com" },
       { _id := 21, name := "Draft", company := "Acme", isApproved := true,
         suggested_by := some "dev@acme.com" },
       { _id := 20, name := "Ledger", company := "Globex", isApproved := true,
         suggested_by := none }] }

/-- The request is a call of `approveProject`. -/
def Op.isApproval (op : Op) : Bool :=
  match op with
  | .approveProject _ _ _ => true
  | _ => false

/-- A request that appends a document to the assignment collection appends it
for a project that had none. -/
def AppendGuarded (s t : Store) : Prop :=
  ∀ b, t.assignments = s.assignments ++ [b] →
    ProjectAssignment.findOne s b.projectId = none

/-- Requests that can create an assignment, none of them `approveProject`: HR
initialises project 10 (refused: it has an assignment), assigns intern 2 to
project 21, which has no assignment yet, developer 1 volunteers as panelist
for project 11, and HR names developer 1 panelist of project 21. -/
def creatorOps : List Op :=
  [.initializeProjectAssignment hrAcme { projectId := some 10 },
   .assignUserToProject hrAcme
     { projectId := some 21, userId := some (.canonical 2), userType := some "intern" } 3,
   .volunteerForPanelist devAcme { projectId := some 11 } 4,
   .assignPanelist hrAcme
     { projectId := some 21, userId := some (.canonical 1), userType := some "developer" } 5]


/-! ## Definitions for the assigned rosters, the company copy and volunteering -/

/-- A verified, approved intern of Acme. -/
def internAcme : Actor :=
  { userId := 2, email := "ina@acme.com", verified := true, type := "intern",
    company := some "Acme", isApproved := true }

/-- A verified, approved HR user of Globex. -/
def hrGlobex : Actor :=
  { userId := 39, email := "hr@globex.com", verified := true, type := "hr",
    company := some "Globex", isApproved := true }

/-- A verified administrator; the token of an administrator carries no company. -/
def adminRoot : Actor :=
  { userId := 99, email := "root@example.com", verified := true, type := "admin",
    company := none, isApproved := true }

/-- An assigned roster holds at most one entry per user. -/
def AssignedOnce (roster : List AssignedEntry) : Prop :=
  (roster.map (fun e => e.userId)).Nodup

/-- Each of the three assigned rosters holds at most one entry per user. -/
def AssignedUnique (a : ProjectAssignment) : Prop :=
  AssignedOnce a.assignedDevelopers ∧ AssignedOnce a.assignedInterns ∧ AssignedOnce a.panelists

/-- The intern volunteers for project 11, is then assigned directly by HR, and
the pending request is then approved. -/
def doubleInternOps : List Op :=
  [.volunteerForProject internAcme { projectId := some 11 } 3,
   .assignUserToProject hrAcme
     { projectId := some 11, userId := some (.canonical 2), userType := some "intern" } 4,
   .reviewVolunteerRequest hrAcme
     { assignmentId := some 101, userId := some 2, userType := some "intern",
       status := some "approved" } 5]

/-- The developer volunteers as panelist for project 11, is then named panelist
directly by HR, and the pending request is then approved. -/
def doublePanelistOps : List Op :=
  [.volunteerForPanelist devAcme { projectId := some 11 } 3,
   .assignPanelist hrAcme
     { projectId := some 11, userId := some (.canonical 1), userType := some "developer" } 4,
   .reviewPanelistVolunteerRequest hrAcme
     { assignmentId := some 101, userId := some 1, userType := some "developer",
       status := some "approved" } 5]

/-- The company of every stored assignment is the company of the project its
`projectId` refers to. -/
def CompanyCopied (s : Store) : Prop :=
  ∀ a ∈ s.assignments, ∀ p, Project.findById s (some a.projectId) = some p →
    a.company = some p.company

/-- Body assigning intern 2 to developer 1 on project 21. -/
def internToDevBody : InternAssignBody :=
  { internId := some (.canonical 2), developerId := some 1, projectId := some 21 }

/-- The assignment a successful volunteer request leaves, in the words of the
specification: the assignment `a` with one entry for the actor, status
`pending`, appended to `volunteerDevelopers` when the actor is a developer and
to `volunteerInterns` otherwise; every other field as in `a`. -/
def volunteerOutcome (a : ProjectAssignment) (actor : Actor) (now : Timestamp) :
    ProjectAssignment :=
  if actor.type = "developer" then
    { a with
      volunteerDevelopers :=
        a.volunteerDevelopers ++
          [{ userId := actor.userId, requestedAt := now, status := "pending",
             reviewedBy := none, reviewedAt := none }] }
  else
    { a with
      volunteerInterns :=
        a.volunteerInterns ++
          [{ userId := actor.userId, requestedAt := now, status := "pending",
             reviewedBy := none, reviewedAt := none }] }

/-- A fresh assignment for a project, in the words of the specification: the
project reference, the project's company and six empty rosters. -/
def freshAssignment (s : Store) (project : Project) : ProjectAssignment :=
  { _id := freshId s, projectId := project._id, company := some project.company,
    assignedDevelopers := [], assignedInterns := [], panelists := [],
    volunteerDevelopers := [], volunteerInterns := [], volunteerPanelists := [] }

/-! ## The project controllers of `projectsController.js`

`addProject`, `updateProject` and `deleteProject` act on the project
collection of the store; `id` is the route parameter. Of a project document
the controllers read `company` and `isApproved`; `description`,
`skillRequirement` and `estimatedTimeToComplete` pass through validation and
are not kept in the model of the document. -/

/-- Body of `addProject` and `updateProject`: the keys `projectSchema` admits. -/
structure ProjectBody where
  name : Option String
  company : Option String
  description : Option String
  skillRequirement : Option (List String)
  estimatedTimeToComplete : Option String
  suggested_by : Option String
  isApproved : Option Bool
  deriving DecidableEq, Repr

/-- A project body that passed validation. -/
structure ProjectValue where
  name : String
  company : String
  description : String
  skillRequirement : List String
  estimatedTimeToComplete : String
  suggested_by : Option String
  isApproved : Option Bool
  deriving DecidableEq, Repr

/-- Property `length` of a JavaScript string: the number of UTF-16 code
units, two for every character outside the Basic Multilingual Plane. -/
def utf16Length (x : String) : Nat :=
  (x.data.map (fun c => if c.toNat < 65536 then 1 else 2)).sum

/-- Rule `Joi.string().min(lo).max(hi)`, which compares `value.length`. -/
def lengthWithin (lo hi : Nat) (x : String) : Bool :=
  decide (lo ≤ utf16Length x) && decide (utf16Length x ≤ hi)

/-- Schema `projectSchema` of `middlewares/validator.js`: five required
fields with their length bounds, at least one skill, and the two optional
fields `suggested_by` and `isApproved`. -/
def projectSchema (b : ProjectBody) : Option ProjectValue :=
  match b.name, b.company, b.description, b.skillRequirement, b.estimatedTimeToComplete with
  | some name, some company, some description, some skills, some estimated =>
    if lengthWithin 2 100 name && lengthWithin 2 100 company
        && lengthWithin 10 1000 description
        && skills.all (lengthWithin 1 50) && decide (1 ≤ skills.length)
        && lengthWithin 2 100 estimated
        && (match b.suggested_by with
            | none => true
            | some x => lengthWithin 2 100 x) then
      some { name := name, company := company, description := description,
             skillRequirement := skills, estimatedTimeToComplete := estimated,
             suggested_by := b.suggested_by, isApproved := b.isApproved }
    else none
  | _, _, _, _, _ => none

/-- White space and line terminators of JavaScript, which `trim` strips. -/
def isJsWhitespace (c : Char) : Bool :=
  (decide (9 ≤ c.toNat) && decide (c.toNat ≤ 13)) || c.toNat == 32 || c.toNat == 160
    || c.toNat == 5760 || (decide (8192 ≤ c.toNat) && decide (c.toNat ≤ 8202))
    || c.toNat == 8232 || c.toNat == 8233 || c.toNat == 8239 || c.toNat == 8287
    || c.toNat == 12288 || c.toNat == 65279

/-- The setter `trim: true` of the project schema. -/
def jsTrim (x : String) : String :=
  String.mk (((x.data.dropWhile isJsWhitespace).reverse.dropWhile isJsWhitespace).reverse)

/-- An identifier no stored project carries. -/
def freshProjectId (s : Store) : ProjectId :=
  (s.projects.map (fun p => p._id)).foldr max 0 + 1

/-- Write `Project.findByIdAndDelete(id)`. -/
def removeProject (id : ProjectId) : List Project → List Project
  | [] => []
  | x :: xs => if x._id = id then xs else x :: removeProject id xs

/-- Controller `exports.addProject`. `Project.create` trims the strings and
then validates the document; a required string that is empty after trimming
makes it throw, which ends in the `catch` block. -/
def addProject (s : Store) (actor : Actor) (body : ProjectBody) : Result :=
  if !actor.verified then reply s 403 (some false)
  else if !(["admin", "developer", "hr"].contains actor.type) then reply s 403 (some false)
  else if actor.type ≠ "admin" ∧
      ¬ ((actor.type = "hr" ∨ actor.type = "developer") ∧ actor.isApproved = true ∧
        actor.company = body.company) then
    reply s 403 (some false)
  else
    match projectSchema body with
    | none => reply s 400 (some false)
    | some value =>
      let suggested_by :=
        if actor.type = "developer" then some actor.email
        else if actor.type = "hr" ∨ actor.type = "admin" then some actor.email
        else value.suggested_by
      let isApproved :=
        if actor.type = "developer" then some false
        else if actor.type = "hr" ∨ actor.type = "admin" then some true
        else value.isApproved
      if jsTrim value.name = "" ∨ jsTrim value.company = "" ∨ jsTrim value.description = "" ∨
          jsTrim value.estimatedTimeToComplete = "" then
        reply s 500 (some false)
      else
        let created : Project :=
          { _id := freshProjectId s, name := jsTrim value.name,
            company := jsTrim value.company, isApproved := isApproved.getD false,
            suggested_by := suggested_by.map jsTrim }
        { res := { status := 201, success := some true },
          store := { s with projects := s.projects ++ [created] } }

/-- The document after `Project.findByIdAndUpdate(id, { ...value, updatedAt })`:
every key of the validated body is set, the strings trimmed. -/
def applyProjectUpdate (existing : Project) (value : ProjectValue) : Project :=
  { existing with
    name := jsTrim value.name,
    company := jsTrim value.company,
    suggested_by :=
      match value.suggested_by with
      | some x => some (jsTrim x)
      | none => existing.suggested_by,
    isApproved := value.isApproved.getD existing.isApproved }

/-- Controller `exports.updateProject`. -/
def updateProject (s : Store) (actor : Actor) (id : ProjectId) (body : ProjectBody) : Result :=
  if !actor.verified then reply s 403 (some false)
  else
    match Project.findById s (some id) with
    | none => reply s 404 (some false)
    | some existingProject =>
      if !(["admin", "developer", "hr"].contains actor.type) then reply s 403 (some false)
      else if actor.type ≠ "admin" ∧
          ¬ ((actor.type = "hr" ∨ actor.type = "developer") ∧ actor.isApproved = true) then
        reply s 403 (some false)
      else if actor.type ≠ "admin" ∧ actor.company ≠ some existingProject.company then
        reply s 403 (some false)
      else
        match projectSchema body with
        | none => reply s 400 (some false)
        | some value =>
          { res := { status := 200, success := some true },
            store :=
              { s with
                projects :=
                  replaceProject (applyProjectUpdate existingProject value) s.projects } }

/-- Controller `exports.deleteProject`. -/
def deleteProject (s : Store) (actor : Actor) (id : ProjectId) : Result :=
  if !actor.verified then reply s 403 (some false)
  else
    match Project.findById s (some id) with
    | none => reply s 404 (some false)
    | some existingProject =>
      if !(["admin", "developer", "hr"].contains actor.type) then reply s 403 (some false)
      else if actor.type ≠ "admin" ∧
          ¬ ((actor.type = "hr" ∨ actor.type = "developer") ∧ actor.isApproved = true) then
        reply s 403 (some false)
      else if actor.type ≠ "admin" ∧ actor.company ≠ some existingProject.company then
        reply s 403 (some false)
      else
        { res := { status := 200, success := some true },
          store := { s with projects := removeProject id s.projects } }

/-- A valid project body for Acme that asks for `isApproved: true`. -/
def approvingBody : ProjectBody :=
  { name := some "Draft", company := some "Acme", description := some "A drafted project",
    skillRequirement := some ["lean"], estimatedTimeToComplete := some "2 weeks",
    suggested_by := none, isApproved := some true }

/-! ## Notification mails

`sendProjectAssignmentEmail` and `notifyAllProjectMembers` of
`projectAssignmentsController.js`, and the three controllers that call them,
with the mails handed to the transport and the calls of
`notifyAllProjectMembers` recorded next to the outcome of the request. -/

/-- The object handed to `mailTransport.sendMail`: `to_` is its key `to`; `from`
is read from the environment and left out. -/
structure MailOptions where
  to_ : String
  subject : String
  text : String
  deriving DecidableEq, Repr

/-- Behaviour of what `notifyAllProjectMembers` awaits. The transport
(`middlewares/sendMail`, not among the sources) resolves or rejects each
`sendMail`, possibly depending on the mails handed over before; the two
database lookups of `notifyAllProjectMembers` can throw. -/
structure MailEnv where
  sendMail : List MailOptions → MailOptions → Bool
  findAssignmentThrows : Bool
  findUserThrows : Bool

/-- How an awaited call ends for its caller. -/
inductive Completion where
  | returned
  | threw
  deriving DecidableEq, Repr

/-- The role shown for a team member in the mail text. -/
def memberRole (type : String) : String :=
  if type = "developer" then "Mentor"
  else if type = "intern" then "Intern"
  else if type = "panelist" then "Panelist"
  else ""

/-- Function `sendProjectAssignmentEmail`: the mail is built and handed to the
transport inside `try`; the `catch` block is empty. The result is how the call
ends and the mails handed to the transport so far. -/
def sendProjectAssignmentEmail (env : MailEnv) (sent : List MailOptions)
    (userEmail userName projectName assignedUserName assignedUserRole : String)
    (teamMembers : List User) : Completion × List MailOptions :=
  let joined := "\n".intercalate
    (teamMembers.map (fun member =>
      member.name ++ " (" ++ member.email ++ ") - " ++ memberRole member.type))
  let teamDetails :=
    if joined = "" then "You are the first member of this project team." else joined
  let mailOptions : MailOptions :=
    { to_ := userEmail,
      subject := "Project Assignment Update: " ++ projectName,
      text := "Hello " ++ userName ++ ",\n\nThere has been an update to the project \"" ++
        projectName ++ "\".\n\n" ++ assignedUserName ++ " has been assigned as " ++
        assignedUserRole ++ ".\n\nCurrent Project Team:\n" ++ teamDetails ++
        "\n\nRegards,\nThe TallyIntern Team" }
  if env.sendMail sent mailOptions then (.returned, sent ++ [mailOptions])
  else (.returned, sent ++ [mailOptions])

/-- Test `haystack.includes(needle)` on character lists. -/
def includesChars (needle : List Char) : List Char → Bool
  | [] => needle.isEmpty
  | c :: cs => needle.isPrefixOf (c :: cs) || includesChars needle cs

/-- Test `role.toLowerCase().includes(word)`. -/
def lowerIncludes (role word : String) : Bool :=
  includesChars word.data (role.data.map Char.toLower)

/-- The role string put into the mail body for the newly assigned user. -/
def assignedRoleString (newlyAssignedUserRole : String) : String :=
  if lowerIncludes newlyAssignedUserRole "developer" ||
      lowerIncludes newlyAssignedUserRole "mentor" then "Mentor"
  else if lowerIncludes newlyAssignedUserRole "intern" then "Intern"
  else if lowerIncludes newlyAssignedUserRole "panelist" then "Panelist"
  else newlyAssignedUserRole

/-- The spread `{ ...entry.userId._doc, type }` over a populated roster. A
reference to a user that is not stored populates as `null`, and reading
`_doc` of it throws (`none`). -/
def populateMembers (s : Store) (type : String) : List AssignedEntry → Option (List User)
  | [] => some []
  | e :: es =>
    match User.findById s (some e.userId), populateMembers s type es with
    | some u, some rest => some ({ u with type := type } :: rest)
    | _, _ => none

/-- The loop `for (const member of allMembers)` of `notifyAllProjectMembers`. -/
def sendToMembers (env : MailEnv) (projectName assignedUserName newlyAssignedUserRole : String)
    (allMembers : List User) : List User → List MailOptions → Completion × List MailOptions
  | [], sent => (.returned, sent)
  | member :: rest, sent =>
    match sendProjectAssignmentEmail env sent member.email member.name projectName
        assignedUserName (assignedRoleString newlyAssignedUserRole) allMembers with
    | (.returned, sent1) =>
      sendToMembers env projectName assignedUserName newlyAssignedUserRole allMembers rest sent1
    | (.threw, sent1) => (.threw, sent1)

/-- The members `notifyAllProjectMembers` writes to: the three rosters of the
assignment, the newly assigned user when not among them, and of these the
ones with an e-mail address and a name. -/
def gatherMembers (s : Store) (assignment : ProjectAssignment) (newlyAssignedUser : User)
    (newlyAssignedUserRole : String) : Option (List User) :=
  match populateMembers s "developer" assignment.assignedDevelopers,
      populateMembers s "intern" assignment.assignedInterns,
      populateMembers s "panelist" assignment.panelists with
  | some developers, some interns, some panelists =>
    let allMembers := developers ++ interns ++ panelists
    let isNewlyAssignedUserInList := allMembers.any (fun m => m._id == newlyAssignedUser._id)
    let allMembers :=
      if isNewlyAssignedUserInList then allMembers
      else
        allMembers ++
          [{ newlyAssignedUser with
             type :=
               if newlyAssignedUserRole = "Mentor" then "developer"
               else if newlyAssignedUserRole = "Intern" then "intern"
               else "panelist" }]
    some (allMembers.filter (fun m => m.email != "" && m.name != ""))
  | _, _, _ => none

/-- The `try` block of `notifyAllProjectMembers`. -/
def notifyBody (env : MailEnv) (s : Store) (projectId : ProjectId) (newlyAssignedUser : User)
    (newlyAssignedUserRole : String) (triggeredByUserId : UserId) :
    Completion × List MailOptions :=
  if env.findAssignmentThrows then (.threw, [])
  else
    match ProjectAssignment.findOne s projectId with
    | none => (.returned, [])
    | some assignment =>
      match Project.findById s (some assignment.projectId) with
      | none => (.returned, [])
      | some project =>
        if env.findUserThrows then (.threw, [])
        else
          match User.findById s (some triggeredByUserId) with
          | none => (.returned, [])
          | some triggeringUser =>
            if triggeringUser.type ≠ "admin" ∧
                (triggeringUser.type ≠ "hr" ∨ triggeringUser.company ≠ some project.company) then
              (.returned, [])
            else
              match gatherMembers s assignment newlyAssignedUser newlyAssignedUserRole with
              | none => (.threw, [])
              | some allMembers =>
                sendToMembers env project.name newlyAssignedUser.name newlyAssignedUserRole
                  allMembers allMembers []

/-- Function `notifyAllProjectMembers`: whatever the `try` block throws is
logged by the `catch` block. -/
def notifyAllProjectMembers (env : MailEnv) (s : Store) (projectId : ProjectId)
    (newlyAssignedUser : User) (newlyAssignedUserRole : String) (triggeredByUserId : UserId) :
    Completion × List MailOptions :=
  match notifyBody env s projectId newlyAssignedUser newlyAssignedUserRole triggeredByUserId with
  | (.returned, sent) => (.returned, sent)
  | (.threw, sent) => (.returned, sent)

/-- One call of `notifyAllProjectMembers` with its arguments. -/
structure NotifyCall where
  projectId : ProjectId
  newlyAssignedUser : User
  newlyAssignedUserRole : String
  triggeredByUserId : UserId
  deriving DecidableEq, Repr

/-- Outcome of a request together with the calls of `notifyAllProjectMembers`
it made and the mails it handed to the transport. -/
structure Traced where
  result : Result
  notified : List NotifyCall
  sent : List MailOptions
  deriving DecidableEq, Repr

/-- A request that ends without reaching a notification. -/
def Traced.quiet (r : Result) : Traced :=
  { result := r, notified := [], sent := [] }

/-- What follows `await notifyAllProjectMembers(..)` in a controller: the
response prepared after the save when the call returns, the `catch` block of
the controller when it throws. -/
def afterNotify (saved : Result) (call : NotifyCall) (n : Completion × List MailOptions) :
    Traced :=
  match n.1 with
  | .returned => { result := saved, notified := [call], sent := n.2 }
  | .threw =>
    { result := { res := { status := 500, success := some false }, store := saved.store },
      notified := [call], sent := n.2 }

/-- Controller `exports.reviewVolunteerRequest` with its notification: after
the save of an approval the user is looked up and, when found,
`notifyAllProjectMembers` is awaited. -/
def reviewVolunteerRequestTraced (env : MailEnv) (s : Store) (actor : Actor)
    (body : ReviewBody) (now : Timestamp) : Traced :=
  if !actor.verified then .quiet (reply s 403 (some false))
  else if !(["hr", "admin"].contains actor.type) then .quiet (reply s 403 (some false))
  else
    match reviewVolunteerSchema body with
    | none => .quiet (reply s 400 (some false))
    | some value =>
      match ProjectAssignment.findById s value.assignmentId with
      | none => .quiet (reply s 404 (some false))
      | some assignment =>
        if actor.type = "hr" ∧ (isFalsy actor.company ∨ assignment.company ≠ actor.company) then
          .quiet (reply s 403 (some false))
        else
          let volunteerField := volunteerFieldOf value.userType
          match findIndex value.userId (assignment.getVolunteers volunteerField) with
          | none => .quiet (reply s 404 (some false))
          | some volunteerIndex =>
            let reviewed := assignment.setVolunteers volunteerField
              (updateAt (stampReview value.status actor.userId now)
                (assignment.getVolunteers volunteerField) volunteerIndex)
            if value.status = "approved" then
              if value.userType = "developer" ∧ hasUser reviewed.panelists value.userId then
                .quiet (reply s 400 (some false))
              else
                let assignedField := assignedFieldOf value.userType
                let saved := updateAndReply s
                  (reviewed.setAssigned assignedField
                    (reviewed.getAssigned assignedField ++
                      [assignedEntry value.userId (some actor.userId) now]))
                  200
                match User.findById saved.store (some value.userId) with
                | some user =>
                  let role := if value.userType = "developer" then "Mentor" else "Intern"
                  afterNotify saved
                    { projectId := assignment.projectId, newlyAssignedUser := user,
                      newlyAssignedUserRole := role, triggeredByUserId := actor.userId }
                    (notifyAllProjectMembers env saved.store assignment.projectId user role
                      actor.userId)
                | none => .quiet saved
            else .quiet (updateAndReply s reviewed 200)

/-- Controller `exports.assignUserToProject` with its notification. -/
def assignUserToProjectTraced (env : MailEnv) (cfg : AssignmentSchema) (s : Store)
    (actor : Actor) (body : AssignBody) (now : Timestamp) : Traced :=
  if !actor.verified then .quiet (reply s 403 (some false))
  else if !(["hr", "admin"].contains actor.type) then .quiet (reply s 403 (some false))
  else
    match assignUserSchema body with
    | none => .quiet (reply s 400 (some false))
    | some value =>
      match Project.findById s (some value.projectId) with
      | none => .quiet (reply s 404 (some false))
      | some project =>
        match value.userId.cast with
        | none => .quiet (reply s 500 (some false))
        | some userId =>
          match User.findById s (some userId) with
          | none => .quiet (reply s 404 (some false))
          | some user =>
            if user.type ≠ value.userType then .quiet (reply s 400 (some false))
            else if actor.type = "hr" ∧ isFalsy actor.company then
              .quiet (reply s 403 (some false))
            else if actor.type = "hr" ∧ some project.company ≠ actor.company then
              .quiet (reply s 403 (some false))
            else if actor.type = "hr" ∧ user.company ≠ actor.company then
              .quiet (reply s 403 (some false))
            else
              let assignment := (ProjectAssignment.findOne s value.projectId).getD
                (ProjectAssignment.new s value.projectId (some project.company) [])
              if value.userType = "developer" ∧
                  (ProjectAssignment.findOneByMentor s userId).isSome then
                .quiet (reply s 400 (some false))
              else if value.userType = "developer" ∧
                  hasUserString assignment.panelists value.userId then
                .quiet (reply s 400 (some false))
              else
                let assignedField := assignedFieldOf value.userType
                let existingUserInProject :=
                  (assignment.getAssigned assignedField).find?
                    (fun a => ObjectId.toString a.userId == value.userId)
                if existingUserInProject.isSome then .quiet (reply s 400 (some false))
                else
                  match ProjectAssignment.save cfg s
                      (assignment.setAssigned assignedField
                        (assignment.getAssigned assignedField ++
                          [assignedEntry userId (some actor.userId) now])) with
                  | none => .quiet (reply s 500 (some false))
                  | some s1 =>
                    let saved : Result :=
                      { res := { status := 201, success := some true }, store := s1 }
                    match User.findById s1 (some userId) with
                    | some assignedUser =>
                      let role :=
                        if value.userType = "developer" then "Mentor"
                        else if value.userType = "intern" then "Intern"
                        else "Panelist"
                      afterNotify saved
                        { projectId := value.projectId, newlyAssignedUser := assignedUser,
                          newlyAssignedUserRole := role, triggeredByUserId := actor.userId }
                        (notifyAllProjectMembers env s1 value.projectId assignedUser role
                          actor.userId)
                    | none => .quiet saved

/-- Controller `exports.reviewPanelistVolunteerRequest` with its notification. -/
def reviewPanelistVolunteerRequestTraced (env : MailEnv) (s : Store) (actor : Actor)
    (body : ReviewBody) (now : Timestamp) : Traced :=
  if !actor.verified then .quiet (reply s 403 (some false))
  else if !(["hr", "admin"].contains actor.type) then .quiet (reply s 403 (some false))
  else
    match reviewVolunteerSchema body with
    | none => .quiet (reply s 400 (some false))
    | some value =>
      match ProjectAssignment.findById s value.assignmentId with
      | none => .quiet (reply s 404 (some false))
      | some assignment =>
        if actor.type = "hr" ∧ (isFalsy actor.company ∨ assignment.company ≠ actor.company) then
          .quiet (reply s 403 (some false))
        else
          match findIndex value.userId assignment.volunteerPanelists with
          | none => .quiet (reply s 404 (some false))
          | some volunteerIndex =>
            if value.status = "approved" ∧ hasUser assignment.assignedDevelopers value.userId then
              .quiet (reply s 400 (some false))
            else
              let reviewed := { assignment with
                volunteerPanelists :=
                  updateAt (stampReview value.status actor.userId now)
                    assignment.volunteerPanelists volunteerIndex }
              if value.status = "approved" then
                let saved := updateAndReply s
                  { reviewed with
                    panelists :=
                      reviewed.panelists ++ [assignedEntry value.userId (some actor.userId) now] }
                  200
                match User.findById saved.store (some value.userId) with
                | some user =>
                  afterNotify saved
                    { projectId := assignment.projectId, newlyAssignedUser := user,
                      newlyAssignedUserRole := "Panelist", triggeredByUserId := actor.userId }
                    (notifyAllProjectMembers env saved.store assignment.projectId user "Panelist"
                      actor.userId)
                | none => .quiet saved
              else .quiet (updateAndReply s reviewed 200)

/-- Dispatch of one request with its notifications. The source of the three
controllers above calls `notifyAllProjectMembers`; no other roster-mutating
controller contains a call of it or of the mail transport. -/
def stepTraced (env : MailEnv) (cfg : AssignmentSchema) (s : Store) : Op → Traced
  | .reviewVolunteerRequest actor body now => reviewVolunteerRequestTraced env s actor body now
  | .assignUserToProject actor body now => assignUserToProjectTraced env cfg s actor body now
  | .reviewPanelistVolunteerRequest actor body now =>
    reviewPanelistVolunteerRequestTraced env s actor body now
  | op => .quiet (step cfg s op)

/-- A member-adding request that succeeded: an approving review of either
kind, a direct assignment, a direct or a random panelist assignment, answered
with `success: true`. -/
def Op.addsMember (cfg : AssignmentSchema) (s : Store) (op : Op) : Prop :=
  (step cfg s op).res.success = some true ∧
    match op with
    | .reviewVolunteerRequest _ body _ => body.status = some "approved"
    | .reviewPanelistVolunteerRequest _ body _ => body.status = some "approved"
    | .assignUserToProject _ _ _ => True
    | .assignPanelist _ _ _ => True
    | .assignRandomPanelist _ _ _ _ => True
    | _ => False

/-- A transport that rejects every mail, with both lookups throwing. -/
def failingEnv : MailEnv :=
  { sendMail := fun _ _ => false, findAssignmentThrows := true, findUserThrows := true }

/-- A transport that delivers every mail. -/
def workingEnv : MailEnv :=
  { sendMail := fun _ _ => true, findAssignmentThrows := false, findUserThrows := false }

/-- A transport that rejects the mails to `dev@acme.com` and delivers the rest. -/
def flakyEnv : MailEnv :=
  { sendMail := fun _ m => m.to_ != "dev@acme.com", findAssignmentThrows := false,
    findUserThrows := false }

/-- The demo deployment with an administrator among the users and project 10
deleted; its assignment 100, with developer 1 as mentor, is still stored. -/
def orphanStore : Store :=
  { demoStore with
    users := demoStore.users ++
      [{ _id := 99, name := "Root", email := "root@example.com", type := "admin",
         company := none }],
    projects := removeProject 10 demoStore.projects }

/-- The demo deployment with an administrator among the users and, in
`panelists` of assignment 100, a reference to user 77, who is not stored. -/
def danglingStore : Store :=
  { demoStore with
    users := demoStore.users ++
      [{ _id := 99, name := "Root", email := "root@example.com", type := "admin",
         company := none }],
    assignments :=
      [{ emptyAssignment 100 10 "Acme" with
         assignedDevelopers := [{ userId := 1, assignedBy := some 9, assignedAt := 0 }],
         panelists := [{ userId := 77, assignedBy := some 9, assignedAt := 1 }] },
       emptyAssignment 101 11 "Acme",
       emptyAssignment 200 20 "Globex"] }

/-- User 1 of the demo deployment. -/
def userDev : User :=
  { _id := 1, name := "Dev", email := "dev@acme.com", type := "developer",
    company := some "Acme" }

/-- User 2 of the demo deployment. -/
def userIna : User :=
  { _id := 2, name := "Ina", email := "ina@acme.com", type := "intern",
    company := some "Acme" }

/-- HR names developer 1 panelist of project 11. -/
def directPanelistOp : Op :=
  .assignPanelist hrAcme { projectId := some 11, userId := some (.canonical 1), userType := none } 4

/-- HR draws a random panelist for project 11. -/
def randomPanelistOp : Op :=
  .assignRandomPanelist hrAcme { projectId := some 11 } drawZero 4

/-- HR assigns intern 2 to project 11. -/
def directInternOp : Op :=
  .assignUserToProject hrAcme
    { projectId := some 11, userId := some (.canonical 2), userType := some "intern" } 4

/-- HR approves the panelist request of developer 1 on assignment 101. -/
def approvePanelistOp : Op :=
  .reviewPanelistVolunteerRequest hrAcme
    { assignmentId := some 101, userId := some 1, userType := some "developer",
      status := some "approved" } 5

/-- The demo deployment after developer 1 has volunteered as panelist for
project 11. -/
def panelRequestStore : Store :=
  { demoStore with
    assignments :=
      [{ emptyAssignment 100 10 "Acme" with
         assignedDevelopers := [{ userId := 1, assignedBy := some 9, assignedAt := 0 }] },
       { emptyAssignment 101 11 "Acme" with volunteerPanelists := [pendingEntry 1 3] },
       emptyAssignment 200 20 "Globex"] }

/-! ## Calendar

A JavaScript `Date` is seen in the time zone of the server, which is taken to
have days of 24 hours: a date is a local calendar day, counted from 1 January
1970, and the milliseconds since local midnight. -/

/-- A `Date` (or `moment`) value. -/
structure JsDate where
  day : Int
  ms : Nat
  deriving DecidableEq, Repr

/-- Method `getDay()` of a `Date` and `day()` of a `moment`: 0 is Sunday, 6 is
Saturday; 1 January 1970 was a Thursday. -/
def getDay (day : Int) : Int := (day + 4) % 7

/-- Calls `date.setHours(0, 0, 0, 0)` and `moment(..).startOf('day')`. -/
def JsDate.startOfDay (d : JsDate) : JsDate := { d with ms := 0 }

/-- Call `date.setDate(date.getDate() - 1)`. -/
def JsDate.previousDay (d : JsDate) : JsDate := { d with day := d.day - 1 }

/-- Comparison `a < b` of two dates, by their instants (`ms` below one day). -/
def JsDate.before (a b : JsDate) : Bool :=
  decide (a.day < b.day) || (decide (a.day = b.day) && decide (a.ms < b.ms))

/-! ## `getPreviousWorkingDays` of `utils/autoMarkAbsentees.js` -/

/-- The `while (days.length < numDays)` loop; `fuel` bounds the number of
iterations and the result is `none` when it is used up before the loop ends. -/
def workingDaysLoop (numDays : Nat) : Nat → JsDate → List JsDate → Option (List JsDate)
  | 0, _, days => if days.length < numDays then none else some days
  | fuel + 1, date, days =>
    if days.length < numDays then
      let date := date.previousDay
      let day := getDay date.day
      if day ≠ 0 ∧ day ≠ 6 then workingDaysLoop numDays fuel date (days ++ [date])
      else workingDaysLoop numDays fuel date days
    else some days

/-- Function `getPreviousWorkingDays(numDays, fromDate)`. -/
def getPreviousWorkingDays (fuel : Nat) (numDays : Nat) (fromDate : JsDate) :
    Option (List JsDate) :=
  workingDaysLoop numDays fuel fromDate.startOfDay []

/-- A day from Monday to Friday. -/
def isWeekday (day : Int) : Prop := getDay day ≠ 0 ∧ getDay day ≠ 6

instance (day : Int) : Decidable (isWeekday day) := by
  unfold isWeekday
  exact inferInstance

/-! ## The attendance backfill of `attendanceController.js`

Every writer of the attendance collection stores the local midnight of a day
as `date` (`checkIn`: `moment().startOf('day')`; the backfill: a clone of
`currentDate`, which starts at `startOf('day')` and advances by whole days;
`autoMarkAbsentees`: `setHours(0, 0, 0, 0)`), so a stored `date` is
represented by its calendar day. -/

/-- The value of `markedBy`: the string `'System'` or a user. -/
inductive MarkedBy where
  | system
  | user (id : UserId)
  deriving DecidableEq, Repr

/-- A document of `models/attendanceModel.js`. -/
structure Attendance where
  userId : UserId
  date : Int
  checkIn : Option JsDate
  status : String
  remarks : Option String
  markedBy : Option MarkedBy
  markedAt : Option JsDate
  deriving DecidableEq, Repr

/-- Write `Attendance.create(doc)` under the unique index on
`{ userId, date }`: a second document for a key is rejected with the
duplicate-key code 11000. -/
def Attendance.create (att : List Attendance) (doc : Attendance) :
    Except Nat (List Attendance) :=
  if att.any (fun r => r.userId == doc.userId && r.date == doc.date) then .error 11000
  else .ok (att ++ [doc])

/-- The populated `internshipId` of an application. -/
structure Internship where
  internshipStartDate : Option JsDate
  internshipEndDate : Option JsDate
  deriving DecidableEq, Repr

/-- A document of `models/applicationModel.js` with `internshipId` populated
(`none` when the internship is gone). -/
structure Application where
  userId : UserId
  status : String
  internshipId : Option Internship
  deriving DecidableEq, Repr

/-- A value of the map `internData`. -/
structure InternData where
  startDate : JsDate
  endDate : Option JsDate
  userId : UserId
  deriving DecidableEq, Repr

/-- Call `internData.set(internId, entry)`: a key already in the map keeps its
place. -/
def internDataSet (entry : InternData) : List InternData → List InternData
  | [] => [entry]
  | x :: xs => if x.userId = entry.userId then entry :: xs else x :: internDataSet entry xs

/-- The body of `applications.forEach(..)`. -/
def collectStep (internData : List InternData) (application : Application) : List InternData :=
  match application.internshipId with
  | none => internData
  | some internship =>
    match internship.internshipStartDate with
    | none => internData
    | some startDate =>
      let entry : InternData :=
        { startDate := startDate, endDate := internship.internshipEndDate,
          userId := application.userId }
      match internData.find? (fun d => d.userId == application.userId) with
      | none => internDataSet entry internData
      | some current =>
        if startDate.before current.startDate then internDataSet entry internData
        else internData

/-- The map `internData` built from the fetched applications, in insertion
order. -/
def collectInternData (applications : List Application) : List InternData :=
  applications.foldl collectStep []

/-- The document the backfill creates. -/
def absentRecord (userId : UserId) (date : Int) (now : JsDate) : Attendance :=
  { userId := userId, date := date, checkIn := none, status := "Absent",
    remarks := some "Auto-marked absent by system", markedBy := some .system,
    markedAt := some now }

/-- The body of the `while` loop for one day: a weekday whose date is not in
`existingDates`, the set read before the loop, gets a record; a rejected
`create` is caught inside the loop. -/
def backfillDay (userId : UserId) (now : JsDate) (existingDates : List Int)
    (currentDate : Int) (att : List Attendance) : List Attendance :=
  let dayOfWeek := getDay currentDate
  if dayOfWeek ≠ 0 ∧ dayOfWeek ≠ 6 ∧ ¬ existingDates.contains currentDate = true then
    match Attendance.create att (absentRecord userId currentDate now) with
    | .ok created => created
    | .error _ => att
  else att

/-- The loop `while (currentDate.isBefore(endDate.clone().add(1, 'day')))`;
`fuel` bounds the number of iterations. -/
def backfillLoop (userId : UserId) (now : JsDate) (existingDates : List Int) (endDate : Int) :
    Nat → Int → List Attendance → List Attendance
  | 0, _, att => att
  | fuel + 1, currentDate, att =>
    if currentDate < endDate + 1 then
      backfillLoop userId now existingDates endDate fuel (currentDate + 1)
        (backfillDay userId now existingDates currentDate att)
    else att

/-- The last day of the window of an intern: `moment.min(internshipEndDate,
yesterday)`, the end date taken as yesterday when absent. -/
def windowEnd (now : JsDate) (data : InternData) : Int :=
  min (match data.endDate with
       | some e => e.day
       | none => now.day - 1) (now.day - 1)

/-- The body of `for (const [internId, data] of internData)`; the loop gets
as many iterations as the window has days. The dates in `existingDates` are
those of the records of the intern inside the window. -/
def backfillIntern (now : JsDate) (att : List Attendance) (data : InternData) :
    List Attendance :=
  let startDate := data.startDate.day
  let endDate := windowEnd now data
  if startDate > endDate then att
  else
    let existingRecords := att.filter (fun r =>
      r.userId == data.userId && decide (startDate ≤ r.date) && decide (r.date ≤ endDate))
    let existingDates := existingRecords.map (fun r => r.date)
    backfillLoop data.userId now existingDates endDate (endDate + 1 - startDate).toNat
      startDate att

/-- The backfill over all interns of `internData`. -/
def backfill (now : JsDate) (att : List Attendance) (internData : List InternData) :
    List Attendance :=
  internData.foldl (backfillIntern now) att

/-- The applications `Application.find({ userId: { $in: ids }, status: 'joined' })`. -/
def joinedApplications (applications : List Application) (ids : List UserId) :
    List Application :=
  applications.filter (fun a => ids.contains a.userId && a.status == "joined")

/-- The identifiers `internUserIds` of `getAllAttendance`: all users of type
`intern`. -/
def internUserIds (s : Store) : List UserId :=
  (s.users.filter (fun u => u.type == "intern")).map (fun u => u._id)

/-- The identifiers `internIdArray` of `getAssignedInternsAttendance`: the
interns of the assignments that list the developer as mentor (the rosters are
not populated there, and `_id` of an ObjectId is the ObjectId itself). -/
def assignedInternIds (s : Store) (developerId : UserId) : List UserId :=
  ((s.assignments.filter (fun a => hasUser a.assignedDevelopers developerId)).map
    (fun project => project.assignedInterns.map (fun i => i.userId))).flatten

/-- The attendance collection after `exports.getAllAttendance`; without
interns the request returns before the backfill. -/
def getAllAttendance (s : Store) (applications : List Application) (att : List Attendance)
    (now : JsDate) : List Attendance :=
  if (internUserIds s).length = 0 then att
  else backfill now att (collectInternData (joinedApplications applications (internUserIds s)))

/-- The attendance collection after `exports.getAssignedInternsAttendance`;
the request is for developers and returns before the backfill when no intern
is assigned. -/
def getAssignedInternsAttendance (s : Store) (actor : Actor) (applications : List Application)
    (att : List Attendance) (now : JsDate) : List Attendance :=
  if actor.type ≠ "developer" then att
  else if (assignedInternIds s actor.userId).length = 0 then att
  else
    backfill now att
      (collectInternData (joinedApplications applications (assignedInternIds s actor.userId)))

/-- The day lies in the window of the intern. -/
def InWindow (now : JsDate) (data : InternData) (day : Int) : Prop :=
  data.startDate.day ≤ day ∧ day ≤ windowEnd now data

/-- The collection holds a record of the user for the day. -/
def HasRecord (att : List Attendance) (userId : UserId) (day : Int) : Prop :=
  ∃ r ∈ att, r.userId = userId ∧ r.date = day

/-- No two records share `(userId, date)`. -/
def UniqueKeys (att : List Attendance) : Prop :=
  (att.map (fun r => (r.userId, r.date))).Nodup

/-- Intern 2 joined two internships: one from Monday 5 January 1970 (day 4) to
Friday 9 January (day 8), and, after it was over, one from Monday 2 February
(day 32) to Friday 6 February (day 36). -/
def twoInternships : List Application :=
  [{ userId := 2, status := "joined",
     internshipId := some { internshipStartDate := some { day := 4, ms := 0 },
                            internshipEndDate := some { day := 8, ms := 0 } } },
   { userId := 2, status := "joined",
     internshipId := some { internshipStartDate := some { day := 32, ms := 0 },
                            internshipEndDate := some { day := 36, ms := 0 } } }]

/-- Intern 2 joined one internship, from Monday 5 January 1970 (day 4) to
Friday 16 January (day 15). -/
def oneInternship : List Application :=
  [{ userId := 2, status := "joined",
     internshipId := some { internshipStartDate := some { day := 4, ms := 36000000 },
                            internshipEndDate := some { day := 15, ms := 0 } } }]

/-- Noon of Monday 2 March 1970 (day 60). -/
def march2 : JsDate := { day := 60, ms := 43200000 }

/-- Noon of Tuesday 13 January 1970 (day 12). -/
def january13 : JsDate := { day := 12, ms := 43200000 }

/-- The check-in of intern 2 on Wednesday 7 January 1970 (day 6). -/
def checkInRecord : Attendance :=
  { userId := 2, date := 6, checkIn := some { day := 6, ms := 32400000 }, status := "Present",
    remarks := none, markedBy := some (.user 2), markedAt := some { day := 6, ms := 32400000 } }

/-- Iterations the working-day loop is ahead of the bound of three per pushed
day, by the day it has just looked at: after a Sunday one more weekend day
comes before the next weekday, after a Saturday none. -/
def skipCredit (day : Int) : Nat :=
  if getDay day = 0 then 1 else if getDay day = 6 then 2 else 0

/-- The dates `new` are weekdays before `date`, at the time of day of `date`,
in strictly decreasing order, and no weekday between the earliest of them and
`date` is missing. -/
def RecentWeekdays (date : JsDate) (new : List JsDate) : Prop :=
  (∀ e ∈ new, e.ms = date.ms ∧ e.day < date.day ∧ isWeekday e.day) ∧
    new.Pairwise (fun a b => b.day < a.day) ∧
    (∀ e ∈ new, ∀ x, e.day ≤ x → x < date.day → isWeekday x → ∃ e1 ∈ new, e1.day = x)

/-- The map `internData` holds, for every intern with a fetched application
whose internship has a start date, one entry: start and end date of one of
these applications of the intern, none of which starts earlier. -/
def EarliestStarts (applications : List Application) (internData : List InternData) : Prop :=
  (∀ data ∈ internData, ∃ app ∈ applications, ∃ i,
      app.internshipId = some i ∧ i.internshipStartDate = some data.startDate ∧
        i.internshipEndDate = data.endDate ∧ app.userId = data.userId) ∧
    (∀ app ∈ applications, ∀ i st, app.internshipId = some i →
      i.internshipStartDate = some st →
      ∃ data ∈ internData, data.userId = app.userId ∧ st.before data.startDate = false) ∧
    (internData.map (fun d => d.userId)).Nodup

/-- The outcome the specification describes for a backfill from `att` to
`after` at the time `now` over the interns of `internData`: the records of
`att` are kept, every added record is an `Absent` record marked by `System`
for a weekday before today inside the window of one of the interns, and every
weekday inside the window of every intern has a record. -/
def BackfillResult (now : JsDate) (att after : List Attendance)
    (internData : List InternData) : Prop :=
  (∃ created, after = att ++ created ∧
    ∀ r ∈ created, r.status = "Absent" ∧ r.markedBy = some .system ∧ isWeekday r.date ∧
      r.date < now.day ∧
      ∃ data ∈ internData, r.userId = data.userId ∧ InWindow now data r.date) ∧
    (∀ data ∈ internData, ∀ d, InWindow now data d → isWeekday d →
      HasRecord after data.userId d)

/-- The demo deployment with intern 2 assigned to project 10, which developer
1 mentors. -/
def mentoredStore : Store :=
  { demoStore with
    assignments :=
      [{ emptyAssignment 100 10 "Acme" with
         assignedDevelopers := [{ userId := 1, assignedBy := some 9, assignedAt := 0 }],
         assignedInterns := [{ userId := 2, assignedBy := some 9, assignedAt := 1 }] },
       emptyAssignment 101 11 "Acme",
       emptyAssignment 200 20 "Globex"] }

/-- The request is a call of `assignInternToDeveloper`. -/
def Op.isInternAssignment (op : Op) : Bool :=
  match op with
  | .assignInternToDeveloper _ _ _ => true
  | _ => false

/-- A request that appends a document to the assignment collection gives it
the company of the stored project it refers to. -/
def AppendCopies (s t : Store) : Prop :=
  ∀ b, t.assignments = s.assignments ++ [b] →
    ∃ p, Project.findById s (some b.projectId) = some p ∧ b.company = some p.company

/-! ## Basic facts about the store operations -/

theorem mem_replaceDoc {a x : ProjectAssignment} {l : List ProjectAssignment}
    (h : x ∈ replaceDoc a l) : x = a ∨ x ∈ l := by
  induction l with
  | nil => simp [replaceDoc] at h
  | cons y ys ih =>
    unfold replaceDoc at h
    split at h
    · rcases List.mem_cons.mp h with h1 | h1
      · exact Or.inl h1
      · exact Or.inr (List.mem_cons_of_mem _ h1)
    · rcases List.mem_cons.mp h with h1 | h1
      · exact Or.inr (h1 ▸ List.mem_cons_self _ _)
      · rcases ih h1 with h2 | h2
        · exact Or.inl h2
        · exact Or.inr (List.mem_cons_of_mem _ h2)

theorem allDocs_reply {P : ProjectAssignment → Prop} {s : Store} (h : AllDocs P s)
    (status : Nat) (success : Option Bool) : AllDocs P (reply s status success).store := h

theorem allDocs_updateAndReply {P : ProjectAssignment → Prop} {s : Store} (h : AllDocs P s)
    {a : ProjectAssignment} (ha : P a) (status : Nat) :
    AllDocs P (updateAndReply s a status).store := by
  intro x hx
  rcases mem_replaceDoc hx with h1 | h1
  · exact h1 ▸ ha
  · exact h x h1

theorem allDocs_save {P : ProjectAssignment → Prop} {cfg : AssignmentSchema} {s s1 : Store}
    (h : AllDocs P s) {a : ProjectAssignment} (ha : P a)
    (hs : ProjectAssignment.save cfg s a = some s1) : AllDocs P s1 := by
  unfold ProjectAssignment.save at hs
  split at hs
  · cases hs
    intro x hx
    rcases mem_replaceDoc hx with h1 | h1
    · exact h1 ▸ ha
    · exact h x h1
  · split at hs
    · cases hs
      intro x hx
      rcases List.mem_append.mp hx with h1 | h1
      · exact h x h1
      · rw [List.mem_singleton.mp h1]; exact ha
    · cases hs

theorem allDocs_saveAndReply {P : ProjectAssignment → Prop} {cfg : AssignmentSchema} {s : Store}
    (h : AllDocs P s) {a : ProjectAssignment} (ha : P a) (status : Nat) :
    AllDocs P (saveAndReply cfg s a status).store := by
  unfold saveAndReply
  split
  · next s1 hs => exact allDocs_save h ha hs
  · exact h

theorem allDocs_findById {P : ProjectAssignment → Prop} {s : Store} (h : AllDocs P s)
    {id : AssignmentId} {a : ProjectAssignment}
    (ha : ProjectAssignment.findById s id = some a) : P a :=
  h a (List.mem_of_find?_eq_some ha)

theorem allDocs_findOne {P : ProjectAssignment → Prop} {s : Store} (h : AllDocs P s)
    {projectId : ProjectId} {a : ProjectAssignment}
    (ha : ProjectAssignment.findOne s projectId = some a) : P a :=
  h a (List.mem_of_find?_eq_some ha)

theorem allDocs_findOne_getD {P : ProjectAssignment → Prop} {s : Store} (h : AllDocs P s)
    (projectId : ProjectId) {d : ProjectAssignment} (hd : P d) :
    P ((ProjectAssignment.findOne s projectId).getD d) := by
  cases hf : ProjectAssignment.findOne s projectId with
  | none => simpa using hd
  | some a => simpa using allDocs_findOne h hf

/-! ## Every controller preserves every document invariant -/

theorem eq_false_of_guard {c : Prop} {b : Bool} (hc : c) (hg : ¬(c ∧ b = true)) : b = false := by
  cases b with
  | false => rfl
  | true => exact absurd ⟨hc, rfl⟩ hg

theorem hasUser_eq_false_of_not_mem {roster : List AssignedEntry} {u : UserId}
    (h : u ∉ roster.map (fun e => e.userId)) : hasUser roster u = false := by
  unfold hasUser
  rw [List.any_eq_false]
  intro e he hu
  exact h (List.mem_map.mpr ⟨e, he, by simpa using hu⟩)

theorem not_excluded_of_mem_available {s : Store} {company : Company}
    {excludedIds : List UserId} {u : User}
    (h : u ∈ availableDevelopers s company excludedIds) : u._id ∉ excludedIds := by
  unfold availableDevelopers at h
  have h2 := (List.mem_filter.mp h).2
  simp only [Bool.and_eq_true, Bool.not_eq_true', List.contains_eq_any_beq,
    List.any_eq_false] at h2
  intro hmem
  exact h2.2 _ hmem (by simp)

theorem cast_eq_canonical {v : IdString} {u : UserId} (hc : v.cast = some u)
    (hv : v.isVariant = false) : v = .canonical u := by
  cases v with
  | canonical i => simp only [IdString.cast, Option.some.injEq] at hc; rw [hc]
  | variant i => cases hv
  | invalid => cases hc

theorem hasUserString_canonical (roster : List AssignedEntry) (u : UserId) :
    hasUserString roster (.canonical u) = hasUser roster u := by
  unfold hasUserString hasUser ObjectId.toString
  congr 1
  funext e
  by_cases hx : e.userId = u
  · simp [hx]
  · have h1 : (IdString.canonical e.userId == IdString.canonical u) = false := by
      simpa using hx
    have h2 : (e.userId == u) = false := by simpa using hx
    rw [h1, h2]

theorem assignUserSchema_userId {body : AssignBody} {value : AssignValue}
    (h : assignUserSchema body = some value) : body.userId = some value.userId := by
  unfold assignUserSchema at h
  split at h
  · split at h
    · cases h
      simp only [*]
    · cases h
  · cases h

theorem pushAssigned_preserves {g : Prop} {P : ProjectAssignment → Prop} (hP : DocInvariant g P)
    (a : ProjectAssignment) (userType : String) (u : UserId) (by_ : Option UserId)
    (now : Timestamp) (ha : P a)
    (hg : g → ¬(userType = "developer" ∧ hasUser a.panelists u = true)) :
    P (a.setAssigned (assignedFieldOf userType)
      (a.getAssigned (assignedFieldOf userType) ++ [assignedEntry u by_ now])) := by
  by_cases ht : userType = "developer"
  · have hp : g → hasUser a.panelists u = false := by
      intro h
      cases hb : hasUser a.panelists u with
      | false => rfl
      | true => exact absurd ⟨ht, hb⟩ (hg h)
    simpa [assignedFieldOf, ht, ProjectAssignment.getAssigned] using hP.pushMentor a u by_ now ha hp
  · simpa [assignedFieldOf, ht, ProjectAssignment.getAssigned] using
      hP.pushIntern a (assignedEntry u by_ now) ha

theorem volunteerForProject_preserves {g : Prop} {P : ProjectAssignment → Prop} (hP : DocInvariant g P)
    (cfg : AssignmentSchema) (s : Store) (actor : Actor) (body : VolunteerBody) (now : Timestamp)
    (h : AllDocs P s) : AllDocs P (volunteerForProject cfg s actor body now).store := by
  unfold volunteerForProject
  repeat' first
    | exact allDocs_reply h _ _
    | split
    | dsimp only
  next hv =>
    apply allDocs_saveAndReply h
    apply hP.pushVolunteer
    · exact allDocs_findOne_getD h _ (hP.fresh _ _ _)
    · simpa using hv

theorem reviewVolunteerRequest_preserves {g : Prop} {P : ProjectAssignment → Prop} (hP : DocInvariant g P)
    (s : Store) (actor : Actor) (body : ReviewBody) (now : Timestamp)
    (h : AllDocs P s) : AllDocs P (reviewVolunteerRequest s actor body now).store := by
  unfold reviewVolunteerRequest
  repeat' first
    | exact allDocs_reply h _ _
    | split
    | dsimp only
  · apply allDocs_updateAndReply h
    apply pushAssigned_preserves hP _ _ _ _ _ _ (fun _ => by assumption)
    exact hP.stamp _ _ _ _ (allDocs_findById h (by assumption)) (fun _ => rfl)
  · apply allDocs_updateAndReply h
    exact hP.stamp _ _ _ _ (allDocs_findById h (by assumption)) (fun _ => rfl)

theorem assignUserToProject_preserves {g : Prop} {P : ProjectAssignment → Prop} (hP : DocInvariant g P)
    (cfg : AssignmentSchema) (s : Store) (actor : Actor) (body : AssignBody) (now : Timestamp)
    (hop : g → (Op.assignUserToProject actor body now).spellsCanonically = true)
    (h : AllDocs P s) : AllDocs P (assignUserToProject cfg s actor body now).store := by
  unfold assignUserToProject
  repeat' first
    | exact allDocs_reply h _ _
    | split
    | dsimp only
  rename_i value hv _ _ _ _ userId hc _ _ _ _ _ _ _ _ hp _
  apply allDocs_saveAndReply h
  refine pushAssigned_preserves hP _ _ _ _ _ (allDocs_findOne_getD h _ (hP.fresh _ _ _)) ?_
  intro hg
  have h1 := hop hg
  simp only [Op.spellsCanonically, assignUserSchema_userId hv, Bool.not_eq_true'] at h1
  rw [cast_eq_canonical hc h1, hasUserString_canonical] at hp
  exact hp

theorem removePanelistFromProject_preserves {g : Prop} {P : ProjectAssignment → Prop} (hP : DocInvariant g P)
    (s : Store) (actor : Actor) (body : RemovePanelistBody)
    (h : AllDocs P s) : AllDocs P (removePanelistFromProject s actor body).store := by
  unfold removePanelistFromProject
  repeat' first
    | exact allDocs_reply h _ _
    | split
    | dsimp only
  apply allDocs_updateAndReply h
  exact hP.filterPanelists _ _ (allDocs_findById h (by assumption))

theorem removeUserFromProject_preserves {g : Prop} {P : ProjectAssignment → Prop} (hP : DocInvariant g P)
    (s : Store) (actor : Actor) (body : RemoveBody)
    (h : AllDocs P s) : AllDocs P (removeUserFromProject s actor body).store := by
  unfold removeUserFromProject
  repeat' first
    | exact allDocs_reply h _ _
    | split
    | dsimp only
  apply allDocs_updateAndReply h
  exact hP.filterAssigned _ _ _ (allDocs_findById h (by assumption))

theorem volunteerForPanelist_preserves {g : Prop} {P : ProjectAssignment → Prop} (hP : DocInvariant g P)
    (cfg : AssignmentSchema) (s : Store) (actor : Actor) (body : VolunteerBody) (now : Timestamp)
    (h : AllDocs P s) : AllDocs P (volunteerForPanelist cfg s actor body now).store := by
  unfold volunteerForPanelist
  repeat' first
    | exact allDocs_reply h _ _
    | split
    | dsimp only
  next hv =>
    apply allDocs_saveAndReply h
    apply hP.pushVolunteerPanelist
    · exact allDocs_findOne_getD h _ (hP.fresh _ _ _)
    · simpa using hv

theorem reviewPanelistVolunteerRequest_preserves {g : Prop} {P : ProjectAssignment → Prop}
    (hP : DocInvariant g P) (s : Store) (actor : Actor) (body : ReviewBody) (now : Timestamp)
    (h : AllDocs P s) : AllDocs P (reviewPanelistVolunteerRequest s actor body now).store := by
  unfold reviewPanelistVolunteerRequest
  repeat' first
    | exact allDocs_reply h _ _
    | split
    | dsimp only
  · rename_i value _ _ assignment hf _ _ idx _ hg hst
    apply allDocs_updateAndReply h
    have h1 := hP.stampPanelist assignment (stampReview value.status actor.userId now) idx
      (allDocs_findById h hf) (fun _ => rfl)
    exact hP.pushPanelist _ value.userId (some actor.userId) now h1
      (fun _ => eq_false_of_guard hst hg)
  · apply allDocs_updateAndReply h
    exact hP.stampPanelist _ _ _ (allDocs_findById h (by assumption)) (fun _ => rfl)

theorem assignPanelist_preserves {g : Prop} {P : ProjectAssignment → Prop} (hP : DocInvariant g P)
    (cfg : AssignmentSchema) (s : Store) (actor : Actor) (body : AssignBody) (now : Timestamp)
    (hop : g → (Op.assignPanelist actor body now).spellsCanonically = true)
    (h : AllDocs P s) : AllDocs P (assignPanelist cfg s actor body now).store := by
  unfold assignPanelist
  repeat' first
    | exact allDocs_reply h _ _
    | split
    | dsimp only
  rename_i value hv _ _ _ _ userId hc _ _ _ _ _ _ hm _
  apply allDocs_saveAndReply h
  refine hP.pushPanelist _ _ _ _ (allDocs_findOne_getD h _ (hP.fresh _ _ _)) ?_
  intro hg
  have h1 := hop hg
  have h2 := assignUserSchema_userId hv
  simp only at h2
  simp only [Op.spellsCanonically, h2, Bool.not_eq_true'] at h1
  rw [cast_eq_canonical hc h1, hasUserString_canonical] at hm
  simpa using hm

theorem initializeProjectAssignment_preserves {g : Prop} {P : ProjectAssignment → Prop}
    (hP : DocInvariant g P) (cfg : AssignmentSchema) (s : Store) (actor : Actor)
    (body : ProjectIdBody)
    (h : AllDocs P s) : AllDocs P (initializeProjectAssignment cfg s actor body).store := by
  unfold initializeProjectAssignment
  repeat' first
    | exact allDocs_reply h _ _
    | split
    | dsimp only
  exact allDocs_saveAndReply h (hP.fresh _ _ _) _

theorem approveProject_preserves {g : Prop} {P : ProjectAssignment → Prop} (hP : DocInvariant g P)
    (cfg : AssignmentSchema) (s : Store) (actor : Actor) (id : ProjectId) (now : Timestamp)
    (h : AllDocs P s) : AllDocs P (approveProject cfg s actor id now).store := by
  unfold approveProject
  repeat' first
    | exact allDocs_reply h _ _
    | exact h
    | split
    | dsimp only
  rename_i hs
  refine allDocs_save ?_ (hP.seeded _ _ _ _) hs
  exact h

theorem assignInternToDeveloper_preserves {g : Prop} {P : ProjectAssignment → Prop} (hP : DocInvariant g P)
    (cfg : AssignmentSchema) (s : Store) (actor : Actor) (body : InternAssignBody)
    (now : Timestamp)
    (h : AllDocs P s) : AllDocs P (assignInternToDeveloper cfg s actor body now).store := by
  unfold assignInternToDeveloper
  repeat' first
    | exact allDocs_reply h _ _
    | split
    | dsimp only
  rename_i hs
  exact allDocs_save h
    (hP.pushIntern _ _ (allDocs_findOne_getD h _ (hP.seeded _ _ _ _))) hs

theorem removeInternAssignment_preserves {g : Prop} {P : ProjectAssignment → Prop} (hP : DocInvariant g P)
    (s : Store) (actor : Actor) (projectId : ProjectId) (internId : UserId)
    (h : AllDocs P s) : AllDocs P (removeInternAssignment s actor projectId internId).store := by
  unfold removeInternAssignment
  repeat' first
    | exact allDocs_reply h _ _
    | split
    | dsimp only
  apply allDocs_updateAndReply h
  exact hP.filterAssigned _ .assignedInterns _ (allDocs_findOne h (by assumption))

theorem assignRandomPanelist_preserves {g : Prop} {P : ProjectAssignment → Prop} (hP : DocInvariant g P)
    (s : Store) (actor : Actor) (body : ProjectIdBody) (draw : Draw) (now : Timestamp)
    (h : AllDocs P s) : AllDocs P (assignRandomPanelist s actor body draw now).store := by
  unfold assignRandomPanelist
  repeat' first
    | exact allDocs_reply h _ _
    | split
    | dsimp only
  rename_i hget _ a hfind
  simp only [hfind] at hget
  have hex := not_excluded_of_mem_available (List.get?_mem hget)
  apply allDocs_updateAndReply h
  refine hP.pushPanelist _ _ _ _ (allDocs_findOne h hfind)
    (fun _ => hasUser_eq_false_of_not_mem ?_)
  exact fun hm => hex (List.mem_append_left _ hm)

theorem step_preserves {g : Prop} {P : ProjectAssignment → Prop} (hP : DocInvariant g P)
    (cfg : AssignmentSchema) (s : Store) (op : Op)
    (hop : g → op.spellsCanonically = true) (h : AllDocs P s) :
    AllDocs P (step cfg s op).store := by
  cases op with
  | volunteerForProject actor body now => exact volunteerForProject_preserves hP cfg s actor body now h
  | reviewVolunteerRequest actor body now => exact reviewVolunteerRequest_preserves hP s actor body now h
  | assignUserToProject actor body now =>
    exact assignUserToProject_preserves hP cfg s actor body now hop h
  | removePanelistFromProject actor body => exact removePanelistFromProject_preserves hP s actor body h
  | removeUserFromProject actor body => exact removeUserFromProject_preserves hP s actor body h
  | volunteerForPanelist actor body now => exact volunteerForPanelist_preserves hP cfg s actor body now h
  | reviewPanelistVolunteerRequest actor body now =>
    exact reviewPanelistVolunteerRequest_preserves hP s actor body now h
  | assignPanelist actor body now => exact assignPanelist_preserves hP cfg s actor body now hop h
  | assignRandomPanelist actor body draw now =>
    exact assignRandomPanelist_preserves hP s actor body draw now h
  | initializeProjectAssignment actor body =>
    exact initializeProjectAssignment_preserves hP cfg s actor body h
  | approveProject actor id now => exact approveProject_preserves hP cfg s actor id now h
  | assignInternToDeveloper actor body now =>
    exact assignInternToDeveloper_preserves hP cfg s actor body now h
  | removeInternAssignment actor projectId internId =>
    exact removeInternAssignment_preserves hP s actor projectId internId h

theorem run_preserves {g : Prop} {P : ProjectAssignment → Prop} (hP : DocInvariant g P)
    (cfg : AssignmentSchema) (ops : List Op) (s : Store)
    (hops : g → ∀ op ∈ ops, op.spellsCanonically = true) (h : AllDocs P s) :
    AllDocs P (run cfg s ops) := by
  induction ops generalizing s with
  | nil => exact h
  | cons op rest ih =>
    exact ih _ (fun hg o ho => hops hg o (List.mem_cons_of_mem _ ho))
      (step_preserves hP cfg s op (fun hg => hops hg op (List.mem_cons_self _ _)) h)

/-! ## The two document invariants -/

theorem map_userId_updateAt (g : VolunteerEntry → VolunteerEntry)
    (hg : ∀ v, (g v).userId = v.userId) (l : List VolunteerEntry) (i : Nat) :
    (updateAt g l i).map (fun v => v.userId) = l.map (fun v => v.userId) := by
  induction l generalizing i with
  | nil => cases i <;> rfl
  | cons v vs ih =>
    cases i with
    | zero => simp [updateAt, hg]
    | succ n => simp [updateAt, ih]

theorem not_mem_of_find_none {roster : List VolunteerEntry} {u : UserId}
    (h : (roster.find? (fun v => v.userId == u)).isSome = false) :
    u ∉ roster.map (fun v => v.userId) := by
  intro hm
  rcases List.mem_map.mp hm with ⟨v, hv, hvu⟩
  have : (roster.find? (fun v => v.userId == u)).isSome = true :=
    List.find?_isSome.mpr ⟨v, hv, by simp [hvu]⟩
  rw [h] at this
  cases this

theorem onePerUser_push {roster : List VolunteerEntry} {u : UserId} (now : Timestamp)
    (h : OnePerUser roster)
    (hn : (roster.find? (fun v => v.userId == u)).isSome = false) :
    OnePerUser (roster ++ [pendingEntry u now]) := by
  unfold OnePerUser at *
  rw [List.map_append, List.nodup_append]
  refine ⟨h, by simp, ?_⟩
  intro x hx hx2
  simp only [List.map_cons, List.map_nil, List.mem_singleton, pendingEntry] at hx2
  exact not_mem_of_find_none hn (hx2 ▸ hx)

theorem noDoublePending_of_onePerUser {roster : List VolunteerEntry} (h : OnePerUser roster) :
    NoDoublePending roster :=
  List.Nodup.sublist ((List.filter_sublist roster).map _) h

theorem exclusive_invariant : DocInvariant True Exclusive where
  fresh := by intro s p c d hd; simp [ProjectAssignment.new] at hd
  seeded := by intro s p c e d _ q hq; simp [ProjectAssignment.new] at hq
  pushVolunteer := by intro a f u now ha _; cases f <;> exact ha
  pushVolunteerPanelist := by intro a u now ha _; exact ha
  stamp := by intro a f g i ha _; cases f <;> exact ha
  stampPanelist := by intro a g i ha _; exact ha
  pushMentor := by
    intro a u by_ now ha hp0 d hd p hpm
    have hp := hp0 trivial
    simp only [ProjectAssignment.setAssigned, List.mem_append, List.mem_singleton] at hd hpm
    rcases hd with h1 | h1
    · exact ha d h1 p hpm
    · intro he
      have : hasUser a.panelists u = true := by
        unfold hasUser
        rw [List.any_eq_true]
        exact ⟨p, hpm, by simp [← he, h1, assignedEntry]⟩
      rw [hp] at this
      cases this
  pushIntern := by intro a e ha; exact ha
  pushPanelist := by
    intro a u by_ now ha hd0 d hdm p hp
    have hd := hd0 trivial
    simp only [List.mem_append, List.mem_singleton] at hp
    rcases hp with h1 | h1
    · exact ha d hdm p h1
    · intro he
      have : hasUser a.assignedDevelopers u = true := by
        unfold hasUser
        rw [List.any_eq_true]
        exact ⟨d, hdm, by simp [he, h1, assignedEntry]⟩
      rw [hd] at this
      cases this
  filterAssigned := by
    intro a f q ha d hd p hp
    cases f with
    | assignedInterns => exact ha d hd p hp
    | assignedDevelopers =>
      simp only [ProjectAssignment.setAssigned, ProjectAssignment.getAssigned,
        List.mem_filter] at hd hp
      exact ha d hd.1 p hp
  filterPanelists := by
    intro a q ha d hd p hp
    simp only [List.mem_filter] at hp
    exact ha d hd p hp.1

theorem volunteersUnique_invariant : DocInvariant False VolunteersUnique where
  fresh := by intro s p c; simp [VolunteersUnique, OnePerUser, ProjectAssignment.new]
  seeded := by intro s p c e; simp [VolunteersUnique, OnePerUser, ProjectAssignment.new]
  pushVolunteer := by
    intro a f u now ha hn
    cases f with
    | volunteerDevelopers => exact ⟨onePerUser_push now ha.1 hn, ha.2.1, ha.2.2⟩
    | volunteerInterns => exact ⟨ha.1, onePerUser_push now ha.2.1 hn, ha.2.2⟩
  pushVolunteerPanelist := by
    intro a u now ha hn
    exact ⟨ha.1, ha.2.1, onePerUser_push now ha.2.2 hn⟩
  stamp := by
    intro a f g i ha hg
    cases f with
    | volunteerDevelopers =>
      refine ⟨?_, ha.2.1, ha.2.2⟩
      simpa [OnePerUser, ProjectAssignment.setVolunteers, ProjectAssignment.getVolunteers,
        map_userId_updateAt g hg] using ha.1
    | volunteerInterns =>
      refine ⟨ha.1, ?_, ha.2.2⟩
      simpa [OnePerUser, ProjectAssignment.setVolunteers, ProjectAssignment.getVolunteers,
        map_userId_updateAt g hg] using ha.2.1
  stampPanelist := by
    intro a g i ha hg
    refine ⟨ha.1, ha.2.1, ?_⟩
    simpa [OnePerUser, map_userId_updateAt g hg] using ha.2.2
  pushMentor := by intro a u by_ now ha _; exact ha
  pushIntern := by intro a e ha; exact ha
  pushPanelist := by intro a u by_ now ha _; exact ha
  filterAssigned := by intro a f q ha; cases f <;> exact ha
  filterPanelists := by intro a q ha; exact ha

/-! ## Global mentor uniqueness -/

/-- C1 (not an invariant of the code): the demo deployment satisfies global
mentor uniqueness, and after the mentor of project 10 volunteers for project 11
and HR approves the request, the developer is in `assignedDevelopers` of two
assignments, whatever the assignment schema enforces on insertion. -/
theorem global_mentor_uniqueness_broken_by_review :
    GlobalMentorUnique demoStore ∧
      ∀ cfg, ¬ GlobalMentorUnique (run cfg demoStore secondMentorOps) := by
  refine ⟨by unfold GlobalMentorUnique; decide, fun cfg => ?_⟩
  have h : run cfg demoStore secondMentorOps = run strictSchema demoStore secondMentorOps := rfl
  rw [h]
  unfold GlobalMentorUnique
  decide

/-- Mentor/panelist exclusion is preserved by every sequence of requests none
of which spells a user identifier in a `variant` way: if no stored assignment
has a user in both `assignedDevelopers` and `panelists`, the same holds of the
store after the sequence, for every assignment schema. -/
theorem exclusion_preserved_under_canonical_spelling (cfg : AssignmentSchema) (s : Store)
    (ops : List Op) (hops : ∀ op ∈ ops, op.spellsCanonically = true)
    (h : AllDocs Exclusive s) : AllDocs Exclusive (run cfg s ops) :=
  run_preserves exclusive_invariant cfg ops s (fun _ => hops) h

theorem exclusion_preserved_under_canonical_spelling_witness :
    AllDocs Exclusive demoStore ∧ AllDocs Exclusive (run strictSchema demoStore panelOps) :=
  ⟨by unfold AllDocs Exclusive; decide,
    exclusion_preserved_under_canonical_spelling strictSchema demoStore panelOps (by decide)
      (by unfold AllDocs Exclusive; decide)⟩

/-- C2 (not an invariant of the code): in a deployment where no assignment
has a user in both `assignedDevelopers` and `panelists`, HR names the mentor
of project 11 panelist of it, spelling the identifier with upper-case
hexadecimal letters. `assignPanelist` refuses the canonical spelling with 400,
but answers 201 to the other spelling and the mentor is then also in
`panelists`. In the same way `assignUserToProject` refuses to make the
panelist of project 11 its mentor under the canonical spelling of the
identifier and does it under the other spelling. -/
theorem respelled_mentor_becomes_panelist :
    AllDocs Exclusive hexStore ∧
      (∀ cfg, assignPanelist cfg hexStore hrAcme
          { projectId := some 11, userId := some (.canonical 2748), userType := none } 7 =
        reply hexStore 400 (some false)) ∧
      (∀ cfg, (assignPanelist cfg hexStore hrAcme
          { projectId := some 11, userId := some (.variant 2748), userType := none } 7).res =
        { status := 201, success := some true }) ∧
      (∀ cfg, (ProjectAssignment.findById
          (assignPanelist cfg hexStore hrAcme
            { projectId := some 11, userId := some (.variant 2748), userType := none } 7).store
          101).map
          (fun a => (a.assignedDevelopers.map (fun d => d.userId),
            a.panelists.map (fun p => p.userId))) = some ([2748], [2750, 2748])) ∧
      (∀ cfg, ¬ AllDocs Exclusive (run cfg hexStore
          [.assignPanelist hrAcme
            { projectId := some 11, userId := some (.variant 2748), userType := none } 7])) ∧
      (∀ cfg, assignUserToProject cfg hexStore hrAcme
          { projectId := some 11, userId := some (.canonical 2750),
            userType := some "developer" } 7 =
        reply hexStore 400 (some false)) ∧
      (∀ cfg, (assignUserToProject cfg hexStore hrAcme
          { projectId := some 11, userId := some (.variant 2750),
            userType := some "developer" } 7).res =
        { status := 201, success := some true }) ∧
      (∀ cfg, ¬ AllDocs Exclusive (run cfg hexStore
          [.assignUserToProject hrAcme
            { projectId := some 11, userId := some (.variant 2750),
              userType := some "developer" } 7])) := by
  refine ⟨by unfold AllDocs Exclusive; decide, fun _ => rfl, fun _ => rfl, fun _ => rfl,
    fun cfg => ?_, fun _ => rfl, fun _ => rfl, fun cfg => ?_⟩
  · have h : run cfg hexStore
        [.assignPanelist hrAcme
          { projectId := some 11, userId := some (.variant 2748), userType := none } 7] =
        run strictSchema hexStore
          [.assignPanelist hrAcme
            { projectId := some 11, userId := some (.variant 2748), userType := none } 7] := rfl
    rw [h]
    unfold AllDocs Exclusive
    decide
  · have h : run cfg hexStore
        [.assignUserToProject hrAcme
          { projectId := some 11, userId := some (.variant 2750),
            userType := some "developer" } 7] =
        run strictSchema hexStore
          [.assignUserToProject hrAcme
            { projectId := some 11, userId := some (.variant 2750),
              userType := some "developer" } 7] := rfl
    rw [h]
    unfold AllDocs Exclusive
    decide

/-- C3 (the code does not re-validate): in a store where developer 1 already
mentors project 10 and has a pending mentor request on assignment 101, the
approval by HR answers 200 and appends the developer to `assignedDevelopers`
of assignment 101. -/
theorem review_approves_mentor_of_other_project :
    (ProjectAssignment.findOneByMentor pendingStore 1).map (fun a => a._id) = some 100 ∧
      (reviewVolunteerRequest pendingStore hrAcme approveDevBody 6).res =
        { status := 200, success := some true } ∧
      (ProjectAssignment.findById
          (reviewVolunteerRequest pendingStore hrAcme approveDevBody 6).store 101).map
        (fun a => a.assignedDevelopers.map (fun d => d.userId)) = some [1] := by
  decide

/-- C4: a direct mentor assignment of a developer who is already in
`assignedDevelopers` of some assignment is refused: for a verified admin, or a
verified HR user whose company is that of the project and of the developer,
an existing project and an existing developer, the answer is 400 with
`success: false` and the store is the store before the call, whichever way
the body spells the identifier of the developer. -/
theorem assignUserToProject_refuses_second_mentor (cfg : AssignmentSchema) (s : Store)
    (actor : Actor) (now : Timestamp) (projectId : ProjectId) (userId : IdString)
    (developerId : UserId) (project : Project) (user : User)
    (hv : actor.verified = true)
    (hauth : actor.type = "admin" ∨
      (actor.type = "hr" ∧ isFalsy actor.company = false ∧
        actor.company = some project.company ∧ user.company = actor.company))
    (hp : Project.findById s (some projectId) = some project)
    (hc : userId.cast = some developerId)
    (hu : User.findById s (some developerId) = some user)
    (ht : user.type = "developer")
    (hm : ∃ a ∈ s.assignments, hasUser a.assignedDevelopers developerId = true) :
    assignUserToProject cfg s actor
        { projectId := some projectId, userId := some userId, userType := some "developer" } now
      = { res := { status := 400, success := some false }, store := s } := by
  have hm1 : (ProjectAssignment.findOneByMentor s developerId).isSome = true := by
    unfold ProjectAssignment.findOneByMentor
    rw [List.find?_isSome]
    exact hm
  unfold assignUserToProject
  rcases hauth with h | ⟨h, h1, h2, h3⟩
  · simp [assignUserSchema, reply, hv, h, hp, hc, hu, ht, hm1]
  · rw [h2] at h1
    simp [assignUserSchema, reply, hv, h, h1, h2, h3, hp, hc, hu, ht, hm1]

theorem assignUserToProject_refuses_second_mentor_witness :
    assignUserToProject strictSchema demoStore hrAcme
        { projectId := some 11, userId := some (.canonical 1), userType := some "developer" } 7
      = { res := { status := 400, success := some false }, store := demoStore } :=
  assignUserToProject_refuses_second_mentor strictSchema demoStore hrAcme 7 11 (.canonical 1) 1
    { _id := 11, name := "Search", company := "Acme", isApproved := true,
      suggested_by := some "hr@acme.com" }
    { _id := 1, name := "Dev", email := "dev@acme.com", type := "developer",
      company := some "Acme" }
    rfl (Or.inr ⟨rfl, rfl, rfl, rfl⟩) rfl rfl rfl rfl
    ⟨_, List.mem_cons_self _ _, rfl⟩

/-! ## Refused volunteer requests -/

theorem refused_reply (s : Store) (status : Nat) (h : 400 ≤ status) :
    Refused s (reply s status (some false)) :=
  ⟨rfl, h, rfl⟩

theorem find_isSome_of_entry {roster : List VolunteerEntry} {u : UserId}
    (h : ∃ v ∈ roster, v.userId = u ∧ (v.status = "pending" ∨ v.status = "approved")) :
    (roster.find? (fun v => v.userId == u)).isSome = true := by
  rcases h with ⟨v, hv, hvu, _⟩
  exact List.find?_isSome.mpr ⟨v, hv, by simp [hvu]⟩

/-- C5: volunteering for the opposite role is refused. A developer who is a
panelist of the project's assignment gets a failure from `volunteerForProject`,
and an actor who is a mentor of the project's assignment gets a failure from
`volunteerForPanelist`; in both cases the store is unchanged. This holds of
every such actor, so in particular of the verified and approved ones. -/
theorem opposite_role_volunteer_refused (cfg : AssignmentSchema) (s1 s2 : Store)
    (actor1 actor2 : Actor) (body1 body2 : VolunteerBody) (now : Timestamp)
    (projectId1 projectId2 : ProjectId) (a1 a2 : ProjectAssignment)
    (ht1 : actor1.type = "developer") (hb1 : body1.projectId = some projectId1)
    (hf1 : ProjectAssignment.findOne s1 projectId1 = some a1)
    (hp1 : hasUser a1.panelists actor1.userId = true)
    (hb2 : body2.projectId = some projectId2)
    (hf2 : ProjectAssignment.findOne s2 projectId2 = some a2)
    (hm2 : hasUser a2.assignedDevelopers actor2.userId = true) :
    Refused s1 (volunteerForProject cfg s1 actor1 body1 now) ∧
      Refused s2 (volunteerForPanelist cfg s2 actor2 body2 now) := by
  constructor
  · unfold volunteerForProject
    simp only [volunteerSchema, hb1, hf1, Option.getD_some, ht1, hp1, and_self, if_true]
    repeat' first
      | exact refused_reply _ _ (by decide)
      | split
  · unfold volunteerForPanelist
    simp only [volunteerSchema, hb2, hf2, Option.getD_some, hm2, if_true]
    repeat' first
      | exact refused_reply _ _ (by decide)
      | split

theorem opposite_role_volunteer_refused_witness :
    Refused panelistStore
        (volunteerForProject strictSchema panelistStore devAcme { projectId := some 11 } 7) ∧
      Refused panelistStore
        (volunteerForPanelist strictSchema panelistStore devAcme { projectId := some 10 } 7) :=
  opposite_role_volunteer_refused strictSchema panelistStore panelistStore devAcme devAcme
    { projectId := some 11 } { projectId := some 10 } 7 11 10
    { emptyAssignment 101 11 "Acme" with
      panelists := [{ userId := 1, assignedBy := some 9, assignedAt := 3 }],
      volunteerPanelists := [pendingEntry 1 2] }
    { emptyAssignment 100 10 "Acme" with
      assignedDevelopers := [{ userId := 1, assignedBy := some 9, assignedAt := 0 }] }
    rfl rfl rfl rfl rfl rfl rfl

/-- C6: duplicate volunteering is refused without effect. If the roster of the
actor's role in the project's assignment already holds an entry of the actor
with status pending or approved, `volunteerForProject` fails and leaves the
store unchanged; likewise `volunteerForPanelist` for `volunteerPanelists`. -/
theorem duplicate_volunteer_refused (cfg : AssignmentSchema) (s1 s2 : Store)
    (actor1 actor2 : Actor) (body1 body2 : VolunteerBody) (now : Timestamp)
    (projectId1 projectId2 : ProjectId) (a1 a2 : ProjectAssignment)
    (hb1 : body1.projectId = some projectId1)
    (hf1 : ProjectAssignment.findOne s1 projectId1 = some a1)
    (he1 : ∃ v ∈ a1.getVolunteers (volunteerFieldOf actor1.type),
      v.userId = actor1.userId ∧ (v.status = "pending" ∨ v.status = "approved"))
    (hb2 : body2.projectId = some projectId2)
    (hf2 : ProjectAssignment.findOne s2 projectId2 = some a2)
    (he2 : ∃ v ∈ a2.volunteerPanelists,
      v.userId = actor2.userId ∧ (v.status = "pending" ∨ v.status = "approved")) :
    Refused s1 (volunteerForProject cfg s1 actor1 body1 now) ∧
      Refused s2 (volunteerForPanelist cfg s2 actor2 body2 now) := by
  constructor
  · unfold volunteerForProject
    simp only [volunteerSchema, hb1, hf1, Option.getD_some, find_isSome_of_entry he1, if_true]
    repeat' first
      | exact refused_reply _ _ (by decide)
      | split
  · unfold volunteerForPanelist
    simp only [volunteerSchema, hb2, hf2, Option.getD_some, find_isSome_of_entry he2, if_true]
    repeat' first
      | exact refused_reply _ _ (by decide)
      | split

theorem duplicate_volunteer_refused_witness :
    Refused pendingStore
        (volunteerForProject strictSchema pendingStore devAcme { projectId := some 11 } 7) ∧
      Refused panelistStore
        (volunteerForPanelist strictSchema panelistStore devAcme { projectId := some 11 } 7) :=
  duplicate_volunteer_refused strictSchema pendingStore panelistStore devAcme devAcme
    { projectId := some 11 } { projectId := some 11 } 7 11 11
    { emptyAssignment 101 11 "Acme" with volunteerDevelopers := [pendingEntry 1 5] }
    { emptyAssignment 101 11 "Acme" with
      panelists := [{ userId := 1, assignedBy := some 9, assignedAt := 3 }],
      volunteerPanelists := [pendingEntry 1 2] }
    rfl rfl ⟨pendingEntry 1 5, List.mem_cons_self _ _, rfl, Or.inl rfl⟩
    rfl rfl ⟨pendingEntry 1 2, List.mem_cons_self _ _, rfl, Or.inl rfl⟩

/-- C7: volunteer-roster uniqueness is preserved by every sequence of requests
(volunteering, reviews with any admitted status, `pending` included, and all
other roster-mutating endpoints): if every volunteer roster of every stored
assignment holds at most one entry per user, the same holds afterwards, and so
no volunteer roster holds two pending entries of one user. -/
theorem volunteer_roster_uniqueness_invariant (cfg : AssignmentSchema) (s : Store)
    (ops : List Op) (h : AllDocs VolunteersUnique s) :
    AllDocs VolunteersUnique (run cfg s ops) ∧
      ∀ a ∈ (run cfg s ops).assignments,
        NoDoublePending a.volunteerDevelopers ∧ NoDoublePending a.volunteerInterns ∧
          NoDoublePending a.volunteerPanelists := by
  have h1 := run_preserves volunteersUnique_invariant cfg ops s (fun hg => hg.elim) h
  refine ⟨h1, fun a ha => ?_⟩
  have h2 := h1 a ha
  exact ⟨noDoublePending_of_onePerUser h2.1, noDoublePending_of_onePerUser h2.2.1,
    noDoublePending_of_onePerUser h2.2.2⟩

theorem volunteer_roster_uniqueness_invariant_witness :
    AllDocs VolunteersUnique demoStore ∧
      (AllDocs VolunteersUnique (run strictSchema demoStore volunteerOps) ∧
        ∀ a ∈ (run strictSchema demoStore volunteerOps).assignments,
          NoDoublePending a.volunteerDevelopers ∧ NoDoublePending a.volunteerInterns ∧
            NoDoublePending a.volunteerPanelists) :=
  ⟨by unfold AllDocs VolunteersUnique OnePerUser; decide,
    volunteer_roster_uniqueness_invariant strictSchema demoStore volunteerOps
      (by unfold AllDocs VolunteersUnique OnePerUser; decide)⟩

/-! ## Company scoping and project approval -/

/-- C8 (as stated, false for `assignUserToProject`): HR of Acme assigns a user
that does not exist to project 20 of Globex and the answer is 404, not 403,
because the controller looks the user up before it compares companies. -/
theorem cross_company_assign_of_missing_user_is_404 :
    hrAcme.type = "hr" ∧ hrAcme.company = some "Acme" ∧
      (Project.findById demoStore (some 20)).map (fun p => p.company) = some "Globex" ∧
      User.findById demoStore (some 77) = none ∧
      (assignUserToProject strictSchema demoStore hrAcme
        { projectId := some 20, userId := some (.canonical 77), userType := some "developer" } 7).res.status
        = 404 := by
  decide

/-- C8 (amended): an HR actor of company `A` is answered 403, with the store
unchanged, by `reviewVolunteerRequest` on an assignment of company `B ≠ A`
whatever the named user and its volunteer entries, and by `assignUserToProject`
on a project of company `B ≠ A` whenever the named user exists and has the type
given as `userType`, whatever the rosters hold and whichever way the body
spells the identifier of the user. -/
theorem cross_company_hr_forbidden (cfg : AssignmentSchema) (s : Store) (actor : Actor)
    (A B : Company) (now : Timestamp)
    (reviewBody : ReviewBody) (review : ReviewValue) (assignment : ProjectAssignment)
    (assignBody : AssignBody) (assign : AssignValue) (project : Project) (userId : UserId)
    (user : User)
    (hhr : actor.type = "hr") (hA : actor.company = some A) (hAB : A ≠ B)
    (hrv : reviewVolunteerSchema reviewBody = some review)
    (hra : ProjectAssignment.findById s review.assignmentId = some assignment)
    (hrc : assignment.company = some B)
    (hav : assignUserSchema assignBody = some assign)
    (hap : Project.findById s (some assign.projectId) = some project)
    (hpc : project.company = B)
    (hac : assign.userId.cast = some userId)
    (hau : User.findById s (some userId) = some user)
    (hut : user.type = assign.userType) :
    reviewVolunteerRequest s actor reviewBody now = reply s 403 (some false) ∧
      assignUserToProject cfg s actor assignBody now = reply s 403 (some false) := by
  have hne : ¬ (some B = some A) := fun h => hAB (Option.some.inj h).symm
  constructor
  · unfold reviewVolunteerRequest
    cases hver : actor.verified with
    | false => simp
    | true => simp [hhr, hA, hrv, hra, hrc, hne]
  · unfold assignUserToProject
    cases hver : actor.verified with
    | false => simp
    | true =>
      by_cases hf : isFalsy (some A) = true
      · simp [hhr, hA, hav, hap, hac, hau, hut, hf]
      · simp [hhr, hA, hav, hap, hac, hau, hut, hf, hpc, hne]

theorem cross_company_hr_forbidden_witness :
    reviewVolunteerRequest demoStore hrAcme
        { assignmentId := some 200, userId := some 30, userType := some "developer",
          status := some "approved" } 7 = reply demoStore 403 (some false) ∧
      assignUserToProject strictSchema demoStore hrAcme
        { projectId := some 20, userId := some (.canonical 30), userType := some "developer" } 7
        = reply demoStore 403 (some false) :=
  cross_company_hr_forbidden strictSchema demoStore hrAcme "Acme" "Globex" 7
    { assignmentId := some 200, userId := some 30, userType := some "developer",
      status := some "approved" }
    { assignmentId := 200, userId := 30, userType := "developer", status := "approved" }
    (emptyAssignment 200 20 "Globex")
    { projectId := some 20, userId := some (.canonical 30), userType := some "developer" }
    { projectId := 20, userId := .canonical 30, userType := "developer" }
    { _id := 20, name := "Ledger", company := "Globex", isApproved := true,
      suggested_by := none }
    30
    { _id := 30, name := "Gil", email := "gil@globex.com", type := "developer",
      company := some "Globex" }
    rfl rfl (by decide) rfl rfl rfl rfl rfl rfl rfl rfl rfl

/-- C9 (the code allows a cross-company mutation): HR of Acme calls
`assignRandomPanelist` for project 20 of Globex; the answer is 201 and the
Globex developer 30 is appended to `panelists` of the Globex assignment 200. -/
theorem hr_random_panelist_crosses_company :
    hrAcme.type = "hr" ∧ hrAcme.company = some "Acme" ∧
      (Project.findById demoStore (some 20)).map (fun p => p.company) = some "Globex" ∧
      (User.findById demoStore (some 30)).map (fun u => u.company) = some (some "Globex") ∧
      (assignRandomPanelist demoStore hrAcme { projectId := some 20 } drawZero 7).res =
        { status := 201, success := some true } ∧
      (assignRandomPanelist demoStore hrAcme { projectId := some 20 } drawZero 7).store =
        { demoStore with
          assignments :=
            [{ emptyAssignment 100 10 "Acme" with
               assignedDevelopers := [{ userId := 1, assignedBy := some 9, assignedAt := 0 }] },
             emptyAssignment 101 11 "Acme",
             { emptyAssignment 200 20 "Globex" with
               panelists := [{ userId := 30, assignedBy := some 9, assignedAt := 7 }] }] } := by
  decide

/-- C10 (as stated, false for direct assignment): project 21 is not approved,
yet HR assigns intern 2 to it with `assignUserToProject`; the answer is 201
and a new assignment of project 21 holding the intern is stored. -/
theorem assign_to_unapproved_project_succeeds :
    (Project.findById demoStore (some 21)).map (fun p => p.isApproved) = some false ∧
      (assignUserToProject strictSchema demoStore hrAcme
        { projectId := some 21, userId := some (.canonical 2), userType := some "intern" } 7).res =
        { status := 201, success := some true } ∧
      (ProjectAssignment.findOne
          (assignUserToProject strictSchema demoStore hrAcme
            { projectId := some 21, userId := some (.canonical 2), userType := some "intern" } 7).store 21).map
        (fun a => a.assignedInterns.map (fun e => e.userId)) = some [2] := by
  decide

/-- C10 (amended): for a project with `isApproved = false`, each of
`volunteerForProject`, `volunteerForPanelist` and `initializeProjectAssignment`
returns a failure and leaves the store unchanged, for every volunteering actor
and every initialising actor. -/
theorem unapproved_project_refuses_volunteers_and_init (cfg : AssignmentSchema) (s : Store)
    (actor manager : Actor) (now : Timestamp) (projectId : ProjectId) (project : Project)
    (hp : Project.findById s (some projectId) = some project)
    (hna : project.isApproved = false) :
    Refused s (volunteerForProject cfg s actor { projectId := some projectId } now) ∧
      Refused s (volunteerForPanelist cfg s actor { projectId := some projectId } now) ∧
      Refused s (initializeProjectAssignment cfg s manager { projectId := some projectId }) := by
  refine ⟨?_, ?_, ?_⟩
  · unfold volunteerForProject
    simp only [volunteerSchema, hp, hna, Bool.not_false, if_true]
    repeat' first
      | exact refused_reply _ _ (by decide)
      | split
  · unfold volunteerForPanelist
    simp only [volunteerSchema, hp, hna, Bool.not_false, if_true]
    repeat' first
      | exact refused_reply _ _ (by decide)
      | split
  · unfold initializeProjectAssignment
    simp only [hp, hna, Bool.not_false, if_true]
    repeat' first
      | exact refused_reply _ _ (by decide)
      | split

theorem unapproved_project_refuses_volunteers_and_init_witness :
    Refused demoStore
        (volunteerForProject strictSchema demoStore devAcme { projectId := some 21 } 7) ∧
      Refused demoStore
        (volunteerForPanelist strictSchema demoStore devAcme { projectId := some 21 } 7) ∧
      Refused demoStore
        (initializeProjectAssignment strictSchema demoStore hrAcme { projectId := some 21 }) :=
  unapproved_project_refuses_volunteers_and_init strictSchema demoStore devAcme hrAcme 7 21
    { _id := 21, name := "Draft", company := "Acme", isApproved := false,
      suggested_by := some "dev@acme.com" }
    rfl rfl

/-! ## Reviews -/

theorem findIndex_eq_none {userId : UserId} {roster : List VolunteerEntry}
    (h : ∀ v ∈ roster, v.userId ≠ userId) : findIndex userId roster = none := by
  induction roster with
  | nil => rfl
  | cons v vs ih =>
    have h1 : v.userId ≠ userId := h v (List.mem_cons_self _ _)
    have h2 := ih (fun w hw => h w (List.mem_cons_of_mem _ hw))
    simp [findIndex, h1, h2]

/-- C11 (as stated, false): the only mentor request of developer 1 on
assignment 101 is a rejected one, none is pending, and yet the review with
status `approved` answers 200 and rewrites the assignment. -/
theorem review_of_rejected_entry_succeeds :
    rejectedEntry.status ≠ "pending" ∧
      (ProjectAssignment.findById rejectedStore 101).map (fun a => a.volunteerDevelopers) =
        some [rejectedEntry] ∧
      (reviewVolunteerRequest rejectedStore hrAcme approveDevBody 7).res =
        { status := 200, success := some true } ∧
      (reviewVolunteerRequest rejectedStore hrAcme approveDevBody 7).store ≠ rejectedStore := by
  decide

/-- C11 (amended): for an authorised reviewer, a body that passes validation
and an existing assignment whose volunteer roster for the given role holds no
entry of `userId` at all, `reviewVolunteerRequest` answers 404 and leaves the
store unchanged, and so does `reviewPanelistVolunteerRequest` for
`volunteerPanelists`. -/
theorem review_without_entry_is_404 (s1 s2 : Store) (actor1 actor2 : Actor)
    (body1 body2 : ReviewBody) (value1 value2 : ReviewValue) (a1 a2 : ProjectAssignment)
    (now : Timestamp)
    (hb1 : reviewVolunteerSchema body1 = some value1)
    (hf1 : ProjectAssignment.findById s1 value1.assignmentId = some a1)
    (hr1 : MayReview actor1 a1)
    (hn1 : ∀ v ∈ a1.getVolunteers (volunteerFieldOf value1.userType), v.userId ≠ value1.userId)
    (hb2 : reviewVolunteerSchema body2 = some value2)
    (hf2 : ProjectAssignment.findById s2 value2.assignmentId = some a2)
    (hr2 : MayReview actor2 a2)
    (hn2 : ∀ v ∈ a2.volunteerPanelists, v.userId ≠ value2.userId) :
    reviewVolunteerRequest s1 actor1 body1 now = reply s1 404 (some false) ∧
      reviewPanelistVolunteerRequest s2 actor2 body2 now = reply s2 404 (some false) := by
  constructor
  · unfold reviewVolunteerRequest
    rcases hr1 with ⟨hv, h | ⟨h, hc, hac⟩⟩
    · simp [hv, h, hb1, hf1, findIndex_eq_none hn1]
    · simp [hv, h, hc, hac, hb1, hf1, findIndex_eq_none hn1]
  · unfold reviewPanelistVolunteerRequest
    rcases hr2 with ⟨hv, h | ⟨h, hc, hac⟩⟩
    · simp [hv, h, hb2, hf2, findIndex_eq_none hn2]
    · simp [hv, h, hc, hac, hb2, hf2, findIndex_eq_none hn2]

theorem review_without_entry_is_404_witness :
    reviewVolunteerRequest demoStore hrAcme approveDevBody 7 = reply demoStore 404 (some false) ∧
      reviewPanelistVolunteerRequest demoStore hrAcme approveDevBody 7
        = reply demoStore 404 (some false) :=
  review_without_entry_is_404 demoStore demoStore hrAcme hrAcme approveDevBody approveDevBody
    { assignmentId := 101, userId := 1, userType := "developer", status := "approved" }
    { assignmentId := 101, userId := 1, userType := "developer", status := "approved" }
    (emptyAssignment 101 11 "Acme") (emptyAssignment 101 11 "Acme") 7
    rfl rfl ⟨rfl, Or.inr ⟨rfl, rfl, rfl⟩⟩ (by decide)
    rfl rfl ⟨rfl, Or.inr ⟨rfl, rfl, rfl⟩⟩ (by decide)

/-! ## The effect of one request on the assignment collection -/

theorem id_le_foldr_max {l : List ProjectAssignment} {x : ProjectAssignment} (h : x ∈ l) :
    x._id ≤ (l.map (fun a => a._id)).foldr max 0 := by
  induction l with
  | nil => cases h
  | cons y ys ih =>
    rcases List.mem_cons.mp h with h1 | h1
    · subst h1
      exact le_max_left _ _
    · exact le_trans (ih h1) (le_max_right _ _)

theorem freshId_fresh {s : Store} {x : ProjectAssignment} (h : x ∈ s.assignments) :
    x._id ≠ freshId s := by
  exact Nat.ne_of_lt (Nat.lt_succ_of_le (id_le_foldr_max h))

theorem any_id_of_mem {l : List ProjectAssignment} {a : ProjectAssignment} (h : a ∈ l)
    {id : AssignmentId} (hid : id = a._id) : l.any (fun x => x._id == id) = true := by
  rw [List.any_eq_true]
  exact ⟨a, h, by simp [hid]⟩

theorem any_freshId (s : Store) : s.assignments.any (fun x => x._id == freshId s) = false := by
  rw [List.any_eq_false]
  intro x hx
  simpa using freshId_fresh hx

theorem effect_reply {R : ProjectAssignment → ProjectAssignment → Prop} (s : Store)
    (status : Nat) (success : Option Bool) : Effect R s (reply s status success).store :=
  Or.inl rfl

theorem effect_updateAndReply {R : ProjectAssignment → ProjectAssignment → Prop} {s : Store}
    {a b : ProjectAssignment} (ha : a ∈ s.assignments) (hid : b._id = a._id) (hr : R a b)
    (status : Nat) : Effect R s (updateAndReply s b status).store :=
  Or.inr (Or.inl ⟨a, ha, b, hid, hr, rfl⟩)

theorem effect_save {R : ProjectAssignment → ProjectAssignment → Prop} {cfg : AssignmentSchema}
    {s s1 : Store} {a b : ProjectAssignment}
    (ha : a ∈ s.assignments ∨ a._id = freshId s) (hid : b._id = a._id) (hr : R a b)
    (hs : ProjectAssignment.save cfg s b = some s1) : Effect R s s1 := by
  unfold ProjectAssignment.save at hs
  rcases ha with ha | ha
  · rw [if_pos (any_id_of_mem ha hid)] at hs
    cases hs
    exact Or.inr (Or.inl ⟨a, ha, b, hid, hr, rfl⟩)
  · have hf : s.assignments.any (fun x => x._id == b._id) = false := by
      rw [hid, ha]
      exact any_freshId s
    rw [hf] at hs
    simp only [Bool.false_eq_true, if_false] at hs
    split at hs
    · cases hs
      exact Or.inr (Or.inr ⟨b, hid.trans ha, rfl⟩)
    · cases hs

theorem effect_saveAndReply {R : ProjectAssignment → ProjectAssignment → Prop}
    {cfg : AssignmentSchema} {s : Store} {a b : ProjectAssignment}
    (ha : a ∈ s.assignments ∨ a._id = freshId s) (hid : b._id = a._id) (hr : R a b)
    (status : Nat) : Effect R s (saveAndReply cfg s b status).store := by
  unfold saveAndReply
  split
  · next s1 hs => exact effect_save ha hid hr hs
  · exact Or.inl rfl

theorem findOne_getD_base (s : Store) (projectId : ProjectId) (company : Option Company)
    (devs : List AssignedEntry) :
    (ProjectAssignment.findOne s projectId).getD (ProjectAssignment.new s projectId company devs)
        ∈ s.assignments ∨
      ((ProjectAssignment.findOne s projectId).getD
        (ProjectAssignment.new s projectId company devs))._id = freshId s := by
  cases hf : ProjectAssignment.findOne s projectId with
  | none => exact Or.inr rfl
  | some a => exact Or.inl (List.mem_of_find?_eq_some hf)

theorem setVolunteers_id (a : ProjectAssignment) (f : VolunteerField) (l : List VolunteerEntry) :
    (a.setVolunteers f l)._id = a._id := by
  cases f <;> rfl

theorem setAssigned_id (a : ProjectAssignment) (f : AssignedField) (l : List AssignedEntry) :
    (a.setAssigned f l)._id = a._id := by
  cases f <;> rfl

theorem findById_id {s : Store} {id : AssignmentId} {a : ProjectAssignment}
    (h : ProjectAssignment.findById s id = some a) : a._id = id := by
  have := List.find?_some h
  simpa using this

theorem reviewSchema_fields {body : ReviewBody} {value : ReviewValue}
    (h : reviewVolunteerSchema body = some value) :
    body.assignmentId = some value.assignmentId ∧ body.userId = some value.userId ∧
      body.userType = some value.userType ∧ body.status = some value.status := by
  unfold reviewVolunteerSchema at h
  split at h
  · next a u t st ha hu ht hst =>
    split at h
    · cases h
      exact ⟨ha, hu, ht, hst⟩
    · cases h
  · cases h

theorem volunteerForProject_effect {R : ProjectAssignment → ProjectAssignment → Prop}
    (cfg : AssignmentSchema) (s : Store) (actor : Actor) (body : VolunteerBody) (now : Timestamp)
    (hR : DocRelation (.volunteerForProject actor body now) R) :
    Effect R s (volunteerForProject cfg s actor body now).store := by
  unfold volunteerForProject
  repeat' first
    | exact effect_reply _ _ _
    | split
    | dsimp only
  apply effect_saveAndReply (findOne_getD_base s _ _ _)
  · exact setVolunteers_id _ _ _
  · exact hR.pushVolunteer _ _ _

theorem reviews_of_loaded {body : ReviewBody} {value : ReviewValue} {s : Store}
    {assignment : ProjectAssignment}
    (hv : reviewVolunteerSchema body = some value)
    (hf : ProjectAssignment.findById s value.assignmentId = some assignment) :
    body.assignmentId = some assignment._id ∧ body.userId = some value.userId := by
  have h := reviewSchema_fields hv
  exact ⟨by rw [h.1, findById_id hf], h.2.1⟩

theorem reviewVolunteerRequest_effect {R : ProjectAssignment → ProjectAssignment → Prop}
    (s : Store) (actor : Actor) (body : ReviewBody) (now : Timestamp)
    (hR : DocRelation (.reviewVolunteerRequest actor body now) R) :
    Effect R s (reviewVolunteerRequest s actor body now).store := by
  unfold reviewVolunteerRequest
  repeat' first
    | exact effect_reply _ _ _
    | split
    | dsimp only
  · rename_i value hv _ assignment hf _ _ _ idx hidx _
    apply effect_updateAndReply (List.mem_of_find?_eq_some hf)
    · rw [setAssigned_id, setVolunteers_id]
    · exact hR.trans _ _ _ (hR.stamp _ _ _ _ _ (reviews_of_loaded hv hf) hidx)
        (hR.setAssigned _ _ _)
  · rename_i value hv _ assignment hf _ _ _ idx hidx
    apply effect_updateAndReply (List.mem_of_find?_eq_some hf)
    · exact setVolunteers_id _ _ _
    · exact hR.stamp _ _ _ _ _ (reviews_of_loaded hv hf) hidx

theorem assignUserToProject_effect {R : ProjectAssignment → ProjectAssignment → Prop}
    (cfg : AssignmentSchema) (s : Store) (actor : Actor) (body : AssignBody) (now : Timestamp)
    (hR : DocRelation (.assignUserToProject actor body now) R) :
    Effect R s (assignUserToProject cfg s actor body now).store := by
  unfold assignUserToProject
  repeat' first
    | exact effect_reply _ _ _
    | split
    | dsimp only
  apply effect_saveAndReply (findOne_getD_base s _ _ _)
  · exact setAssigned_id _ _ _
  · exact hR.setAssigned _ _ _

theorem removePanelistFromProject_effect {R : ProjectAssignment → ProjectAssignment → Prop}
    (s : Store) (actor : Actor) (body : RemovePanelistBody)
    (hR : DocRelation (.removePanelistFromProject actor body) R) :
    Effect R s (removePanelistFromProject s actor body).store := by
  unfold removePanelistFromProject
  repeat' first
    | exact effect_reply _ _ _
    | split
    | dsimp only
  rename_i hf _ _
  apply effect_updateAndReply (List.mem_of_find?_eq_some hf)
  · rfl
  · exact hR.setPanelists _ _

theorem removeUserFromProject_effect {R : ProjectAssignment → ProjectAssignment → Prop}
    (s : Store) (actor : Actor) (body : RemoveBody)
    (hR : DocRelation (.removeUserFromProject actor body) R) :
    Effect R s (removeUserFromProject s actor body).store := by
  unfold removeUserFromProject
  repeat' first
    | exact effect_reply _ _ _
    | split
    | dsimp only
  rename_i hf _ _
  apply effect_updateAndReply (List.mem_of_find?_eq_some hf)
  · exact setAssigned_id _ _ _
  · exact hR.setAssigned _ _ _

theorem volunteerForPanelist_effect {R : ProjectAssignment → ProjectAssignment → Prop}
    (cfg : AssignmentSchema) (s : Store) (actor : Actor) (body : VolunteerBody) (now : Timestamp)
    (hR : DocRelation (.volunteerForPanelist actor body now) R) :
    Effect R s (volunteerForPanelist cfg s actor body now).store := by
  unfold volunteerForPanelist
  repeat' first
    | exact effect_reply _ _ _
    | split
    | dsimp only
  apply effect_saveAndReply (findOne_getD_base s _ _ _)
  · rfl
  · exact hR.pushVolunteerPanelist _ _

theorem reviewPanelistVolunteerRequest_effect
    {R : ProjectAssignment → ProjectAssignment → Prop}
    (s : Store) (actor : Actor) (body : ReviewBody) (now : Timestamp)
    (hR : DocRelation (.reviewPanelistVolunteerRequest actor body now) R) :
    Effect R s (reviewPanelistVolunteerRequest s actor body now).store := by
  unfold reviewPanelistVolunteerRequest
  repeat' first
    | exact effect_reply _ _ _
    | split
    | dsimp only
  · rename_i value hv _ assignment hf _ _ idx hidx _ _
    apply effect_updateAndReply (List.mem_of_find?_eq_some hf)
    · rfl
    · exact hR.trans _ _ _
        (hR.stampPanelist assignment value.userId (stampReview value.status actor.userId now)
          idx (reviews_of_loaded hv hf) hidx)
        (hR.setPanelists _ _)
  · rename_i value hv _ assignment hf _ _ idx hidx _ _
    apply effect_updateAndReply (List.mem_of_find?_eq_some hf)
    · rfl
    · exact hR.stampPanelist assignment value.userId (stampReview value.status actor.userId now)
        idx (reviews_of_loaded hv hf) hidx

theorem assignPanelist_effect {R : ProjectAssignment → ProjectAssignment → Prop}
    (cfg : AssignmentSchema) (s : Store) (actor : Actor) (body : AssignBody) (now : Timestamp)
    (hR : DocRelation (.assignPanelist actor body now) R) :
    Effect R s (assignPanelist cfg s actor body now).store := by
  unfold assignPanelist
  repeat' first
    | exact effect_reply _ _ _
    | split
    | dsimp only
  apply effect_saveAndReply (findOne_getD_base s _ _ _)
  · rfl
  · exact hR.setPanelists _ _

theorem assignRandomPanelist_effect {R : ProjectAssignment → ProjectAssignment → Prop}
    (s : Store) (actor : Actor) (body : ProjectIdBody) (draw : Draw) (now : Timestamp)
    (hR : DocRelation (.assignRandomPanelist actor body draw now) R) :
    Effect R s (assignRandomPanelist s actor body draw now).store := by
  unfold assignRandomPanelist
  repeat' first
    | exact effect_reply _ _ _
    | split
    | dsimp only
  rename_i hf
  apply effect_updateAndReply (List.mem_of_find?_eq_some hf)
  · rfl
  · exact hR.setPanelists _ _

theorem initializeProjectAssignment_effect {R : ProjectAssignment → ProjectAssignment → Prop}
    (cfg : AssignmentSchema) (s : Store) (actor : Actor) (body : ProjectIdBody)
    (hR : DocRelation (.initializeProjectAssignment actor body) R) :
    Effect R s (initializeProjectAssignment cfg s actor body).store := by
  unfold initializeProjectAssignment
  repeat' first
    | exact effect_reply _ _ _
    | split
    | dsimp only
  exact effect_saveAndReply (a := ProjectAssignment.new s _ _ []) (Or.inr rfl) rfl
    (hR.refl _) _

theorem approveProject_effect {R : ProjectAssignment → ProjectAssignment → Prop}
    (cfg : AssignmentSchema) (s : Store) (actor : Actor) (id : ProjectId) (now : Timestamp)
    (hR : DocRelation (.approveProject actor id now) R) :
    Effect R s (approveProject cfg s actor id now).store := by
  unfold approveProject
  repeat' first
    | exact effect_reply _ _ _
    | exact Or.inl rfl
    | split
    | dsimp only
  rename_i hs
  have h := effect_save (R := R) (Or.inr rfl) rfl (hR.refl _) hs
  exact h

theorem assignInternToDeveloper_effect {R : ProjectAssignment → ProjectAssignment → Prop}
    (cfg : AssignmentSchema) (s : Store) (actor : Actor) (body : InternAssignBody)
    (now : Timestamp) (hR : DocRelation (.assignInternToDeveloper actor body now) R) :
    Effect R s (assignInternToDeveloper cfg s actor body now).store := by
  unfold assignInternToDeveloper
  repeat' first
    | exact effect_reply _ _ _
    | split
    | dsimp only
  rename_i developerId _ _ _ _ projectId _ _ _ _ hs
  refine effect_save
    (findOne_getD_base s projectId actor.company [assignedEntry developerId none now]) ?_ ?_ hs
  · rfl
  · exact hR.setAssigned _ .assignedInterns _

theorem removeInternAssignment_effect {R : ProjectAssignment → ProjectAssignment → Prop}
    (s : Store) (actor : Actor) (projectId : ProjectId) (internId : UserId)
    (hR : DocRelation (.removeInternAssignment actor projectId internId) R) :
    Effect R s (removeInternAssignment s actor projectId internId).store := by
  unfold removeInternAssignment
  repeat' first
    | exact effect_reply _ _ _
    | split
    | dsimp only
  rename_i hf
  apply effect_updateAndReply (List.mem_of_find?_eq_some hf)
  · rfl
  · exact hR.setAssigned _ .assignedInterns _

theorem step_effect {R : ProjectAssignment → ProjectAssignment → Prop}
    (cfg : AssignmentSchema) (s : Store) (op : Op) (hR : DocRelation op R) :
    Effect R s (step cfg s op).store := by
  cases op with
  | volunteerForProject actor body now => exact volunteerForProject_effect cfg s actor body now hR
  | reviewVolunteerRequest actor body now => exact reviewVolunteerRequest_effect s actor body now hR
  | assignUserToProject actor body now => exact assignUserToProject_effect cfg s actor body now hR
  | removePanelistFromProject actor body => exact removePanelistFromProject_effect s actor body hR
  | removeUserFromProject actor body => exact removeUserFromProject_effect s actor body hR
  | volunteerForPanelist actor body now => exact volunteerForPanelist_effect cfg s actor body now hR
  | reviewPanelistVolunteerRequest actor body now =>
    exact reviewPanelistVolunteerRequest_effect s actor body now hR
  | assignPanelist actor body now => exact assignPanelist_effect cfg s actor body now hR
  | assignRandomPanelist actor body draw now =>
    exact assignRandomPanelist_effect s actor body draw now hR
  | initializeProjectAssignment actor body =>
    exact initializeProjectAssignment_effect cfg s actor body hR
  | approveProject actor id now => exact approveProject_effect cfg s actor id now hR
  | assignInternToDeveloper actor body now =>
    exact assignInternToDeveloper_effect cfg s actor body now hR
  | removeInternAssignment actor projectId internId =>
    exact removeInternAssignment_effect s actor projectId internId hR

/-! ## Volunteer entries change only under a review that names them -/

theorem map_id_replaceDoc (b : ProjectAssignment) (l : List ProjectAssignment) :
    (replaceDoc b l).map (fun a => a._id) = l.map (fun a => a._id) := by
  induction l with
  | nil => rfl
  | cons x xs ih =>
    unfold replaceDoc
    split
    · next h => simp [h]
    · simp [ih]

theorem mem_replaceDoc_self {b : ProjectAssignment} {l : List ProjectAssignment}
    (h : ∃ x ∈ l, x._id = b._id) : b ∈ replaceDoc b l := by
  induction l with
  | nil => rcases h with ⟨x, hx, _⟩; cases hx
  | cons y ys ih =>
    unfold replaceDoc
    split
    · exact List.mem_cons_self _ _
    · next hne =>
      rcases h with ⟨x, hx, hxb⟩
      rcases List.mem_cons.mp hx with h1 | h1
      · exact absurd (h1 ▸ hxb) hne
      · exact List.mem_cons_of_mem _ (ih ⟨x, h1, hxb⟩)

theorem mem_replaceDoc_of_ne {a b : ProjectAssignment} {l : List ProjectAssignment}
    (h : a ∈ l) (hne : a._id ≠ b._id) : a ∈ replaceDoc b l := by
  induction l with
  | nil => cases h
  | cons y ys ih =>
    unfold replaceDoc
    rcases List.mem_cons.mp h with h1 | h1
    · subst h1
      rw [if_neg hne]
      exact List.mem_cons_self _ _
    · split
      · exact List.mem_cons_of_mem _ h1
      · exact List.mem_cons_of_mem _ (ih h1)

theorem eq_of_id_eq {l : List ProjectAssignment} (hu : (l.map (fun a => a._id)).Nodup)
    {a b : ProjectAssignment} (ha : a ∈ l) (hb : b ∈ l) (h : a._id = b._id) : a = b :=
  List.inj_on_of_nodup_map hu ha hb h

theorem uniqueIds_of_effect {R : ProjectAssignment → ProjectAssignment → Prop} {s t : Store}
    (h : Effect R s t) (hu : UniqueIds s) : UniqueIds t := by
  unfold UniqueIds at *
  rcases h with h | ⟨a, _, b, _, _, h⟩ | ⟨b, hb, h⟩
  · rw [h]; exact hu
  · rw [h, map_id_replaceDoc]; exact hu
  · rw [h, List.map_append, List.nodup_append]
    refine ⟨hu, by simp, ?_⟩
    intro x hx hx2
    simp only [List.map_cons, List.map_nil, List.mem_singleton] at hx2
    rcases List.mem_map.mp hx with ⟨y, hy, hyx⟩
    exact freshId_fresh hy (by rw [hyx, hx2, hb])

theorem entryAt_of_effect {id : AssignmentId} {r : VolunteerRoster} {i : Nat}
    {e : VolunteerEntry} {s t : Store} (h : Effect (Kept id r i e) s t) (hu : UniqueIds s)
    (he : EntryAt s id r i e) : EntryAt t id r i e := by
  rcases he with ⟨a, ha, haid, hae⟩
  rcases h with h | ⟨a0, ha0, b, hb, hk, h⟩ | ⟨b, _, h⟩
  · exact ⟨a, h ▸ ha, haid, hae⟩
  · by_cases hab : a._id = b._id
    · have haa : a = a0 := eq_of_id_eq hu ha ha0 (hab.trans hb)
      subst haa
      refine ⟨b, ?_, hb.trans haid, hk.2 haid hae⟩
      rw [h]
      exact mem_replaceDoc_self ⟨a, ha, hab⟩
    · refine ⟨a, ?_, haid, hae⟩
      rw [h]
      exact mem_replaceDoc_of_ne ha hab
  · refine ⟨a, ?_, haid, hae⟩
    rw [h]
    exact List.mem_append_left _ ha

theorem getElem?_append_of_some {l : List VolunteerEntry} {i : Nat} {e : VolunteerEntry}
    (h : l[i]? = some e) (l2 : List VolunteerEntry) : (l ++ l2)[i]? = some e := by
  induction l generalizing i with
  | nil => simp at h
  | cons x xs ih =>
    cases i with
    | zero => simpa using h
    | succ n => simpa using ih (by simpa using h)

theorem findIndex_userId {u : UserId} {l : List VolunteerEntry} {idx : Nat}
    (h : findIndex u l = some idx) : ∃ v, l[idx]? = some v ∧ v.userId = u := by
  induction l generalizing idx with
  | nil => simp [findIndex] at h
  | cons x xs ih =>
    unfold findIndex at h
    split at h
    · next hx =>
      cases h
      exact ⟨x, by simp, hx⟩
    · cases hf : findIndex u xs with
      | none => simp [hf] at h
      | some j =>
        simp only [hf, Option.map_some', Option.some.injEq] at h
        subst h
        simpa using ih hf

theorem updateAt_getElem?_ne (g : VolunteerEntry → VolunteerEntry) (l : List VolunteerEntry)
    {i idx : Nat} (h : i ≠ idx) : (updateAt g l idx)[i]? = l[i]? := by
  induction l generalizing i idx with
  | nil => cases idx <;> rfl
  | cons x xs ih =>
    cases idx with
    | zero =>
      cases i with
      | zero => exact absurd rfl h
      | succ n => simp [updateAt]
    | succ m =>
      cases i with
      | zero => simp [updateAt]
      | succ n => simpa [updateAt] using ih (fun hn => h (by rw [hn]))

theorem stamped_keeps {u : UserId} {l : List VolunteerEntry} {idx i : Nat}
    {e : VolunteerEntry} (g : VolunteerEntry → VolunteerEntry)
    (hidx : findIndex u l = some idx) (hne : u ≠ e.userId) (he : l[i]? = some e) :
    (updateAt g l idx)[i]? = some e := by
  rcases findIndex_userId hidx with ⟨v, hv, hvu⟩
  have hi : i ≠ idx := by
    intro h
    rw [h, hv] at he
    cases he
    exact hne hvu.symm
  rw [updateAt_getElem?_ne g l hi]
  exact he

theorem kept_relation {op : Op} {id : AssignmentId} {r : VolunteerRoster} {i : Nat}
    {e : VolunteerEntry} (hno : ¬ op.reviews id e.userId) :
    DocRelation op (Kept id r i e) where
  refl := fun _ => ⟨rfl, fun _ h => h⟩
  trans := fun _ _ _ hab hbc =>
    ⟨hbc.1.trans hab.1, fun hid h => hbc.2 (hab.1.trans hid) (hab.2 hid h)⟩
  pushVolunteer := by
    intro a f x
    refine ⟨setVolunteers_id _ _ _, fun _ h => ?_⟩
    cases f <;> cases r <;>
      first
        | exact getElem?_append_of_some h _
        | exact h
  pushVolunteerPanelist := by
    intro a x
    refine ⟨rfl, fun _ h => ?_⟩
    cases r <;>
      first
        | exact getElem?_append_of_some h _
        | exact h
  stamp := by
    intro a f u g idx hrev hidx
    refine ⟨setVolunteers_id _ _ _, fun hid h => ?_⟩
    have hne : u ≠ e.userId := fun hu => hno (by rw [← hid, ← hu]; exact hrev)
    cases f <;> cases r <;>
      first
        | exact stamped_keeps g hidx hne h
        | exact h
  stampPanelist := by
    intro a u g idx hrev hidx
    refine ⟨rfl, fun hid h => ?_⟩
    have hne : u ≠ e.userId := fun hu => hno (by rw [← hid, ← hu]; exact hrev)
    cases r <;>
      first
        | exact stamped_keeps g hidx hne h
        | exact h
  setAssigned := by
    intro a f l
    refine ⟨setAssigned_id _ _ _, fun _ h => ?_⟩
    cases f <;> exact h
  setPanelists := fun _ _ => ⟨rfl, fun _ h => h⟩

theorem true_relation (op : Op) : DocRelation op (fun _ _ => True) where
  refl := fun _ => trivial
  trans := fun _ _ _ _ _ => trivial
  pushVolunteer := fun _ _ _ => trivial
  pushVolunteerPanelist := fun _ _ => trivial
  stamp := fun _ _ _ _ _ _ _ => trivial
  stampPanelist := fun _ _ _ _ _ _ => trivial
  setAssigned := fun _ _ _ => trivial
  setPanelists := fun _ _ => trivial

theorem step_uniqueIds (cfg : AssignmentSchema) (s : Store) (op : Op) (hu : UniqueIds s) :
    UniqueIds (step cfg s op).store :=
  uniqueIds_of_effect (step_effect cfg s op (true_relation op)) hu

theorem run_uniqueIds (cfg : AssignmentSchema) (ops : List Op) (s : Store) (hu : UniqueIds s) :
    UniqueIds (run cfg s ops) := by
  induction ops generalizing s with
  | nil => exact hu
  | cons op rest ih => exact ih _ (step_uniqueIds cfg s op hu)

/-- C12 (as stated, false): the store in which the mentor request of
developer 1 is rejected is reached from the demo deployment, a later review
with status `approved` moves that entry from `rejected` to `approved` and
re-stamps `reviewedAt`, and the validator admits `pending` as a decision. -/
theorem terminal_entry_restamped_by_review :
    run strictSchema demoStore rejectOps = rejectedStore ∧
      (ProjectAssignment.findById rejectedStore 101).map (fun a => a.volunteerDevelopers) =
        some [rejectedEntry] ∧
      (ProjectAssignment.findById
          (reviewVolunteerRequest rejectedStore hrAcme approveDevBody 7).store 101).map
        (fun a => a.volunteerDevelopers) =
        some [{ rejectedEntry with status := "approved", reviewedAt := some 7 }] ∧
      (reviewVolunteerSchema
        { assignmentId := some 101, userId := some 1, userType := some "developer",
          status := some "pending" }).isSome = true := by
  decide

/-- C12 (amended): in a store with pairwise different assignment identifiers,
a volunteer entry (of any status, so in particular an approved or a rejected
one) stays at its position in its roster with all its fields, `status`,
`reviewedBy` and `reviewedAt` included, through every sequence of requests
that contains no review call naming its assignment and its user. -/
theorem entry_kept_without_naming_review (cfg : AssignmentSchema) (ops : List Op) (s : Store)
    (id : AssignmentId) (r : VolunteerRoster) (i : Nat) (e : VolunteerEntry)
    (hu : UniqueIds s) (he : EntryAt s id r i e)
    (hno : ∀ op ∈ ops, ¬ op.reviews id e.userId) :
    EntryAt (run cfg s ops) id r i e := by
  induction ops generalizing s with
  | nil => exact he
  | cons op rest ih =>
    have hop : ¬ op.reviews id e.userId := hno op (List.mem_cons_self _ _)
    exact ih (step cfg s op).store (step_uniqueIds cfg s op hu)
      (entryAt_of_effect (step_effect cfg s op (kept_relation hop)) hu he)
      (fun o ho => hno o (List.mem_cons_of_mem _ ho))

theorem entry_kept_without_naming_review_witness :
    EntryAt (run strictSchema rejectedStore bystanderOps) 101 .volunteerDevelopers 0
      rejectedEntry :=
  entry_kept_without_naming_review strictSchema bystanderOps rejectedStore 101
    .volunteerDevelopers 0 rejectedEntry
    (by unfold UniqueIds; decide)
    (by unfold EntryAt; decide)
    (by simp [bystanderOps, Op.reviews, rejectedEntry])

/-! ## The effect of a successful review -/

theorem updateAt_eq_set (g : VolunteerEntry → VolunteerEntry) {l : List VolunteerEntry}
    {i : Nat} {old : VolunteerEntry} (h : l[i]? = some old) :
    updateAt g l i = l.set i (g old) := by
  induction l generalizing i with
  | nil => simp at h
  | cons x xs ih =>
    cases i with
    | zero =>
      simp only [List.getElem?_cons_zero, Option.some.injEq] at h
      simp [updateAt, h]
    | succ n =>
      simp only [List.getElem?_cons_succ] at h
      simp [updateAt, ih h]

theorem findIndex_least {u : UserId} {l : List VolunteerEntry} {idx : Nat}
    (h : findIndex u l = some idx) :
    ∀ j, j < idx → ∀ v, l[j]? = some v → v.userId ≠ u := by
  induction l generalizing idx with
  | nil => simp [findIndex] at h
  | cons x xs ih =>
    unfold findIndex at h
    split at h
    · cases h
      intro j hj
      cases hj
    · next hx =>
      cases hf : findIndex u xs with
      | none => simp [hf] at h
      | some k =>
        simp only [hf, Option.map_some', Option.some.injEq] at h
        subst h
        intro j hj v hv
        cases j with
        | zero =>
          simp only [List.getElem?_cons_zero, Option.some.injEq] at hv
          exact hv ▸ hx
        | succ n =>
          simp only [List.getElem?_cons_succ] at hv
          exact ih hf n (Nat.lt_of_succ_lt_succ hj) v hv

theorem find_replaceDoc_self {b : ProjectAssignment} {l : List ProjectAssignment}
    (h : ∃ x ∈ l, x._id = b._id) :
    (replaceDoc b l).find? (fun a => a._id == b._id) = some b := by
  induction l with
  | nil => rcases h with ⟨x, hx, _⟩; cases hx
  | cons y ys ih =>
    unfold replaceDoc
    split
    · simp
    · next hne =>
      rcases h with ⟨x, hx, hxb⟩
      rcases List.mem_cons.mp hx with h1 | h1
      · exact absurd (h1 ▸ hxb) hne
      · rw [List.find?_cons_of_neg _ (by simpa using hne)]
        exact ih ⟨x, h1, hxb⟩

theorem reviewSchema_userType {body : ReviewBody} {value : ReviewValue}
    (h : reviewVolunteerSchema body = some value) :
    value.userType = "developer" ∨ value.userType = "intern" := by
  unfold reviewVolunteerSchema at h
  split at h
  · split at h
    · next hc =>
      cases h
      simp only [Bool.and_eq_true] at hc
      simpa using hc.1
    · cases h
  · cases h

/-- The two ways a call of `reviewVolunteerRequest` ends: refused with the
store untouched, or with the loaded assignment stamped (and, on approval,
extended) and written back. -/
theorem reviewVolunteerRequest_cases (s : Store) (actor : Actor) (body : ReviewBody)
    (now : Timestamp) :
    ((reviewVolunteerRequest s actor body now).res.success = some false ∧
        (reviewVolunteerRequest s actor body now).store = s) ∨
      ∃ value a i,
        reviewVolunteerSchema body = some value ∧
        ProjectAssignment.findById s value.assignmentId = some a ∧
        findIndex value.userId (a.getVolunteers (volunteerFieldOf value.userType)) = some i ∧
        reviewVolunteerRequest s actor body now =
          updateAndReply s
            (if value.status = "approved" then
              (a.setVolunteers (volunteerFieldOf value.userType)
                (updateAt (stampReview value.status actor.userId now)
                  (a.getVolunteers (volunteerFieldOf value.userType)) i)).setAssigned
                (assignedFieldOf value.userType)
                ((a.setVolunteers (volunteerFieldOf value.userType)
                  (updateAt (stampReview value.status actor.userId now)
                    (a.getVolunteers (volunteerFieldOf value.userType)) i)).getAssigned
                  (assignedFieldOf value.userType) ++
                  [assignedEntry value.userId (some actor.userId) now])
            else
              a.setVolunteers (volunteerFieldOf value.userType)
                (updateAt (stampReview value.status actor.userId now)
                  (a.getVolunteers (volunteerFieldOf value.userType)) i))
            200 := by
  unfold reviewVolunteerRequest
  repeat' first
    | exact Or.inl ⟨rfl, rfl⟩
    | split
    | dsimp only
  · rename_i value hv _ a hf _ hst _ i hidx _
    exact Or.inr ⟨value, a, i, hv, hf, hidx, by rw [if_pos hst]⟩
  · rename_i value hv _ a hf _ hst _ i hidx
    exact Or.inr ⟨value, a, i, hv, hf, hidx, by rw [if_neg hst]⟩

/-- C13: a successful `reviewVolunteerRequest` acts on the first entry `old`
of the named user in the roster of the role in the loaded assignment `a`, and
writes back exactly the assignment the specification describes
(`reviewOutcome`): that entry stamped with the decided status, the reviewer
and the time; on `approved` one entry `{userId, assignedBy = reviewer}`
appended to `assignedDevelopers` or `assignedInterns` by role; on any other
status the assigned rosters as before; all other fields, rosters and stored
documents untouched. -/
theorem successful_review_effect (s : Store) (actor : Actor) (body : ReviewBody)
    (now : Timestamp)
    (hok : (reviewVolunteerRequest s actor body now).res.success = some true) :
    ∃ value a i old,
      reviewVolunteerSchema body = some value ∧
      ProjectAssignment.findById s value.assignmentId = some a ∧
      (a.getVolunteers (volunteerFieldOf value.userType))[i]? = some old ∧
      old.userId = value.userId ∧
      (∀ j, j < i → ∀ v, (a.getVolunteers (volunteerFieldOf value.userType))[j]? = some v →
        v.userId ≠ value.userId) ∧
      (reviewVolunteerRequest s actor body now).res = { status := 200, success := some true } ∧
      (reviewVolunteerRequest s actor body now).store =
        { s with
          assignments := replaceDoc (reviewOutcome a value actor.userId now i old) s.assignments } ∧
      ProjectAssignment.findById (reviewVolunteerRequest s actor body now).store
        value.assignmentId = some (reviewOutcome a value actor.userId now i old) := by
  rcases reviewVolunteerRequest_cases s actor body now with ⟨hf, _⟩ | ⟨value, a, i, hv, hfa, hi, hr⟩
  · rw [hf] at hok
    cases hok
  · rcases findIndex_userId hi with ⟨old, hold, hou⟩
    have hdoc :
        (if value.status = "approved" then
            (a.setVolunteers (volunteerFieldOf value.userType)
              (updateAt (stampReview value.status actor.userId now)
                (a.getVolunteers (volunteerFieldOf value.userType)) i)).setAssigned
              (assignedFieldOf value.userType)
              ((a.setVolunteers (volunteerFieldOf value.userType)
                (updateAt (stampReview value.status actor.userId now)
                  (a.getVolunteers (volunteerFieldOf value.userType)) i)).getAssigned
                (assignedFieldOf value.userType) ++
                [assignedEntry value.userId (some actor.userId) now])
          else
            a.setVolunteers (volunteerFieldOf value.userType)
              (updateAt (stampReview value.status actor.userId now)
                (a.getVolunteers (volunteerFieldOf value.userType)) i))
          = reviewOutcome a value actor.userId now i old := by
      rw [updateAt_eq_set _ hold]
      rcases reviewSchema_userType hv with ht | ht <;> by_cases hst : value.status = "approved" <;>
        simp [reviewOutcome, ht, hst, volunteerFieldOf, assignedFieldOf,
          ProjectAssignment.setVolunteers, ProjectAssignment.getVolunteers,
          ProjectAssignment.setAssigned, ProjectAssignment.getAssigned, stampReview,
          assignedEntry]
    rw [hdoc] at hr
    refine ⟨value, a, i, old, hv, hfa, hold, hou, findIndex_least hi, ?_, ?_, ?_⟩
    · rw [hr]; rfl
    · rw [hr]; rfl
    · rw [hr]
      have ha : a._id = value.assignmentId := findById_id hfa
      have hid : (reviewOutcome a value actor.userId now i old)._id = value.assignmentId := ha
      have := find_replaceDoc_self (b := reviewOutcome a value actor.userId now i old)
        (l := s.assignments) ⟨a, List.mem_of_find?_eq_some hfa, ha.trans hid.symm⟩
      rw [hid] at this
      exact this

theorem successful_review_effect_witness :
    ∃ value a i old,
      reviewVolunteerSchema approveDevBody = some value ∧
      ProjectAssignment.findById pendingStore value.assignmentId = some a ∧
      (a.getVolunteers (volunteerFieldOf value.userType))[i]? = some old ∧
      old.userId = value.userId ∧
      (∀ j, j < i → ∀ v, (a.getVolunteers (volunteerFieldOf value.userType))[j]? = some v →
        v.userId ≠ value.userId) ∧
      (reviewVolunteerRequest pendingStore hrAcme approveDevBody 6).res =
        { status := 200, success := some true } ∧
      (reviewVolunteerRequest pendingStore hrAcme approveDevBody 6).store =
        { pendingStore with
          assignments :=
            replaceDoc (reviewOutcome a value hrAcme.userId 6 i old) pendingStore.assignments } ∧
      ProjectAssignment.findById (reviewVolunteerRequest pendingStore hrAcme approveDevBody 6).store
        value.assignmentId = some (reviewOutcome a value hrAcme.userId 6 i old) :=
  successful_review_effect pendingStore hrAcme approveDevBody 6 (by decide)

/-! ## Failures and partial writes -/

theorem atomic_reply (s : Store) (status : Nat) (success : Option Bool) :
    (reply s status success).res.success = some false → (reply s status success).store = s :=
  fun _ => rfl

theorem atomic_updateAndReply (s : Store) (a : ProjectAssignment) (status : Nat) :
    (updateAndReply s a status).res.success = some false →
      (updateAndReply s a status).store = s := by
  intro h
  cases h

theorem atomic_success (s t : Store) (status : Nat) :
    ({ res := { status := status, success := some true }, store := t } : Result).res.success
        = some false →
      ({ res := { status := status, success := some true }, store := t } : Result).store = s := by
  intro h
  cases h

theorem atomic_saveAndReply (cfg : AssignmentSchema) (s : Store) (a : ProjectAssignment)
    (status : Nat) :
    (saveAndReply cfg s a status).res.success = some false →
      (saveAndReply cfg s a status).store = s := by
  unfold saveAndReply
  split
  · exact atomic_success _ _ _
  · exact atomic_reply _ _ _

theorem volunteerForProject_atomic (cfg : AssignmentSchema) (s : Store) (actor : Actor) (body : VolunteerBody) (now : Timestamp) :
    (volunteerForProject cfg s actor body now).res.success = some false →
      (volunteerForProject cfg s actor body now).store = s := by
  unfold volunteerForProject
  repeat' first
    | exact atomic_reply _ _ _
    | split
    | dsimp only
  all_goals exact atomic_saveAndReply _ _ _ _

theorem reviewVolunteerRequest_atomic (s : Store) (actor : Actor) (body : ReviewBody) (now : Timestamp) :
    (reviewVolunteerRequest s actor body now).res.success = some false →
      (reviewVolunteerRequest s actor body now).store = s := by
  unfold reviewVolunteerRequest
  repeat' first
    | exact atomic_reply _ _ _
    | split
    | dsimp only
  all_goals exact atomic_updateAndReply _ _ _

theorem assignUserToProject_atomic (cfg : AssignmentSchema) (s : Store) (actor : Actor) (body : AssignBody) (now : Timestamp) :
    (assignUserToProject cfg s actor body now).res.success = some false →
      (assignUserToProject cfg s actor body now).store = s := by
  unfold assignUserToProject
  repeat' first
    | exact atomic_reply _ _ _
    | split
    | dsimp only
  all_goals exact atomic_saveAndReply _ _ _ _

theorem removePanelistFromProject_atomic (s : Store) (actor : Actor) (body : RemovePanelistBody) :
    (removePanelistFromProject s actor body).res.success = some false →
      (removePanelistFromProject s actor body).store = s := by
  unfold removePanelistFromProject
  repeat' first
    | exact atomic_reply _ _ _
    | split
    | dsimp only
  all_goals exact atomic_updateAndReply _ _ _

theorem removeUserFromProject_atomic (s : Store) (actor : Actor) (body : RemoveBody) :
    (removeUserFromProject s actor body).res.success = some false →
      (removeUserFromProject s actor body).store = s := by
  unfold removeUserFromProject
  repeat' first
    | exact atomic_reply _ _ _
    | split
    | dsimp only
  all_goals exact atomic_updateAndReply _ _ _

theorem volunteerForPanelist_atomic (cfg : AssignmentSchema) (s : Store) (actor : Actor) (body : VolunteerBody) (now : Timestamp) :
    (volunteerForPanelist cfg s actor body now).res.success = some false →
      (volunteerForPanelist cfg s actor body now).store = s := by
  unfold volunteerForPanelist
  repeat' first
    | exact atomic_reply _ _ _
    | split
    | dsimp only
  all_goals exact atomic_saveAndReply _ _ _ _

theorem reviewPanelistVolunteerRequest_atomic (s : Store) (actor : Actor) (body : ReviewBody) (now : Timestamp) :
    (reviewPanelistVolunteerRequest s actor body now).res.success = some false →
      (reviewPanelistVolunteerRequest s actor body now).store = s := by
  unfold reviewPanelistVolunteerRequest
  repeat' first
    | exact atomic_reply _ _ _
    | split
    | dsimp only
  all_goals exact atomic_updateAndReply _ _ _

theorem assignPanelist_atomic (cfg : AssignmentSchema) (s : Store) (actor : Actor) (body : AssignBody) (now : Timestamp) :
    (assignPanelist cfg s actor body now).res.success = some false →
      (assignPanelist cfg s actor body now).store = s := by
  unfold assignPanelist
  repeat' first
    | exact atomic_reply _ _ _
    | split
    | dsimp only
  all_goals exact atomic_saveAndReply _ _ _ _

theorem assignRandomPanelist_atomic (s : Store) (actor : Actor) (body : ProjectIdBody) (draw : Draw) (now : Timestamp) :
    (assignRandomPanelist s actor body draw now).res.success = some false →
      (assignRandomPanelist s actor body draw now).store = s := by
  unfold assignRandomPanelist
  repeat' first
    | exact atomic_reply _ _ _
    | split
    | dsimp only
  all_goals exact atomic_updateAndReply _ _ _

theorem initializeProjectAssignment_atomic (cfg : AssignmentSchema) (s : Store) (actor : Actor) (body : ProjectIdBody) :
    (initializeProjectAssignment cfg s actor body).res.success = some false →
      (initializeProjectAssignment cfg s actor body).store = s := by
  unfold initializeProjectAssignment
  repeat' first
    | exact atomic_reply _ _ _
    | split
    | dsimp only
  all_goals exact atomic_saveAndReply _ _ _ _

theorem assignInternToDeveloper_atomic (cfg : AssignmentSchema) (s : Store) (actor : Actor) (body : InternAssignBody) (now : Timestamp) :
    (assignInternToDeveloper cfg s actor body now).res.success = some false →
      (assignInternToDeveloper cfg s actor body now).store = s := by
  unfold assignInternToDeveloper
  repeat' first
    | exact atomic_reply _ _ _
    | split
    | dsimp only
  intro h
  cases h

theorem removeInternAssignment_atomic (s : Store) (actor : Actor) (projectId : ProjectId) (internId : UserId) :
    (removeInternAssignment s actor projectId internId).res.success = some false →
      (removeInternAssignment s actor projectId internId).store = s := by
  unfold removeInternAssignment
  repeat' first
    | exact atomic_reply _ _ _
    | split
    | dsimp only
  all_goals exact atomic_updateAndReply _ _ _

/-- Every request other than `approveProject` that answers `success: false`
leaves the store exactly as it was. -/
theorem step_failure_atomic (cfg : AssignmentSchema) (s : Store) (op : Op)
    (hop : ∀ actor id now, op ≠ .approveProject actor id now) :
    (step cfg s op).res.success = some false → (step cfg s op).store = s := by
  cases op with
  | approveProject actor id now => exact absurd rfl (hop actor id now)
  | volunteerForProject actor body now => exact volunteerForProject_atomic cfg s actor body now
  | reviewVolunteerRequest actor body now => exact reviewVolunteerRequest_atomic s actor body now
  | assignUserToProject actor body now => exact assignUserToProject_atomic cfg s actor body now
  | removePanelistFromProject actor body => exact removePanelistFromProject_atomic s actor body
  | removeUserFromProject actor body => exact removeUserFromProject_atomic s actor body
  | volunteerForPanelist actor body now => exact volunteerForPanelist_atomic cfg s actor body now
  | reviewPanelistVolunteerRequest actor body now => exact reviewPanelistVolunteerRequest_atomic s actor body now
  | assignPanelist actor body now => exact assignPanelist_atomic cfg s actor body now
  | assignRandomPanelist actor body draw now => exact assignRandomPanelist_atomic s actor body draw now
  | initializeProjectAssignment actor body => exact initializeProjectAssignment_atomic cfg s actor body
  | assignInternToDeveloper actor body now => exact assignInternToDeveloper_atomic cfg s actor body now
  | removeInternAssignment actor projectId internId => exact removeInternAssignment_atomic s actor projectId internId

/-- Once `approveProject` has passed its checks, the stored project is
approved, whatever becomes of the assignment. -/
theorem approveProject_projects (cfg : AssignmentSchema) (s : Store) (actor : Actor)
    (id : ProjectId) (now : Timestamp) (project : Project)
    (hm : MayManage actor project) (hp : Project.findById s (some id) = some project) :
    (approveProject cfg s actor id now).store.projects =
      replaceProject { project with isApproved := true } s.projects := by
  have hscope : ¬ (actor.type = "hr" ∧ some project.company ≠ actor.company) := by
    rcases hm with ⟨_, h | ⟨_, _, h⟩⟩
    · intro hc
      rw [h] at hc
      exact absurd hc.1 (by decide)
    · intro hc
      exact hc.2 h.symm
  have htype : ["admin", "hr"].contains actor.type = true := by
    rcases hm with ⟨_, h | ⟨h, _, _⟩⟩ <;> rw [h] <;> decide
  unfold approveProject
  simp only [hm.1, htype, hp, hscope, Bool.not_true, Bool.false_eq_true, if_false]
  split
  · rfl
  · split
    · rfl
    · next s2 hs =>
      unfold ProjectAssignment.save at hs
      split at hs
      · cases hs; rfl
      · split at hs
        · cases hs; rfl
        · cases hs

/-- C14 (the code is not atomic in `approveProject`): project 21 is not
approved; under the strict schema the approval by HR answers 500 with
`success: false`, and yet the stored project has become approved; and under
every schema, whenever this call answers `success: false` the store differs
from the store before the call. -/
theorem approveProject_failure_leaves_project_approved :
    (Project.findById demoStore (some 21)).map (fun p => p.isApproved) = some false ∧
      (approveProject strictSchema demoStore hrAcme 21 7).res =
        { status := 500, success := some false } ∧
      (Project.findById (approveProject strictSchema demoStore hrAcme 21 7).store
        (some 21)).map (fun p => p.isApproved) = some true ∧
      ∀ cfg, (approveProject cfg demoStore hrAcme 21 7).res.success = some false →
        (approveProject cfg demoStore hrAcme 21 7).store ≠ demoStore := by
  refine ⟨by decide, by decide, by decide, fun cfg _ heq => ?_⟩
  have hp := approveProject_projects cfg demoStore hrAcme 21 7
    { _id := 21, name := "Draft", company := "Acme", isApproved := false,
      suggested_by := some "dev@acme.com" } ⟨rfl, Or.inr ⟨rfl, rfl, rfl⟩⟩ rfl
  rw [heq] at hp
  revert hp
  decide

theorem approveProject_failure_leaves_project_approved_witness :
    (approveProject strictSchema demoStore hrAcme 21 7).res.success = some false ∧
      (approveProject strictSchema demoStore hrAcme 21 7).store ≠ demoStore :=
  ⟨by decide, approveProject_failure_leaves_project_approved.2.2.2 strictSchema (by decide)⟩

/-! ## Direct assignment -/

theorem find_toString_isSome_eq_hasUser (roster : List AssignedEntry) (u : UserId) :
    (roster.find? (fun a => ObjectId.toString a.userId == IdString.canonical u)).isSome =
      hasUser roster u := by
  unfold hasUser ObjectId.toString
  induction roster with
  | nil => rfl
  | cons x xs ih =>
    by_cases hx : x.userId = u
    · simp [List.find?, hx]
    · simp only [List.find?, List.any_cons]
      have h1 : (IdString.canonical x.userId == IdString.canonical u) = false := by
        simpa using hx
      have h2 : (x.userId == u) = false := by simpa using hx
      rw [h1, h2]
      simpa using ih

/-- The already-assigned checks catch the canonical spelling of an identifier:
`assignUserToProject` fails and leaves the store unchanged when the body names,
by the string `toString()` gives, a user of the roster `userType` selects in
the project's assignment, and `assignPanelist` does when the body so names a
developer in `panelists` of the project's assignment; for every actor. -/
theorem canonical_spelling_of_assigned_user_refused (cfg : AssignmentSchema) (s1 s2 : Store)
    (actor1 actor2 : Actor) (now : Timestamp)
    (projectId1 projectId2 : ProjectId) (userId1 userId2 : UserId) (userType : String)
    (ignored : Option String) (a1 a2 : ProjectAssignment)
    (hf1 : ProjectAssignment.findOne s1 projectId1 = some a1)
    (hin1 : hasUser (a1.getAssigned (assignedFieldOf userType)) userId1 = true)
    (hf2 : ProjectAssignment.findOne s2 projectId2 = some a2)
    (hin2 : hasUser a2.panelists userId2 = true) :
    Refused s1
        (assignUserToProject cfg s1 actor1
          { projectId := some projectId1, userId := some (.canonical userId1),
            userType := some userType }
          now) ∧
      Refused s2
        (assignPanelist cfg s2 actor2
          { projectId := some projectId2, userId := some (.canonical userId2),
            userType := ignored } now) := by
  constructor
  · unfold assignUserToProject assignUserSchema
    by_cases hc : ["developer", "intern"].contains userType = true
    · simp only [hc, if_true, hf1, Option.getD_some, find_toString_isSome_eq_hasUser, hin1,
        IdString.cast]
      repeat' first
        | exact refused_reply _ _ (by decide)
        | split
    · simp only [hc]
      repeat' first
        | exact refused_reply _ _ (by decide)
        | split
  · unfold assignPanelist assignUserSchema
    simp only [List.contains_cons, beq_self_eq_true, Bool.true_or, if_true, hf2,
      Option.getD_some, hasUserString_canonical, hin2, IdString.cast]
    repeat' first
      | exact refused_reply _ _ (by decide)
      | split

/-- The mentor half of the already-assigned check holds under every spelling:
when the body names, by a string that is cast to the identifier of a user in
`assignedDevelopers` of the project's assignment, a user to be assigned as
`developer`, `assignUserToProject` fails and leaves the store unchanged, for
every actor; the global mentor check, a query that casts the string, refuses
what the string comparison lets through. -/
theorem assigned_mentor_refused_under_every_spelling (cfg : AssignmentSchema) (s : Store)
    (actor : Actor) (now : Timestamp) (projectId : ProjectId) (userId : IdString)
    (developerId : UserId) (a : ProjectAssignment)
    (hf : ProjectAssignment.findOne s projectId = some a)
    (hc : userId.cast = some developerId)
    (hin : hasUser a.assignedDevelopers developerId = true) :
    Refused s
      (assignUserToProject cfg s actor
        { projectId := some projectId, userId := some userId, userType := some "developer" }
        now) := by
  have hm1 : (ProjectAssignment.findOneByMentor s developerId).isSome = true := by
    unfold ProjectAssignment.findOneByMentor
    rw [List.find?_isSome]
    exact ⟨a, List.mem_of_find?_eq_some hf, hin⟩
  unfold assignUserToProject assignUserSchema
  simp only [List.contains_cons, beq_self_eq_true, Bool.true_or, if_true, hc, hm1, and_self,
    and_true]
  repeat' first
    | exact refused_reply _ _ (by decide)
    | split

theorem assigned_mentor_refused_under_every_spelling_witness :
    Refused hexStore
      (assignUserToProject strictSchema hexStore hrAcme
        { projectId := some 11, userId := some (.variant 2748), userType := some "developer" }
        7) :=
  assigned_mentor_refused_under_every_spelling strictSchema hexStore hrAcme 7 11 (.variant 2748)
    2748
    { emptyAssignment 101 11 "Acme" with
      assignedDevelopers := [{ userId := 2748, assignedBy := some 9, assignedAt := 0 }],
      assignedInterns := [{ userId := 2749, assignedBy := some 9, assignedAt := 1 }],
      panelists := [{ userId := 2750, assignedBy := some 9, assignedAt := 2 }] }
    rfl rfl rfl

/-- C15 (the checks compare strings): intern 2749 is in `assignedInterns` and
developer 2750 in `panelists` of the assignment of project 11. Under the
canonical spelling of the identifier `assignUserToProject` and `assignPanelist`
answer 400 and change nothing. Under the spelling with upper-case hexadecimal
letters both answer 201, and the roster then holds the user twice. -/
theorem respelled_assigned_user_is_assigned_again :
    (∀ cfg, assignUserToProject cfg hexStore hrAcme
        { projectId := some 11, userId := some (.canonical 2749), userType := some "intern" } 7 =
      reply hexStore 400 (some false)) ∧
      (∀ cfg, (assignUserToProject cfg hexStore hrAcme
          { projectId := some 11, userId := some (.variant 2749), userType := some "intern" }
          7).res = { status := 201, success := some true }) ∧
      (∀ cfg, (ProjectAssignment.findById
          (assignUserToProject cfg hexStore hrAcme
            { projectId := some 11, userId := some (.variant 2749), userType := some "intern" }
            7).store 101).map
          (fun a => a.assignedInterns.map (fun e => e.userId)) = some [2749, 2749]) ∧
      (∀ cfg, assignPanelist cfg hexStore hrAcme
          { projectId := some 11, userId := some (.canonical 2750), userType := none } 7 =
        reply hexStore 400 (some false)) ∧
      (∀ cfg, (assignPanelist cfg hexStore hrAcme
          { projectId := some 11, userId := some (.variant 2750), userType := none } 7).res =
        { status := 201, success := some true }) ∧
      (∀ cfg, (ProjectAssignment.findById
          (assignPanelist cfg hexStore hrAcme
            { projectId := some 11, userId := some (.variant 2750), userType := none }
            7).store 101).map
          (fun a => a.panelists.map (fun e => e.userId)) = some [2750, 2750]) :=
  ⟨fun _ => rfl, fun _ => rfl, fun _ => rfl, fun _ => rfl, fun _ => rfl, fun _ => rfl⟩

/-! ## The random panelist -/

theorem Draw.index_one (d : Draw) : d.index 1 = 0 := by
  unfold Draw.index
  rw [Nat.mul_one]
  exact Nat.div_eq_of_lt d.lt

/-- With an existing assignment, exactly one eligible developer is the one
appended to `panelists`, whatever the draw; with no eligible developer the
answer is 404 and nothing changes. -/
theorem assignRandomPanelist_with_assignment (s : Store) (actor : Actor) (projectId : ProjectId)
    (draw : Draw) (now : Timestamp) (project : Project) (a : ProjectAssignment)
    (ht : ["hr", "admin"].contains actor.type = true)
    (hp : Project.findById s (some projectId) = some project)
    (ha : ProjectAssignment.findOne s projectId = some a) :
    (∀ D, availableDevelopers s project.company
          (a.assignedDevelopers.map (fun d => d.userId) ++ a.panelists.map (fun p => p.userId))
          = [D] →
        assignRandomPanelist s actor { projectId := some projectId } draw now =
          updateAndReply s
            { a with panelists := a.panelists ++ [assignedEntry D._id (some actor.userId) now] }
            201) ∧
      (availableDevelopers s project.company
          (a.assignedDevelopers.map (fun d => d.userId) ++ a.panelists.map (fun p => p.userId))
          = [] →
        assignRandomPanelist s actor { projectId := some projectId } draw now =
          reply s 404 (some false)) := by
  constructor
  · intro D hD
    unfold assignRandomPanelist
    simp only [ht, Bool.not_true, Bool.false_eq_true, if_false]
    simp [hp, ha, hD, Draw.index_one]
  · intro hD
    unfold assignRandomPanelist
    simp only [ht, Bool.not_true, Bool.false_eq_true, if_false]
    simp [hp, ha, hD]

/-- C16 (the code fails without an assignment): project 21 has no assignment
and exactly one developer of its company, developer 1, is eligible; for every
draw `assignRandomPanelist` answers 500 and stores nothing, because the branch
that should create the assignment reassigns a `const`. -/
theorem random_panelist_without_assignment_is_500 :
    ProjectAssignment.findOne demoStore 21 = none ∧
      (availableDevelopers demoStore "Acme" []).map (fun u => u._id) = [1] ∧
      ∀ draw, assignRandomPanelist demoStore hrAcme { projectId := some 21 } draw 7 =
        reply demoStore 500 (some false) := by
  refine ⟨by decide, by decide, fun draw => ?_⟩
  have hp : Project.findById demoStore (some 21) =
      some { _id := 21, name := "Draft", company := "Acme", isApproved := false,
             suggested_by := some "dev@acme.com" } := rfl
  have hf : ProjectAssignment.findOne demoStore 21 = none := rfl
  have hav : availableDevelopers demoStore "Acme" [] =
      [{ _id := 1, name := "Dev", email := "dev@acme.com", type := "developer",
         company := some "Acme" }] := by decide
  have ht : ["hr", "admin"].contains hrAcme.type = true := by decide
  unfold assignRandomPanelist
  simp only [ht, Bool.not_true, Bool.false_eq_true, if_false]
  simp [hp, hf, hav, Draw.index_one]

/-! ## Removal from a roster -/

theorem filter_bne_eq_withoutUser (roster : List AssignedEntry) (u : UserId) :
    roster.filter (fun e => e.userId != u) = withoutUser roster u := by
  unfold withoutUser
  apply List.filter_congr
  intro e _
  by_cases h : e.userId = u <;> simp [bne, h]

theorem withoutUser_length_eq_iff (roster : List AssignedEntry) (u : UserId) :
    (withoutUser roster u).length = roster.length ↔ hasUser roster u = false := by
  unfold withoutUser hasUser
  induction roster with
  | nil => simp
  | cons x xs ih =>
    by_cases hx : x.userId = u
    · have hle := List.length_filter_le (fun e : AssignedEntry => decide (¬ e.userId = u)) xs
      simp only [List.filter_cons, hx, ne_eq, not_true_eq_false, decide_False,
        Bool.false_eq_true, if_false, List.length_cons, List.any_cons, beq_self_eq_true,
        Bool.true_or, Bool.true_eq_false, iff_false]
      omega
    · have hb : (x.userId == u) = false := by simpa using hx
      simp only [List.filter_cons, hx, ne_eq, not_false_eq_true, decide_True, if_true,
        List.length_cons, Nat.add_right_cancel_iff, List.any_cons, hb, Bool.false_or]
      exact ih

/-- C17: for an authorised actor, a well-formed body and an existing
assignment `a`, `removeUserFromProject` answers 404 and changes nothing when
the user is not in the roster `userType` selects; when the user is in it, the
answer is 200 and the assignment written back is `a` with every entry of the
user filtered out of that one roster and every other field and roster as
before. `removePanelistFromProject` does the same for `panelists`. -/
theorem removal_filters_one_roster (s1 s2 : Store) (actor1 actor2 : Actor)
    (assignmentId1 assignmentId2 : AssignmentId) (userId1 userId2 : UserId)
    (userType : String) (a1 a2 : ProjectAssignment)
    (ht : userType = "developer" ∨ userType = "intern")
    (hf1 : ProjectAssignment.findById s1 assignmentId1 = some a1)
    (hr1 : MayReview actor1 a1)
    (hf2 : ProjectAssignment.findById s2 assignmentId2 = some a2)
    (hr2 : MayReview actor2 a2) :
    removeUserFromProject s1 actor1
        { assignmentId := some assignmentId1, userId := some userId1,
          userType := some userType } =
      (if hasUser (a1.getAssigned (assignedFieldOf userType)) userId1 then
        updateAndReply s1
          (if userType = "developer" then
            { a1 with assignedDevelopers := withoutUser a1.assignedDevelopers userId1 }
          else { a1 with assignedInterns := withoutUser a1.assignedInterns userId1 })
          200
      else reply s1 404 (some false)) ∧
    removePanelistFromProject s2 actor2
        { assignmentId := some assignmentId2, userId := some userId2 } =
      (if hasUser a2.panelists userId2 then
        updateAndReply s2 { a2 with panelists := withoutUser a2.panelists userId2 } 200
      else reply s2 404 (some false)) := by
  constructor
  · have htype : ["hr", "admin"].contains actor1.type = true := by
      rcases hr1 with ⟨_, h | ⟨h, _, _⟩⟩ <;> rw [h] <;> decide
    have hscope : ¬ (actor1.type = "hr" ∧
        (isFalsy actor1.company = true ∨ a1.company ≠ actor1.company)) := by
      rcases hr1 with ⟨_, h | ⟨_, hc, hac⟩⟩
      · intro hx
        rw [h] at hx
        exact absurd hx.1 (by decide)
      · intro hx
        rcases hx.2 with h1 | h1
        · rw [hc] at h1
          cases h1
        · exact h1 hac
    have hvalid : ["developer", "intern"].contains userType = true := by
      rcases ht with h | h <;> rw [h] <;> decide
    unfold removeUserFromProject removeUserSchema
    simp only [hr1.1, htype, hvalid, hf1, hscope, Bool.not_true, Bool.false_eq_true, if_false,
      if_true, filter_bne_eq_withoutUser, withoutUser_length_eq_iff]
    rcases ht with h | h
    · subst h
      cases hh : hasUser (a1.getAssigned (assignedFieldOf "developer")) userId1 with
      | false => simp
      | true =>
        simp
        rfl
    · subst h
      cases hh : hasUser (a1.getAssigned (assignedFieldOf "intern")) userId1 with
      | false => simp
      | true =>
        simp
        rfl
  · have htype : ["hr", "admin"].contains actor2.type = true := by
      rcases hr2 with ⟨_, h | ⟨h, _, _⟩⟩ <;> rw [h] <;> decide
    have hscope : ¬ (actor2.type = "hr" ∧ a2.company ≠ actor2.company) := by
      rcases hr2 with ⟨_, h | ⟨_, _, hac⟩⟩
      · intro hx
        rw [h] at hx
        exact absurd hx.1 (by decide)
      · intro hx
        exact hx.2 hac
    unfold removePanelistFromProject
    simp only [hr2.1, htype, hf2, hscope, Bool.not_true, Bool.false_eq_true, if_false,
      filter_bne_eq_withoutUser, withoutUser_length_eq_iff]
    cases hh : hasUser a2.panelists userId2 <;> simp

theorem removal_filters_one_roster_witness :
    removeUserFromProject internStore hrAcme
        { assignmentId := some 101, userId := some 2, userType := some "intern" } =
      (if hasUser (internDoc.getAssigned (assignedFieldOf "intern")) 2 then
        updateAndReply internStore
          (if "intern" = "developer" then
            { internDoc with assignedDevelopers := withoutUser internDoc.assignedDevelopers 2 }
          else { internDoc with assignedInterns := withoutUser internDoc.assignedInterns 2 })
          200
      else reply internStore 404 (some false)) ∧
    removePanelistFromProject panelistStore hrAcme
        { assignmentId := some 101, userId := some 1 } =
      (if hasUser panelistDoc.panelists 1 then
        updateAndReply panelistStore
          { panelistDoc with panelists := withoutUser panelistDoc.panelists 1 } 200
      else reply panelistStore 404 (some false)) :=
  removal_filters_one_roster internStore panelistStore hrAcme hrAcme 101 101 2 1 "intern"
    internDoc panelistDoc (Or.inr rfl) rfl ⟨rfl, Or.inr ⟨rfl, rfl, rfl⟩⟩ rfl
    ⟨rfl, Or.inr ⟨rfl, rfl, rfl⟩⟩

/-! ## Creating assignments -/

theorem any_projectId_of_findOne_none {s : Store} {projectId : ProjectId}
    (h : ProjectAssignment.findOne s projectId = none) :
    s.assignments.any (fun x => x.projectId == projectId) = false := by
  unfold ProjectAssignment.findOne at h
  rw [List.any_eq_false]
  intro x hx hp
  exact List.find?_eq_none.mp h x hx hp

/-- C18: for a verified HR/admin actor in scope of an approved project,
`initializeProjectAssignment` answers 400 and changes nothing when the project
already has an assignment, and otherwise answers 201 and appends exactly one
assignment with the project as `projectId`, the project's company as
`company` and six empty rosters (the project's company being non-empty, as
the project schema requires). -/
theorem initialize_creates_exactly_once (cfg : AssignmentSchema) (s1 s2 : Store)
    (actor1 actor2 : Actor) (projectId1 projectId2 : ProjectId) (project1 project2 : Project)
    (existing : ProjectAssignment)
    (hm1 : MayManage actor1 project1)
    (hp1 : Project.findById s1 (some projectId1) = some project1)
    (happ1 : project1.isApproved = true)
    (he1 : ProjectAssignment.findOne s1 projectId1 = some existing)
    (hm2 : MayManage actor2 project2)
    (hp2 : Project.findById s2 (some projectId2) = some project2)
    (happ2 : project2.isApproved = true)
    (hc2 : project2.company ≠ "")
    (hn2 : ProjectAssignment.findOne s2 projectId2 = none) :
    initializeProjectAssignment cfg s1 actor1 { projectId := some projectId1 } =
        reply s1 400 (some false) ∧
      initializeProjectAssignment cfg s2 actor2 { projectId := some projectId2 } =
        { res := { status := 201, success := some true },
          store :=
            { s2 with
              assignments :=
                s2.assignments ++
                  [{ _id := freshId s2, projectId := projectId2,
                     company := some project2.company, assignedDevelopers := [],
                     assignedInterns := [], panelists := [], volunteerDevelopers := [],
                     volunteerInterns := [], volunteerPanelists := [] }] } } := by
  have scope : ∀ (actor : Actor) (project : Project), MayManage actor project →
      ["hr", "admin"].contains actor.type = true ∧
        ¬ (actor.type = "hr" ∧ isFalsy actor.company = true) ∧
        ¬ (actor.type = "hr" ∧ some project.company ≠ actor.company) := by
    intro actor project hm
    rcases hm with ⟨_, h | ⟨h, hc, hac⟩⟩
    · refine ⟨by rw [h]; decide, ?_, ?_⟩ <;>
        · intro hx
          rw [h] at hx
          exact absurd hx.1 (by decide)
    · refine ⟨by rw [h]; decide, ?_, ?_⟩
      · intro hx
        rw [hc] at hx
        cases hx.2
      · intro hx
        exact hx.2 hac.symm
  constructor
  · obtain ⟨h1, h2, h3⟩ := scope actor1 project1 hm1
    unfold initializeProjectAssignment
    simp only [hm1.1, h1, hp1, happ1, h2, h3, he1, Bool.not_true, Bool.false_eq_true, if_false,
      Option.isSome_some, if_true]
  · obtain ⟨h1, h2, h3⟩ := scope actor2 project2 hm2
    have hfalsy : isFalsy (some project2.company) = false := by
      simpa [isFalsy] using hc2
    unfold initializeProjectAssignment saveAndReply ProjectAssignment.save insertAccepted
    simp only [hm2.1, h1, hp2, happ2, h2, h3, hn2, Bool.not_true, Bool.false_eq_true, if_false,
      Option.isSome_none, ProjectAssignment.new, any_freshId,
      any_projectId_of_findOne_none hn2, hfalsy, Bool.not_false, Bool.or_true, Bool.and_self,
      if_true]

theorem initialize_creates_exactly_once_witness :
    initializeProjectAssignment strictSchema demoStore hrAcme { projectId := some 10 } =
        reply demoStore 400 (some false) ∧
      initializeProjectAssignment strictSchema approvedStore hrAcme { projectId := some 21 } =
        { res := { status := 201, success := some true },
          store :=
            { approvedStore with
              assignments :=
                approvedStore.assignments ++
                  [{ _id := freshId approvedStore, projectId := 21, company := some "Acme",
                     assignedDevelopers := [], assignedInterns := [], panelists := [],
                     volunteerDevelopers := [], volunteerInterns := [],
                     volunteerPanelists := [] }] } } :=
  initialize_creates_exactly_once strictSchema demoStore approvedStore hrAcme hrAcme 10 21
    { _id := 10, name := "Billing", company := "Acme", isApproved := true,
      suggested_by := some "hr@acme.com" }
    { _id := 21, name := "Draft", company := "Acme", isApproved := true,
      suggested_by := some "dev@acme.com" }
    { emptyAssignment 100 10 "Acme" with
      assignedDevelopers := [{ userId := 1, assignedBy := some 9, assignedAt := 0 }] }
    ⟨rfl, Or.inr ⟨rfl, rfl, rfl⟩⟩ rfl rfl rfl
    ⟨rfl, Or.inr ⟨rfl, rfl, rfl⟩⟩ rfl rfl (by decide) rfl

/-- What `approveProject` does to the assignments once its checks have passed:
either the save of the seeded assignment is rejected (500, the collection as
before), or the seeded assignment is appended (200), whether or not the
project already has an assignment. -/
theorem approveProject_outcome (cfg : AssignmentSchema) (s : Store) (actor : Actor)
    (id : ProjectId) (now : Timestamp) (project : Project)
    (hm : MayManage actor project) (hp : Project.findById s (some id) = some project) :
    ((approveProject cfg s actor id now).res = { status := 500, success := some false } ∧
        (approveProject cfg s actor id now).store.assignments = s.assignments) ∨
      ∃ u, cfg.castUserId project.suggested_by = some u ∧
        (approveProject cfg s actor id now).res = { status := 200, success := some true } ∧
        (approveProject cfg s actor id now).store.assignments =
          s.assignments ++
            [{ _id := freshId s, projectId := project._id, company := some project.company,
               assignedDevelopers := [{ userId := u, assignedBy := none, assignedAt := now }],
               assignedInterns := [], panelists := [], volunteerDevelopers := [],
               volunteerInterns := [], volunteerPanelists := [] }] := by
  have hscope : ¬ (actor.type = "hr" ∧ some project.company ≠ actor.company) := by
    rcases hm with ⟨_, h | ⟨_, _, h⟩⟩
    · intro hc
      rw [h] at hc
      exact absurd hc.1 (by decide)
    · intro hc
      exact hc.2 h.symm
  have htype : ["admin", "hr"].contains actor.type = true := by
    rcases hm with ⟨_, h | ⟨h, _, _⟩⟩ <;> rw [h] <;> decide
  unfold approveProject
  simp only [hm.1, htype, hp, hscope, Bool.not_true, Bool.false_eq_true, if_false]
  split
  · exact Or.inl ⟨rfl, rfl⟩
  · next u hu =>
    split
    · exact Or.inl ⟨rfl, rfl⟩
    · next s2 hs =>
      refine Or.inr ⟨u, hu, rfl, ?_⟩
      unfold ProjectAssignment.save at hs
      have hfresh := any_freshId s
      simp only [ProjectAssignment.new, freshId] at hs hfresh
      rw [hfresh] at hs
      simp only [Bool.false_eq_true, if_false] at hs
      split at hs
      · cases hs
        rfl
      · cases hs

/-! ## One assignment per project -/

theorem length_replaceDoc (b : ProjectAssignment) (l : List ProjectAssignment) :
    (replaceDoc b l).length = l.length := by
  have h := congrArg List.length (map_id_replaceDoc b l)
  simpa using h

theorem guarded_same {s t : Store} (h : t.assignments.length = s.assignments.length) :
    AppendGuarded s t := by
  intro b hb
  rw [hb] at h
  simp at h

theorem guarded_reply (s : Store) (status : Nat) (success : Option Bool) :
    AppendGuarded s (reply s status success).store :=
  guarded_same rfl

theorem guarded_updateAndReply (s : Store) (b : ProjectAssignment) (status : Nat) :
    AppendGuarded s (updateAndReply s b status).store :=
  guarded_same (length_replaceDoc _ _)

theorem guarded_save {cfg : AssignmentSchema} {s s1 : Store} {a b : ProjectAssignment}
    (ha : a ∈ s.assignments ∨ ProjectAssignment.findOne s a.projectId = none)
    (hid : b._id = a._id) (hp : b.projectId = a.projectId)
    (hs : ProjectAssignment.save cfg s b = some s1) : AppendGuarded s s1 := by
  unfold ProjectAssignment.save at hs
  split at hs
  · cases hs
    exact guarded_same (length_replaceDoc _ _)
  · next hany =>
    split at hs
    · cases hs
      rcases ha with ha | ha
      · exact absurd (any_id_of_mem ha hid) hany
      · intro b1 hb1
        have hb : b = b1 := by
          have h := List.append_cancel_left hb1
          simpa using h
        rw [← hb, hp]
        exact ha
    · cases hs

theorem guarded_saveAndReply {cfg : AssignmentSchema} {s : Store} {a b : ProjectAssignment}
    (ha : a ∈ s.assignments ∨ ProjectAssignment.findOne s a.projectId = none)
    (hid : b._id = a._id) (hp : b.projectId = a.projectId) (status : Nat) :
    AppendGuarded s (saveAndReply cfg s b status).store := by
  unfold saveAndReply
  split
  · next s1 hs => exact guarded_save ha hid hp hs
  · exact guarded_same rfl

theorem findOne_getD_guard (s : Store) (projectId : ProjectId) (company : Option Company)
    (devs : List AssignedEntry) :
    (ProjectAssignment.findOne s projectId).getD (ProjectAssignment.new s projectId company devs)
        ∈ s.assignments ∨
      ProjectAssignment.findOne s
        ((ProjectAssignment.findOne s projectId).getD
          (ProjectAssignment.new s projectId company devs)).projectId = none := by
  cases hf : ProjectAssignment.findOne s projectId with
  | none => exact Or.inr hf
  | some a => exact Or.inl (List.mem_of_find?_eq_some hf)

theorem setVolunteers_projectId (a : ProjectAssignment) (f : VolunteerField)
    (l : List VolunteerEntry) : (a.setVolunteers f l).projectId = a.projectId := by
  cases f <;> rfl

theorem setAssigned_projectId (a : ProjectAssignment) (f : AssignedField)
    (l : List AssignedEntry) : (a.setAssigned f l).projectId = a.projectId := by
  cases f <;> rfl

theorem volunteerForProject_guarded (cfg : AssignmentSchema) (s : Store) (actor : Actor)
    (body : VolunteerBody) (now : Timestamp) :
    AppendGuarded s (volunteerForProject cfg s actor body now).store := by
  unfold volunteerForProject
  repeat' first
    | exact guarded_reply _ _ _
    | split
    | dsimp only
  apply guarded_saveAndReply (findOne_getD_guard s _ _ _)
  · exact setVolunteers_id _ _ _
  · exact setVolunteers_projectId _ _ _

theorem reviewVolunteerRequest_guarded (s : Store) (actor : Actor) (body : ReviewBody)
    (now : Timestamp) : AppendGuarded s (reviewVolunteerRequest s actor body now).store := by
  unfold reviewVolunteerRequest
  repeat' first
    | exact guarded_reply _ _ _
    | exact guarded_updateAndReply _ _ _
    | split
    | dsimp only

theorem assignUserToProject_guarded (cfg : AssignmentSchema) (s : Store) (actor : Actor)
    (body : AssignBody) (now : Timestamp) :
    AppendGuarded s (assignUserToProject cfg s actor body now).store := by
  unfold assignUserToProject
  repeat' first
    | exact guarded_reply _ _ _
    | split
    | dsimp only
  apply guarded_saveAndReply (findOne_getD_guard s _ _ _)
  · exact setAssigned_id _ _ _
  · exact setAssigned_projectId _ _ _

theorem removePanelistFromProject_guarded (s : Store) (actor : Actor)
    (body : RemovePanelistBody) :
    AppendGuarded s (removePanelistFromProject s actor body).store := by
  unfold removePanelistFromProject
  repeat' first
    | exact guarded_reply _ _ _
    | exact guarded_updateAndReply _ _ _
    | split
    | dsimp only

theorem removeUserFromProject_guarded (s : Store) (actor : Actor) (body : RemoveBody) :
    AppendGuarded s (removeUserFromProject s actor body).store := by
  unfold removeUserFromProject
  repeat' first
    | exact guarded_reply _ _ _
    | exact guarded_updateAndReply _ _ _
    | split
    | dsimp only

theorem volunteerForPanelist_guarded (cfg : AssignmentSchema) (s : Store) (actor : Actor)
    (body : VolunteerBody) (now : Timestamp) :
    AppendGuarded s (volunteerForPanelist cfg s actor body now).store := by
  unfold volunteerForPanelist
  repeat' first
    | exact guarded_reply _ _ _
    | split
    | dsimp only
  apply guarded_saveAndReply (findOne_getD_guard s _ _ _)
  · rfl
  · rfl

theorem reviewPanelistVolunteerRequest_guarded (s : Store) (actor : Actor) (body : ReviewBody)
    (now : Timestamp) :
    AppendGuarded s (reviewPanelistVolunteerRequest s actor body now).store := by
  unfold reviewPanelistVolunteerRequest
  repeat' first
    | exact guarded_reply _ _ _
    | exact guarded_updateAndReply _ _ _
    | split

theorem assignPanelist_guarded (cfg : AssignmentSchema) (s : Store) (actor : Actor)
    (body : AssignBody) (now : Timestamp) :
    AppendGuarded s (assignPanelist cfg s actor body now).store := by
  unfold assignPanelist
  repeat' first
    | exact guarded_reply _ _ _
    | split
    | dsimp only
  apply guarded_saveAndReply (findOne_getD_guard s _ _ _)
  · rfl
  · rfl

theorem assignRandomPanelist_guarded (s : Store) (actor : Actor) (body : ProjectIdBody)
    (draw : Draw) (now : Timestamp) :
    AppendGuarded s (assignRandomPanelist s actor body draw now).store := by
  unfold assignRandomPanelist
  repeat' first
    | exact guarded_reply _ _ _
    | exact guarded_updateAndReply _ _ _
    | split
    | dsimp only

theorem initializeProjectAssignment_guarded (cfg : AssignmentSchema) (s : Store) (actor : Actor)
    (body : ProjectIdBody) : AppendGuarded s (initializeProjectAssignment cfg s actor body).store := by
  unfold initializeProjectAssignment
  repeat' first
    | exact guarded_reply _ _ _
    | split
    | dsimp only
  rename_i hn
  refine guarded_saveAndReply (a := ProjectAssignment.new s _ _ []) (Or.inr ?_) rfl rfl _
  cases hf : ProjectAssignment.findOne s (ProjectAssignment.new s _ _ []).projectId with
  | none => rfl
  | some a =>
    exfalso
    apply hn
    change (ProjectAssignment.findOne s _).isSome = true
    simp only [ProjectAssignment.new] at hf
    rw [hf]
    rfl

theorem assignInternToDeveloper_guarded (cfg : AssignmentSchema) (s : Store) (actor : Actor)
    (body : InternAssignBody) (now : Timestamp) :
    AppendGuarded s (assignInternToDeveloper cfg s actor body now).store := by
  unfold assignInternToDeveloper
  repeat' first
    | exact guarded_reply _ _ _
    | split
    | dsimp only
  rename_i developerId _ _ _ _ projectId _ _ _ _ hs
  refine guarded_save
    (findOne_getD_guard s projectId actor.company [assignedEntry developerId none now]) ?_ ?_ hs
  · rfl
  · rfl

theorem removeInternAssignment_guarded (s : Store) (actor : Actor) (projectId : ProjectId)
    (internId : UserId) :
    AppendGuarded s (removeInternAssignment s actor projectId internId).store := by
  unfold removeInternAssignment
  repeat' first
    | exact guarded_reply _ _ _
    | exact guarded_updateAndReply _ _ _
    | split

/-- Every request other than `approveProject` appends an assignment only for a
project that has none. -/
theorem step_guarded (cfg : AssignmentSchema) (s : Store) (op : Op)
    (hop : op.isApproval = false) : AppendGuarded s (step cfg s op).store := by
  cases op with
  | volunteerForProject actor body now => exact volunteerForProject_guarded cfg s actor body now
  | reviewVolunteerRequest actor body now => exact reviewVolunteerRequest_guarded s actor body now
  | assignUserToProject actor body now => exact assignUserToProject_guarded cfg s actor body now
  | removePanelistFromProject actor body => exact removePanelistFromProject_guarded s actor body
  | removeUserFromProject actor body => exact removeUserFromProject_guarded s actor body
  | volunteerForPanelist actor body now => exact volunteerForPanelist_guarded cfg s actor body now
  | reviewPanelistVolunteerRequest actor body now =>
    exact reviewPanelistVolunteerRequest_guarded s actor body now
  | assignPanelist actor body now => exact assignPanelist_guarded cfg s actor body now
  | assignRandomPanelist actor body draw now =>
    exact assignRandomPanelist_guarded s actor body draw now
  | initializeProjectAssignment actor body =>
    exact initializeProjectAssignment_guarded cfg s actor body
  | approveProject actor id now => cases hop
  | assignInternToDeveloper actor body now =>
    exact assignInternToDeveloper_guarded cfg s actor body now
  | removeInternAssignment actor projectId internId =>
    exact removeInternAssignment_guarded s actor projectId internId

theorem projectId_relation (op : Op) :
    DocRelation op (fun a b => b.projectId = a.projectId) where
  refl := fun _ => rfl
  trans := fun _ _ _ hab hbc => hbc.trans hab
  pushVolunteer := fun _ _ _ => setVolunteers_projectId _ _ _
  pushVolunteerPanelist := fun _ _ => rfl
  stamp := fun _ _ _ _ _ _ _ => setVolunteers_projectId _ _ _
  stampPanelist := fun _ _ _ _ _ _ => rfl
  setAssigned := fun _ _ _ => setAssigned_projectId _ _ _
  setPanelists := fun _ _ => rfl

theorem map_projectId_replaceDoc {l : List ProjectAssignment}
    (hu : (l.map (fun a => a._id)).Nodup) {a b : ProjectAssignment} (ha : a ∈ l)
    (hid : b._id = a._id) (hp : b.projectId = a.projectId) :
    (replaceDoc b l).map (fun a => a.projectId) = l.map (fun a => a.projectId) := by
  induction l with
  | nil => rfl
  | cons x xs ih =>
    unfold replaceDoc
    split
    · next hx =>
      have hxa : x = a :=
        eq_of_id_eq hu (List.mem_cons_self _ _) ha (hx.trans hid)
      simp [hxa, hp]
    · next hx =>
      have hax : a ∈ xs := by
        rcases List.mem_cons.mp ha with h | h
        · exact absurd (by rw [← h, hid]) hx
        · exact h
      have hu1 : (xs.map (fun a => a._id)).Nodup := by
        rw [List.map_cons, List.nodup_cons] at hu
        exact hu.2
      simp [ih hu1 hax]

theorem not_mem_projectId_of_findOne_none {s : Store} {projectId : ProjectId}
    (h : ProjectAssignment.findOne s projectId = none) :
    projectId ∉ s.assignments.map (fun a => a.projectId) := by
  intro hm
  rcases List.mem_map.mp hm with ⟨x, hx, hxp⟩
  have h1 := any_projectId_of_findOne_none h
  rw [List.any_eq_false] at h1
  exact h1 x hx (by simp [hxp])

/-- A request other than `approveProject` keeps one assignment per project. -/
theorem step_onePerProject (cfg : AssignmentSchema) (s : Store) (op : Op)
    (hop : op.isApproval = false) (hu : UniqueIds s) (h1 : OnePerProject s) :
    OnePerProject (step cfg s op).store := by
  unfold OnePerProject at h1 ⊢
  rcases step_effect cfg s op (projectId_relation op) with h | ⟨a, ha, b, hid, hp, h⟩ | ⟨b, _, h⟩
  · rw [h]
    exact h1
  · rw [h, map_projectId_replaceDoc hu ha hid hp]
    exact h1
  · have hn := step_guarded cfg s op hop b h
    rw [h, List.map_append, List.nodup_append]
    refine ⟨h1, List.nodup_singleton _, ?_⟩
    intro x hx hxb
    rw [List.map_singleton, List.mem_singleton] at hxb
    exact not_mem_projectId_of_findOne_none hn (hxb ▸ hx)

/-- Every sequence of requests without `approveProject` keeps one assignment
per project, in a store whose assignment identifiers are unique. -/
theorem run_onePerProject (cfg : AssignmentSchema) (ops : List Op) (s : Store)
    (hops : ∀ op ∈ ops, op.isApproval = false) (hu : UniqueIds s) (h1 : OnePerProject s) :
    OnePerProject (run cfg s ops) := by
  induction ops generalizing s with
  | nil => exact h1
  | cons op rest ih =>
    exact ih _ (fun o ho => hops o (List.mem_cons_of_mem _ ho))
      (step_uniqueIds cfg s op hu)
      (step_onePerProject cfg s op (hops op (List.mem_cons_self _ _)) hu h1)

theorem run_onePerProject_creators :
    (run strictSchema demoStore creatorOps).assignments.map (fun a => a.projectId) =
        [10, 11, 20, 21] ∧
      OnePerProject (run strictSchema demoStore creatorOps) :=
  ⟨by decide,
    run_onePerProject strictSchema creatorOps demoStore (by decide)
      (by unfold UniqueIds; decide) (by unfold OnePerProject; decide)⟩

/-- C19 (as stated, false for `approveProject`): the demo deployment has one
assignment per project and project 10 has its assignment; `approveProject` on
project 10 hands a second assignment for project 10 to `save` without looking
for the first. Without a unique index the second assignment is stored and the
call answers 200, and approving project 21 twice likewise stores two
assignments for it; with the unique index the save is rejected and the call
answers 500. Under every schema the call either answers 500 or leaves two
assignments for project 10. -/
theorem approveProject_persists_second_assignment :
    OnePerProject demoStore ∧
      (ProjectAssignment.findOne demoStore 10).isSome = true ∧
      (approveProject resolvingSchema demoStore hrAcme 10 7).res =
        { status := 200, success := some true } ∧
      (approveProject resolvingSchema demoStore hrAcme 10 7).store.assignments.map
          (fun a => a.projectId) = [10, 11, 20, 10] ∧
      (run resolvingSchema demoStore approveTwiceOps).assignments.map
          (fun a => a.projectId) = [10, 11, 20, 21, 21] ∧
      ¬ OnePerProject (run resolvingSchema demoStore approveTwiceOps) ∧
      (approveProject indexedSchema demoStore hrAcme 10 7).res =
        { status := 500, success := some false } ∧
      (∀ cfg : AssignmentSchema,
        (approveProject cfg demoStore hrAcme 10 7).res.status = 500 ∨
          ¬ OnePerProject (approveProject cfg demoStore hrAcme 10 7).store) := by
  refine ⟨by unfold OnePerProject; decide, by decide, by decide, by decide, by decide,
    by unfold OnePerProject; decide, by decide, ?_⟩
  intro cfg
  have hm : MayManage hrAcme
      { _id := 10, name := "Billing", company := "Acme", isApproved := true,
        suggested_by := some "hr@acme.com" } := ⟨rfl, Or.inr ⟨rfl, rfl, rfl⟩⟩
  rcases approveProject_outcome cfg demoStore hrAcme 10 7 _ hm rfl with h | ⟨u, _, _, h⟩
  · exact Or.inl (by rw [h.1])
  · refine Or.inr ?_
    unfold OnePerProject
    rw [h]
    change ¬ ([10, 11, 20, 10] : List ProjectId).Nodup
    decide

/-- C20 (as stated, false): project 21 of the demo deployment is unapproved and
was suggested by developer 1, whose e-mail address is what `suggested_by`
holds; HR user 9 of the same company approves it. The seeded entry takes its
`userId` from that e-mail address and its `assignedBy` from `req.user._id`,
which the token does not carry. With a schema that rejects the address the
call answers 500, no assignment is created and the project is approved all the
same; with a schema that resolves the address the seeded entry has no
`assignedBy`; under every schema a successful approval leaves an assignment
whose only entry has no `assignedBy`, never that of the approving actor. -/
theorem approveProject_seed_lacks_assigner :
    (Project.findById demoStore (some 21)).map (fun p => (p.isApproved, p.suggested_by)) =
        some (false, some "dev@acme.com") ∧
      (User.findById demoStore (some 1)).map (fun u => (u.email, u.type)) =
        some ("dev@acme.com", "developer") ∧
      hrAcme.userId = 9 ∧
      (approveProject strictSchema demoStore hrAcme 21 7).res =
        { status := 500, success := some false } ∧
      ProjectAssignment.findOne (approveProject strictSchema demoStore hrAcme 21 7).store 21 =
        none ∧
      (Project.findById (approveProject strictSchema demoStore hrAcme 21 7).store
          (some 21)).map (fun p => p.isApproved) = some true ∧
      (approveProject resolvingSchema demoStore hrAcme 21 7).res =
        { status := 200, success := some true } ∧
      (ProjectAssignment.findOne (approveProject resolvingSchema demoStore hrAcme 21 7).store
          21).map (fun a => a.assignedDevelopers) =
        some [{ userId := 1, assignedBy := none, assignedAt := 7 }] ∧
      (∀ cfg : AssignmentSchema,
        (approveProject cfg demoStore hrAcme 21 7).res.success = some true →
          ∃ u, (ProjectAssignment.findOne (approveProject cfg demoStore hrAcme 21 7).store
              21).map (fun a => a.assignedDevelopers) =
            some [{ userId := u, assignedBy := none, assignedAt := 7 }]) := by
  refine ⟨by decide, by decide, rfl, by decide, by decide, by decide, by decide, by decide, ?_⟩
  intro cfg hs
  have hm : MayManage hrAcme
      { _id := 21, name := "Draft", company := "Acme", isApproved := false,
        suggested_by := some "dev@acme.com" } := ⟨rfl, Or.inr ⟨rfl, rfl, rfl⟩⟩
  rcases approveProject_outcome cfg demoStore hrAcme 21 7 _ hm rfl with h | ⟨u, _, _, h⟩
  · rw [h.1] at hs
    cases hs
  · refine ⟨u, ?_⟩
    unfold ProjectAssignment.findOne
    rw [h]
    rfl

theorem approveProject_seed_lacks_assigner_witness :
    (approveProject resolvingSchema demoStore hrAcme 21 7).res.success = some true ∧
      ∃ u, (ProjectAssignment.findOne (approveProject resolvingSchema demoStore hrAcme 21 7).store
          21).map (fun a => a.assignedDevelopers) =
        some [{ userId := u, assignedBy := none, assignedAt := 7 }] :=
  ⟨by decide, approveProject_seed_lacks_assigner.2.2.2.2.2.2.2.2 resolvingSchema (by decide)⟩


/-! ## Assigned rosters can hold a user twice -/

/-- C29 (as stated, false): in the demo deployment every assigned roster holds
each user once. The intern volunteers for project 11 (201), HR assigns the
intern directly (201), HR approves the pending request (200): `assignedInterns`
of assignment 101 then holds the intern twice, under every schema. The same
happens to `panelists` when a developer volunteers as panelist, is named
panelist directly and the request is then approved. -/
theorem approved_volunteer_duplicates_assigned_user :
    AllDocs AssignedUnique demoStore ∧
      (∀ cfg : AssignmentSchema,
        (ProjectAssignment.findById (run cfg demoStore doubleInternOps) 101).map
            (fun a => a.assignedInterns.map (fun e => e.userId)) = some [2, 2]) ∧
      (reviewVolunteerRequest (run strictSchema demoStore doubleInternOps.dropLast) hrAcme
          { assignmentId := some 101, userId := some 2, userType := some "intern",
            status := some "approved" } 5).res = { status := 200, success := some true } ∧
      ¬ AllDocs AssignedUnique (run strictSchema demoStore doubleInternOps) ∧
      (∀ cfg : AssignmentSchema,
        (ProjectAssignment.findById (run cfg demoStore doublePanelistOps) 101).map
            (fun a => a.panelists.map (fun e => e.userId)) = some [1, 1]) ∧
      ¬ AllDocs AssignedUnique (run strictSchema demoStore doublePanelistOps) := by
  refine ⟨?_, fun cfg => rfl, by decide, ?_, fun cfg => rfl, ?_⟩
  · unfold AllDocs AssignedUnique AssignedOnce
    decide
  · unfold AllDocs AssignedUnique AssignedOnce
    decide
  · unfold AllDocs AssignedUnique AssignedOnce
    decide

/-! ## The postcondition of a successful volunteer request -/

theorem volunteerForProject_cases (cfg : AssignmentSchema) (s : Store) (actor : Actor)
    (body : VolunteerBody) (now : Timestamp) :
    ((volunteerForProject cfg s actor body now).res.success = some false ∧
        (volunteerForProject cfg s actor body now).store = s) ∨
      ∃ projectId project,
        body.projectId = some projectId ∧
        Project.findById s (some projectId) = some project ∧
        actor.verified = true ∧ actor.isApproved = true ∧
        (actor.type = "developer" ∨ actor.type = "intern") ∧
        project.isApproved = true ∧ actor.company = some project.company ∧
        volunteerForProject cfg s actor body now =
          saveAndReply cfg s
            (((ProjectAssignment.findOne s projectId).getD
                (ProjectAssignment.new s projectId actor.company [])).setVolunteers
              (volunteerFieldOf actor.type)
              (((ProjectAssignment.findOne s projectId).getD
                  (ProjectAssignment.new s projectId actor.company [])).getVolunteers
                (volunteerFieldOf actor.type) ++ [pendingEntry actor.userId now]))
            201 := by
  unfold volunteerForProject
  repeat' first
    | exact Or.inl ⟨rfl, rfl⟩
    | split
    | dsimp only
  rename_i hv ht ha _ projectId hb _ project hp hpa hc _ _
  refine Or.inr ⟨projectId, project, hb, hp, by simpa using hv, by simpa using ha, ?_,
    by simpa using hpa, ?_, rfl⟩
  · have h : ¬ actor.type = "developer" → actor.type = "intern" := by simpa using ht
    by_cases hd : actor.type = "developer"
    · exact Or.inl hd
    · exact Or.inr (h hd)
  · exact (not_not.mp hc).symm

theorem volunteerOutcome_eq (a : ProjectAssignment) (actor : Actor) (now : Timestamp) :
    a.setVolunteers (volunteerFieldOf actor.type)
        (a.getVolunteers (volunteerFieldOf actor.type) ++ [pendingEntry actor.userId now]) =
      volunteerOutcome a actor now := by
  unfold volunteerOutcome volunteerFieldOf
  by_cases h : actor.type = "developer"
  · rw [if_pos h, if_pos h]
    rfl
  · rw [if_neg h, if_neg h]
    rfl

/-- C27: a call of `volunteerForProject` that answers 201 comes from a
verified, approved actor of type developer or intern and an existing, approved
project of the actor's company; the response is a success, and the assignment
collection after the call is the one before with the project's assignment
replaced by that assignment extended by one pending entry of the actor in the
volunteer roster of the actor's role, or, when the project had no assignment,
with a fresh empty assignment of the project carrying that one entry
appended. -/
theorem volunteer_success_postcondition (cfg : AssignmentSchema) (s : Store) (actor : Actor)
    (body : VolunteerBody) (now : Timestamp)
    (hok : (volunteerForProject cfg s actor body now).res.status = 201) :
    actor.verified = true ∧ actor.isApproved = true ∧
      (actor.type = "developer" ∨ actor.type = "intern") ∧
      ∃ projectId project,
        body.projectId = some projectId ∧
        Project.findById s (some projectId) = some project ∧
        project._id = projectId ∧
        project.isApproved = true ∧ actor.company = some project.company ∧
        (volunteerForProject cfg s actor body now).res = { status := 201, success := some true } ∧
        (volunteerForProject cfg s actor body now).store.users = s.users ∧
        (volunteerForProject cfg s actor body now).store.projects = s.projects ∧
        (volunteerForProject cfg s actor body now).store.assignments =
          match ProjectAssignment.findOne s projectId with
          | some a => replaceDoc (volunteerOutcome a actor now) s.assignments
          | none => s.assignments ++ [volunteerOutcome (freshAssignment s project) actor now] := by
  rcases volunteerForProject_cases cfg s actor body now with
    ⟨hf, hs⟩ | ⟨projectId, project, hb, hp, hv, ha, ht, hpa, hc, heq⟩
  · exfalso
    revert hok hf
    unfold volunteerForProject
    repeat' first
      | (intro h1 h2; cases h1)
      | split
      | dsimp only
    unfold saveAndReply
    split
    · intro _ h2
      cases h2
    · intro h1 _
      cases h1
  · have hid : project._id = projectId := by
      have := List.find?_some hp
      simpa using this
    refine ⟨hv, ha, ht, projectId, project, hb, hp, hid, hpa, hc, ?_⟩
    rw [heq, volunteerOutcome_eq] at hok ⊢
    rw [hc] at hok ⊢
    unfold saveAndReply at hok ⊢
    cases hsave : ProjectAssignment.save cfg s
        (volunteerOutcome ((ProjectAssignment.findOne s projectId).getD
          (ProjectAssignment.new s projectId (some project.company) [])) actor now) with
    | none =>
      rw [hsave] at hok
      cases hok
    | some s1 =>
      have hoid : ∀ a : ProjectAssignment, (volunteerOutcome a actor now)._id = a._id := by
        intro a
        rw [← volunteerOutcome_eq]
        exact setVolunteers_id _ _ _
      unfold ProjectAssignment.save at hsave
      cases hf : ProjectAssignment.findOne s projectId with
      | some a =>
        rw [hf] at hsave
        simp only [Option.getD_some] at hsave
        rw [if_pos (any_id_of_mem (List.mem_of_find?_eq_some hf) (hoid a))] at hsave
        cases hsave
        exact ⟨rfl, rfl, rfl, rfl⟩
      | none =>
        rw [hf] at hsave
        simp only [Option.getD_none] at hsave
        have hfresh : s.assignments.any (fun x => x._id ==
            (volunteerOutcome (ProjectAssignment.new s projectId (some project.company) [])
              actor now)._id) = false := by
          rw [hoid]
          exact any_freshId s
        rw [hfresh] at hsave
        simp only [Bool.false_eq_true, if_false] at hsave
        split at hsave
        · cases hsave
          refine ⟨rfl, rfl, rfl, ?_⟩
          simp only [freshAssignment, hid]
          rfl
        · cases hsave

theorem volunteer_success_postcondition_witness :
    (volunteerForProject strictSchema demoStore internAcme { projectId := some 11 } 3).res.status
        = 201 ∧
      internAcme.verified = true ∧ internAcme.isApproved = true ∧
      (internAcme.type = "developer" ∨ internAcme.type = "intern") ∧
      ∃ projectId project,
        (⟨some 11⟩ : VolunteerBody).projectId = some projectId ∧
        Project.findById demoStore (some projectId) = some project ∧
        project._id = projectId ∧
        project.isApproved = true ∧ internAcme.company = some project.company ∧
        (volunteerForProject strictSchema demoStore internAcme { projectId := some 11 } 3).res =
          { status := 201, success := some true } ∧
        (volunteerForProject strictSchema demoStore internAcme
          { projectId := some 11 } 3).store.users = demoStore.users ∧
        (volunteerForProject strictSchema demoStore internAcme
          { projectId := some 11 } 3).store.projects = demoStore.projects ∧
        (volunteerForProject strictSchema demoStore internAcme
          { projectId := some 11 } 3).store.assignments =
          match ProjectAssignment.findOne demoStore projectId with
          | some a => replaceDoc (volunteerOutcome a internAcme 3) demoStore.assignments
          | none =>
            demoStore.assignments ++ [volunteerOutcome (freshAssignment demoStore project)
              internAcme 3] :=
  ⟨by decide,
    volunteer_success_postcondition strictSchema demoStore internAcme { projectId := some 11 } 3
      (by decide)⟩

/-! ## The company of a created assignment -/

theorem copies_same {s t : Store} (h : t.assignments.length = s.assignments.length) :
    AppendCopies s t := by
  intro b hb
  rw [hb] at h
  simp at h

theorem copies_reply (s : Store) (status : Nat) (success : Option Bool) :
    AppendCopies s (reply s status success).store :=
  copies_same rfl

theorem copies_updateAndReply (s : Store) (b : ProjectAssignment) (status : Nat) :
    AppendCopies s (updateAndReply s b status).store :=
  copies_same (length_replaceDoc _ _)

theorem copies_save {cfg : AssignmentSchema} {s s1 : Store} {a b : ProjectAssignment}
    (ha : a ∈ s.assignments ∨
      ∃ p, Project.findById s (some a.projectId) = some p ∧ a.company = some p.company)
    (hid : b._id = a._id) (hp : b.projectId = a.projectId) (hc : b.company = a.company)
    (hs : ProjectAssignment.save cfg s b = some s1) : AppendCopies s s1 := by
  unfold ProjectAssignment.save at hs
  split at hs
  · cases hs
    exact copies_same (length_replaceDoc _ _)
  · next hany =>
    split at hs
    · cases hs
      rcases ha with ha | ha
      · exact absurd (any_id_of_mem ha hid) hany
      · intro b1 hb1
        have hb : b = b1 := by
          have h := List.append_cancel_left hb1
          simpa using h
        rw [← hb, hp, hc]
        exact ha
    · cases hs

theorem copies_saveAndReply {cfg : AssignmentSchema} {s : Store} {a b : ProjectAssignment}
    (ha : a ∈ s.assignments ∨
      ∃ p, Project.findById s (some a.projectId) = some p ∧ a.company = some p.company)
    (hid : b._id = a._id) (hp : b.projectId = a.projectId) (hc : b.company = a.company)
    (status : Nat) : AppendCopies s (saveAndReply cfg s b status).store := by
  unfold saveAndReply
  split
  · next s1 hs => exact copies_save ha hid hp hc hs
  · exact copies_same rfl

theorem findOne_getD_copies (s : Store) (projectId : ProjectId) (project : Project)
    (company : Option Company) (devs : List AssignedEntry)
    (hf : Project.findById s (some projectId) = some project)
    (hc : company = some project.company) :
    (ProjectAssignment.findOne s projectId).getD (ProjectAssignment.new s projectId company devs)
        ∈ s.assignments ∨
      ∃ p, Project.findById s
          (some ((ProjectAssignment.findOne s projectId).getD
            (ProjectAssignment.new s projectId company devs)).projectId) = some p ∧
        ((ProjectAssignment.findOne s projectId).getD
          (ProjectAssignment.new s projectId company devs)).company = some p.company := by
  cases hfo : ProjectAssignment.findOne s projectId with
  | none => exact Or.inr ⟨project, hf, hc⟩
  | some a => exact Or.inl (List.mem_of_find?_eq_some hfo)

theorem setVolunteers_company (a : ProjectAssignment) (f : VolunteerField)
    (l : List VolunteerEntry) : (a.setVolunteers f l).company = a.company := by
  cases f <;> rfl

theorem setAssigned_company (a : ProjectAssignment) (f : AssignedField)
    (l : List AssignedEntry) : (a.setAssigned f l).company = a.company := by
  cases f <;> rfl

theorem volunteerForProject_copies (cfg : AssignmentSchema) (s : Store) (actor : Actor)
    (body : VolunteerBody) (now : Timestamp) :
    AppendCopies s (volunteerForProject cfg s actor body now).store := by
  unfold volunteerForProject
  repeat' first
    | exact copies_reply _ _ _
    | split
    | dsimp only
  rename_i _ _ _ _ projectId _ _ project hp _ hc _ _
  apply copies_saveAndReply
    (findOne_getD_copies s projectId project actor.company [] hp (not_not.mp hc).symm)
  · exact setVolunteers_id _ _ _
  · exact setVolunteers_projectId _ _ _
  · exact setVolunteers_company _ _ _

theorem volunteerForPanelist_copies (cfg : AssignmentSchema) (s : Store) (actor : Actor)
    (body : VolunteerBody) (now : Timestamp) :
    AppendCopies s (volunteerForPanelist cfg s actor body now).store := by
  unfold volunteerForPanelist
  repeat' first
    | exact copies_reply _ _ _
    | split
    | dsimp only
  rename_i _ _ _ _ projectId _ _ project hp _ hc _ _
  apply copies_saveAndReply
    (findOne_getD_copies s projectId project actor.company [] hp (not_not.mp hc).symm)
  · rfl
  · rfl
  · rfl

theorem assignUserToProject_copies (cfg : AssignmentSchema) (s : Store) (actor : Actor)
    (body : AssignBody) (now : Timestamp) :
    AppendCopies s (assignUserToProject cfg s actor body now).store := by
  unfold assignUserToProject
  repeat' first
    | exact copies_reply _ _ _
    | split
    | dsimp only
  rename_i value _ _ project hp _ _ _ _ _ _ _ _ _ _ _ _ _
  apply copies_saveAndReply
    (findOne_getD_copies s value.projectId project (some project.company) [] hp rfl)
  · exact setAssigned_id _ _ _
  · exact setAssigned_projectId _ _ _
  · exact setAssigned_company _ _ _

theorem assignPanelist_copies (cfg : AssignmentSchema) (s : Store) (actor : Actor)
    (body : AssignBody) (now : Timestamp) :
    AppendCopies s (assignPanelist cfg s actor body now).store := by
  unfold assignPanelist
  repeat' first
    | exact copies_reply _ _ _
    | split
    | dsimp only
  rename_i value _ _ project hp _ _ _ _ _ _ _ _ _ _ _
  apply copies_saveAndReply
    (findOne_getD_copies s value.projectId project (some project.company) [] hp rfl)
  · rfl
  · rfl
  · rfl

theorem reviewVolunteerRequest_copies (s : Store) (actor : Actor) (body : ReviewBody)
    (now : Timestamp) : AppendCopies s (reviewVolunteerRequest s actor body now).store := by
  unfold reviewVolunteerRequest
  repeat' first
    | exact copies_reply _ _ _
    | exact copies_updateAndReply _ _ _
    | split
    | dsimp only

theorem removePanelistFromProject_copies (s : Store) (actor : Actor)
    (body : RemovePanelistBody) :
    AppendCopies s (removePanelistFromProject s actor body).store := by
  unfold removePanelistFromProject
  repeat' first
    | exact copies_reply _ _ _
    | exact copies_updateAndReply _ _ _
    | split
    | dsimp only

theorem removeUserFromProject_copies (s : Store) (actor : Actor) (body : RemoveBody) :
    AppendCopies s (removeUserFromProject s actor body).store := by
  unfold removeUserFromProject
  repeat' first
    | exact copies_reply _ _ _
    | exact copies_updateAndReply _ _ _
    | split
    | dsimp only

theorem reviewPanelistVolunteerRequest_copies (s : Store) (actor : Actor) (body : ReviewBody)
    (now : Timestamp) :
    AppendCopies s (reviewPanelistVolunteerRequest s actor body now).store := by
  unfold reviewPanelistVolunteerRequest
  repeat' first
    | exact copies_reply _ _ _
    | exact copies_updateAndReply _ _ _
    | split

theorem assignRandomPanelist_copies (s : Store) (actor : Actor) (body : ProjectIdBody)
    (draw : Draw) (now : Timestamp) :
    AppendCopies s (assignRandomPanelist s actor body draw now).store := by
  unfold assignRandomPanelist
  repeat' first
    | exact copies_reply _ _ _
    | exact copies_updateAndReply _ _ _
    | split
    | dsimp only

theorem removeInternAssignment_copies (s : Store) (actor : Actor) (projectId : ProjectId)
    (internId : UserId) :
    AppendCopies s (removeInternAssignment s actor projectId internId).store := by
  unfold removeInternAssignment
  repeat' first
    | exact copies_reply _ _ _
    | exact copies_updateAndReply _ _ _
    | split

theorem initializeProjectAssignment_copies (cfg : AssignmentSchema) (s : Store) (actor : Actor)
    (body : ProjectIdBody) : AppendCopies s (initializeProjectAssignment cfg s actor body).store := by
  unfold initializeProjectAssignment
  repeat' first
    | exact copies_reply _ _ _
    | split
    | dsimp only
  rename_i projectId _ _ project hp _ _ _ _
  exact copies_saveAndReply (a := ProjectAssignment.new s projectId (some project.company) [])
    (Or.inr ⟨project, hp, rfl⟩) rfl rfl rfl _

theorem findById_projectId {s : Store} {id : ProjectId} {project : Project}
    (h : Project.findById s (some id) = some project) : project._id = id := by
  have := List.find?_some h
  simpa using this

theorem approveProject_copies (cfg : AssignmentSchema) (s : Store) (actor : Actor)
    (id : ProjectId) (now : Timestamp) :
    AppendCopies s (approveProject cfg s actor id now).store := by
  unfold approveProject
  repeat' first
    | exact copies_reply _ _ _
    | exact copies_same rfl
    | split
    | dsimp only
  rename_i project hp _ _ userId _ _ s2 hs
  intro b hb
  unfold ProjectAssignment.save at hs
  have hfresh := any_freshId s
  simp only [ProjectAssignment.new, freshId] at hs hfresh
  rw [hfresh] at hs
  simp only [Bool.false_eq_true, if_false] at hs
  split at hs
  · cases hs
    have h1 := List.append_cancel_left hb
    simp only [List.cons.injEq, and_true] at h1
    rw [← h1]
    refine ⟨project, ?_, rfl⟩
    show Project.findById s (some project._id) = some project
    rw [findById_projectId hp]
    exact hp
  · cases hs

/-- Every request other than `assignInternToDeveloper` that appends an
assignment gives it the company of the project it is for. -/
theorem step_copies (cfg : AssignmentSchema) (s : Store) (op : Op)
    (hop : op.isInternAssignment = false) : AppendCopies s (step cfg s op).store := by
  cases op with
  | volunteerForProject actor body now => exact volunteerForProject_copies cfg s actor body now
  | reviewVolunteerRequest actor body now => exact reviewVolunteerRequest_copies s actor body now
  | assignUserToProject actor body now => exact assignUserToProject_copies cfg s actor body now
  | removePanelistFromProject actor body => exact removePanelistFromProject_copies s actor body
  | removeUserFromProject actor body => exact removeUserFromProject_copies s actor body
  | volunteerForPanelist actor body now => exact volunteerForPanelist_copies cfg s actor body now
  | reviewPanelistVolunteerRequest actor body now =>
    exact reviewPanelistVolunteerRequest_copies s actor body now
  | assignPanelist actor body now => exact assignPanelist_copies cfg s actor body now
  | assignRandomPanelist actor body draw now =>
    exact assignRandomPanelist_copies s actor body draw now
  | initializeProjectAssignment actor body =>
    exact initializeProjectAssignment_copies cfg s actor body
  | approveProject actor id now => exact approveProject_copies cfg s actor id now
  | assignInternToDeveloper actor body now => cases hop
  | removeInternAssignment actor projectId internId =>
    exact removeInternAssignment_copies s actor projectId internId

theorem step_copies_creation :
    ∃ p, Project.findById demoStore (some 21) = some p ∧
      ((ProjectAssignment.new demoStore 21 (some "Acme") []).setAssigned .assignedInterns
        [assignedEntry 2 (some 9) 3]).company = some p.company :=
  step_copies strictSchema demoStore
    (.assignUserToProject hrAcme
      { projectId := some 21, userId := some (.canonical 2), userType := some "intern" } 3)
    rfl
    ((ProjectAssignment.new demoStore 21 (some "Acme") []).setAssigned .assignedInterns
      [assignedEntry 2 (some 9) 3])
    (by decide)

/-! ## The company of an assignment -/

/-- C26 (as stated, false for `assignInternToDeveloper`): in the demo
deployment every assignment carries the company of its project, and project
21 of Acme has no assignment. An HR user of Globex assigns intern 2 to
developer 1 on project 21: under every schema the call answers 200 and creates
the assignment of project 21 with company Globex, the company of the actor.
An administrator, whose token has no company, creates it without a company
when the schema does not require one. -/
theorem assignInternToDeveloper_copies_actor_company :
    CompanyCopied demoStore ∧
      ProjectAssignment.findOne demoStore 21 = none ∧
      (Project.findById demoStore (some 21)).map (fun p => p.company) = some "Acme" ∧
      (∀ cfg : AssignmentSchema,
        (assignInternToDeveloper cfg demoStore hrGlobex internToDevBody 7).res =
            { status := 200, success := some true } ∧
          (ProjectAssignment.findOne
              (assignInternToDeveloper cfg demoStore hrGlobex internToDevBody 7).store 21).map
            (fun a => a.company) = some (some "Globex")) ∧
      ¬ CompanyCopied (assignInternToDeveloper strictSchema demoStore hrGlobex
          internToDevBody 7).store ∧
      (assignInternToDeveloper resolvingSchema demoStore adminRoot internToDevBody 7).res =
        { status := 200, success := some true } ∧
      (ProjectAssignment.findOne
          (assignInternToDeveloper resolvingSchema demoStore adminRoot internToDevBody 7).store
          21).map (fun a => a.company) = some none := by
  refine ⟨?_, by decide, by decide, fun cfg => ?_, ?_, by decide, by decide⟩
  · unfold CompanyCopied
    decide
  · have h : assignInternToDeveloper cfg demoStore hrGlobex internToDevBody 7 =
        assignInternToDeveloper strictSchema demoStore hrGlobex internToDevBody 7 := by
      unfold assignInternToDeveloper ProjectAssignment.save insertAccepted
      cases cfg.uniqueProjectId <;> cases cfg.companyRequired <;> rfl
    rw [h]
    decide
  · unfold CompanyCopied
    decide


/-! ## Who can approve a project -/

theorem mem_of_mem_replaceProject {p : Project} {l : List Project} {q : Project}
    (hq : q ∈ replaceProject p l) : q ∈ l ∨ q = p := by
  induction l with
  | nil => cases hq
  | cons x xs ih =>
    unfold replaceProject at hq
    split at hq
    · rcases List.mem_cons.mp hq with h | h
      · exact Or.inr h
      · exact Or.inl (List.mem_cons_of_mem _ h)
    · rcases List.mem_cons.mp hq with h | h
      · exact Or.inl (h ▸ List.mem_cons_self _ _)
      · rcases ih h with h1 | h1
        · exact Or.inl (List.mem_cons_of_mem _ h1)
        · exact Or.inr h1

theorem mem_of_mem_removeProject {id : ProjectId} {l : List Project} {q : Project}
    (hq : q ∈ removeProject id l) : q ∈ l := by
  induction l with
  | nil => cases hq
  | cons x xs ih =>
    unfold removeProject at hq
    split at hq
    · exact List.mem_cons_of_mem _ hq
    · rcases List.mem_cons.mp hq with h | h
      · exact h ▸ List.mem_cons_self _ _
      · exact List.mem_cons_of_mem _ (ih h)

/-- What the three project controllers can do to approval when the actor is
not HR or admin: `addProject` keeps the stored projects and adds at most one
project, which is not approved; `deleteProject` only removes; `updateProject`
leaves every project it does not approve explicitly through the body: a
project of the store after the call is a project of the store before, or the
updated project, whose `isApproved` is the one of the body when the body has
it and the stored one otherwise. -/
theorem project_ops_of_other_actors (s : Store) (actor : Actor) (id : ProjectId)
    (body : ProjectBody) (ht : actor.type ≠ "hr" ∧ actor.type ≠ "admin") :
    (∀ q ∈ (addProject s actor body).store.projects, q ∈ s.projects ∨ q.isApproved = false) ∧
      (∀ q ∈ (deleteProject s actor id).store.projects, q ∈ s.projects) ∧
      (∀ q ∈ (updateProject s actor id body).store.projects,
        q ∈ s.projects ∨
          ∃ existing, Project.findById s (some id) = some existing ∧
            q.isApproved = body.isApproved.getD existing.isApproved) := by
  refine ⟨?_, ?_, ?_⟩
  · unfold addProject
    repeat' first
      | exact fun q hq => Or.inl hq
      | split
      | dsimp only
    · intro q hq
      rcases List.mem_append.mp hq with h | h
      · exact Or.inl h
      · rw [List.mem_singleton] at h
        exact Or.inr (by rw [h]; rfl)
    · rename_i hha _
      rcases hha with h | h
      · exact absurd h ht.1
      · exact absurd h ht.2
    · rename_i _ h2 _ _ _ _ hd _ _
      have h : ¬ actor.type = "admin" → ¬ actor.type = "developer" → actor.type = "hr" := by
        simpa using h2
      exact absurd (h ht.2 hd) ht.1
  · unfold deleteProject
    repeat' first
      | exact fun q hq => hq
      | split
      | dsimp only
    intro q hq
    exact mem_of_mem_removeProject hq
  · unfold updateProject
    repeat' first
      | exact fun q hq => Or.inl hq
      | split
      | dsimp only
    intro q hq
    rename_i existing hf _ _ _ _ value hv
    rcases mem_of_mem_replaceProject hq with h | h
    · exact Or.inl h
    · refine Or.inr ⟨existing, hf, ?_⟩
      rw [h]
      unfold projectSchema at hv
      split at hv
      · split at hv
        · cases hv
          rfl
        · cases hv
      · cases hv

/-- C30 (as stated, false for `updateProject`): project 21 of Acme is not
approved. The developer of Acme, verified and approved, sends `updateProject`
for project 21 with a body that `projectSchema` accepts and that carries
`isApproved: true`: the call answers 200 and the stored project is approved.
The same body sent to `addProject` by the developer creates an unapproved
project, and an intern is refused by `updateProject`. -/
theorem developer_approves_by_update :
    (Project.findById demoStore (some 21)).map (fun p => p.isApproved) = some false ∧
      devAcme.type = "developer" ∧
      (projectSchema approvingBody).isSome = true ∧
      (updateProject demoStore devAcme 21 approvingBody).res =
        { status := 200, success := some true } ∧
      (Project.findById (updateProject demoStore devAcme 21 approvingBody).store
          (some 21)).map (fun p => p.isApproved) = some true ∧
      (addProject demoStore devAcme approvingBody).res =
        { status := 201, success := some true } ∧
      (addProject demoStore devAcme approvingBody).store.projects.map
          (fun p => (p._id, p.isApproved)) =
        [(10, true), (11, true), (21, false), (20, true), (22, false)] ∧
      Refused demoStore (updateProject demoStore internAcme 21 approvingBody) := by
  refine ⟨by decide, rfl, by decide, by decide, by decide, by decide, by decide, ?_⟩
  unfold Refused
  decide


/-! ## Mail failures and the outcome of a request -/

theorem sendProjectAssignmentEmail_returned (env : MailEnv) (sent : List MailOptions)
    (userEmail userName projectName assignedUserName assignedUserRole : String)
    (teamMembers : List User) :
    (sendProjectAssignmentEmail env sent userEmail userName projectName assignedUserName
      assignedUserRole teamMembers).1 = .returned := by
  unfold sendProjectAssignmentEmail
  dsimp only
  repeat' first
    | rfl
    | split

theorem sendToMembers_returned (env : MailEnv)
    (projectName assignedUserName newlyAssignedUserRole : String) (allMembers : List User)
    (members : List User) (sent : List MailOptions) :
    (sendToMembers env projectName assignedUserName newlyAssignedUserRole allMembers members
      sent).1 = .returned := by
  induction members generalizing sent with
  | nil => rfl
  | cons member rest ih =>
    unfold sendToMembers
    have h := sendProjectAssignmentEmail_returned env sent member.email member.name projectName
      assignedUserName (assignedRoleString newlyAssignedUserRole) allMembers
    split
    · exact ih _
    · next heq =>
      rw [heq] at h
      cases h

theorem notifyAllProjectMembers_returned (env : MailEnv) (s : Store) (projectId : ProjectId)
    (newlyAssignedUser : User) (newlyAssignedUserRole : String) (triggeredByUserId : UserId) :
    (notifyAllProjectMembers env s projectId newlyAssignedUser newlyAssignedUserRole
      triggeredByUserId).1 = .returned := by
  unfold notifyAllProjectMembers
  split <;> rfl

theorem afterNotify_result (saved : Result) (call : NotifyCall)
    (n : Completion × List MailOptions) (h : n.1 = .returned) :
    (afterNotify saved call n).result = saved := by
  unfold afterNotify
  rw [h]

theorem reviewVolunteerRequestTraced_result (env : MailEnv) (s : Store) (actor : Actor)
    (body : ReviewBody) (now : Timestamp) :
    (reviewVolunteerRequestTraced env s actor body now).result =
      reviewVolunteerRequest s actor body now := by
  unfold reviewVolunteerRequestTraced reviewVolunteerRequest
  repeat' first
    | rfl
    | exact afterNotify_result _ _ _ (notifyAllProjectMembers_returned _ _ _ _ _ _)
    | split
    | dsimp only

set_option maxHeartbeats 4000000 in
theorem assignUserToProjectTraced_result (env : MailEnv) (cfg : AssignmentSchema) (s : Store)
    (actor : Actor) (body : AssignBody) (now : Timestamp) :
    (assignUserToProjectTraced env cfg s actor body now).result =
      assignUserToProject cfg s actor body now := by
  unfold assignUserToProjectTraced assignUserToProject saveAndReply
  by_cases h : (!actor.verified) = true
  · rw [if_pos h, if_pos h]
    rfl
  · rw [if_neg h, if_neg h]
    repeat' first
      | split
      | dsimp only
      | rfl
      | exact afterNotify_result _ _ _ (notifyAllProjectMembers_returned _ _ _ _ _ _)
    all_goals simp_all [afterNotify, notifyAllProjectMembers_returned, Traced.quiet, reply]

theorem reviewPanelistVolunteerRequestTraced_result (env : MailEnv) (s : Store) (actor : Actor)
    (body : ReviewBody) (now : Timestamp) :
    (reviewPanelistVolunteerRequestTraced env s actor body now).result =
      reviewPanelistVolunteerRequest s actor body now := by
  unfold reviewPanelistVolunteerRequestTraced reviewPanelistVolunteerRequest
  repeat' first
    | rfl
    | exact afterNotify_result _ _ _ (notifyAllProjectMembers_returned _ _ _ _ _ _)
    | split
    | dsimp only

/-- C21: the response and the store of every request are those of the
controller without its mails, whatever the transport does with each mail and
whether or not the lookups of `notifyAllProjectMembers` throw; and neither
`sendProjectAssignmentEmail` nor `notifyAllProjectMembers` ever throws to its
caller. -/
theorem mail_failure_never_changes_outcome (env : MailEnv) (cfg : AssignmentSchema) (s : Store)
    (op : Op) :
    (stepTraced env cfg s op).result = step cfg s op ∧
      (stepTraced env cfg s op).result = (stepTraced workingEnv cfg s op).result ∧
      (∀ sent userEmail userName projectName assignedUserName assignedUserRole teamMembers,
        (sendProjectAssignmentEmail env sent userEmail userName projectName assignedUserName
          assignedUserRole teamMembers).1 = .returned) ∧
      (∀ store projectId newlyAssignedUser newlyAssignedUserRole triggeredByUserId,
        (notifyAllProjectMembers env store projectId newlyAssignedUser newlyAssignedUserRole
          triggeredByUserId).1 = .returned) := by
  have key : ∀ e : MailEnv, (stepTraced e cfg s op).result = step cfg s op := by
    intro e
    cases op with
    | reviewVolunteerRequest actor body now =>
      exact reviewVolunteerRequestTraced_result e s actor body now
    | assignUserToProject actor body now =>
      exact assignUserToProjectTraced_result e cfg s actor body now
    | reviewPanelistVolunteerRequest actor body now =>
      exact reviewPanelistVolunteerRequestTraced_result e s actor body now
    | _ => rfl
  exact ⟨key env, (key env).trans (key workingEnv).symm,
    sendProjectAssignmentEmail_returned env, notifyAllProjectMembers_returned env⟩


/-! ## The authorization check of the fan-out -/

theorem sendProjectAssignmentEmail_recipients (env : MailEnv) (sent : List MailOptions)
    (userEmail userName projectName assignedUserName assignedUserRole : String)
    (teamMembers : List User) :
    (sendProjectAssignmentEmail env sent userEmail userName projectName assignedUserName
      assignedUserRole teamMembers).2.map (fun m => m.to_) =
      sent.map (fun m => m.to_) ++ [userEmail] := by
  unfold sendProjectAssignmentEmail
  dsimp only
  repeat' first
    | simp only [List.map_append, List.map_cons, List.map_nil]
    | split

theorem sendToMembers_recipients (env : MailEnv)
    (projectName assignedUserName newlyAssignedUserRole : String) (allMembers : List User)
    (members : List User) (sent : List MailOptions) :
    (sendToMembers env projectName assignedUserName newlyAssignedUserRole allMembers members
      sent).2.map (fun m => m.to_) =
      sent.map (fun m => m.to_) ++ members.map (fun u => u.email) := by
  induction members generalizing sent with
  | nil => simp [sendToMembers]
  | cons member rest ih =>
    unfold sendToMembers
    have h1 := sendProjectAssignmentEmail_returned env sent member.email member.name projectName
      assignedUserName (assignedRoleString newlyAssignedUserRole) allMembers
    have h2 := sendProjectAssignmentEmail_recipients env sent member.email member.name
      projectName assignedUserName (assignedRoleString newlyAssignedUserRole) allMembers
    split
    · next sent1 heq =>
      rw [heq] at h2
      rw [ih sent1, h2]
      simp
    · next heq =>
      rw [heq] at h1
      cases h1

theorem notifyAllProjectMembers_eq_body (env : MailEnv) (s : Store) (projectId : ProjectId)
    (newlyAssignedUser : User) (newlyAssignedUserRole : String) (triggeredByUserId : UserId) :
    notifyAllProjectMembers env s projectId newlyAssignedUser newlyAssignedUserRole
        triggeredByUserId =
      (.returned,
        (notifyBody env s projectId newlyAssignedUser newlyAssignedUserRole
          triggeredByUserId).2) := by
  unfold notifyAllProjectMembers
  split
  · next heq => rw [heq]
  · next heq => rw [heq]

/-- C22 (as stated, false): an administrator triggers the fan-out for project
10, whose assignment lists developer 1, a user with an e-mail address and a
name. In the store where project 10 has been deleted the populated project is
missing and the function returns before any mail; in the store where the
roster also refers to a user that is not stored, the spread of the roster
throws and is caught. In both cases no mail is handed to the transport. -/
theorem authorized_trigger_can_send_nothing :
    (User.findById orphanStore (some 99)).map (fun u => u.type) = some "admin" ∧
      (ProjectAssignment.findOne orphanStore 10).map
          (fun a => a.assignedDevelopers.map (fun e => e.userId)) = some [1] ∧
      (User.findById orphanStore (some 1)).map (fun u => (u.email, u.name)) =
        some ("dev@acme.com", "Dev") ∧
      Project.findById orphanStore (some 10) = none ∧
      notifyAllProjectMembers workingEnv orphanStore 10 userIna "Intern" 99 = (.returned, []) ∧
      (Project.findById danglingStore (some 10)).isSome = true ∧
      (User.findById danglingStore (some 99)).map (fun u => u.type) = some "admin" ∧
      (ProjectAssignment.findOne danglingStore 10).map
          (fun a => (a.assignedDevelopers.map (fun e => e.userId),
            a.panelists.map (fun e => e.userId))) = some ([1], [77]) ∧
      User.findById danglingStore (some 77) = none ∧
      notifyAllProjectMembers workingEnv danglingStore 10 userIna "Intern" 99 =
        (.returned, []) := by
  decide

/-- C22 (amended): `notifyAllProjectMembers` hands no mail to the transport and
returns normally when the triggering user is not stored, or is neither an
administrator nor an HR user of the company of the project. When both lookups
succeed, the assignment and its project exist, every roster entry refers to a
stored user (the three rosters populate to `developers`, `interns`,
`panelists`) and the triggering user is an administrator or an HR user of the
project's company, exactly one mail is handed to the transport for every
member with an e-mail address and a name, in roster order, the newly assigned
user counting as a member. -/
theorem notify_rechecks_authorization (env1 env2 : MailEnv) (s1 s2 : Store)
    (projectId1 projectId2 : ProjectId) (newUser1 newUser2 : User) (role1 role2 : String)
    (trigger1 trigger2 : UserId) (a : ProjectAssignment) (project : Project) (u : User)
    (developers interns panelists : List User)
    (hun : User.findById s1 (some trigger1) = none ∨
      ∃ t, User.findById s1 (some trigger1) = some t ∧ t.type ≠ "admin" ∧
        ∀ a1 p1, ProjectAssignment.findOne s1 projectId1 = some a1 →
          Project.findById s1 (some a1.projectId) = some p1 →
          t.type ≠ "hr" ∨ t.company ≠ some p1.company)
    (he1 : env2.findAssignmentThrows = false) (he2 : env2.findUserThrows = false)
    (hf : ProjectAssignment.findOne s2 projectId2 = some a)
    (hp : Project.findById s2 (some a.projectId) = some project)
    (hu : User.findById s2 (some trigger2) = some u)
    (hauth : u.type = "admin" ∨ (u.type = "hr" ∧ u.company = some project.company))
    (hd : populateMembers s2 "developer" a.assignedDevelopers = some developers)
    (hi : populateMembers s2 "intern" a.assignedInterns = some interns)
    (hpl : populateMembers s2 "panelist" a.panelists = some panelists) :
    notifyAllProjectMembers env1 s1 projectId1 newUser1 role1 trigger1 = (.returned, []) ∧
      (notifyAllProjectMembers env2 s2 projectId2 newUser2 role2 trigger2).1 = .returned ∧
      (notifyAllProjectMembers env2 s2 projectId2 newUser2 role2 trigger2).2.map
          (fun m => m.to_) =
        (((developers ++ interns ++ panelists) ++
            (if (developers ++ interns ++ panelists).any (fun m => m._id == newUser2._id) then []
             else [newUser2])).filter (fun m => m.email != "" && m.name != "")).map
          (fun m => m.email) := by
  refine ⟨?_, notifyAllProjectMembers_returned _ _ _ _ _ _, ?_⟩
  · rw [notifyAllProjectMembers_eq_body]
    congr 1
    unfold notifyBody
    repeat' first
      | rfl
      | split
    all_goals
      rename_i a1 ha1 _ p1 hp1 _ _ t ht hcheck _ _ _
      exfalso
      rcases hun with h | ⟨t1, h1, h2, h3⟩
      · rw [h] at ht
        cases ht
      · rw [h1] at ht
        cases ht
        exact hcheck ⟨h2, h3 a1 p1 ha1 hp1⟩
  · rw [notifyAllProjectMembers_eq_body]
    have hcheck : ¬ (u.type ≠ "admin" ∧ (u.type ≠ "hr" ∨ u.company ≠ some project.company)) := by
      rintro ⟨h1, h2⟩
      rcases hauth with h | ⟨h3, h4⟩
      · exact h1 h
      · rcases h2 with h | h
        · exact h h3
        · exact h h4
    unfold notifyBody gatherMembers
    simp only [he1, he2, hf, hp, hu, hd, hi, hpl, hcheck, Bool.false_eq_true, if_false]
    rw [sendToMembers_recipients]
    simp only [List.map_nil, List.nil_append]
    by_cases hin : (developers ++ interns ++ panelists).any (fun m => m._id == newUser2._id) = true
    · simp only [hin, if_true, List.append_nil]
    · simp only [hin, Bool.false_eq_true, if_false, List.filter_append, List.map_append]
      congr 1
      simp only [List.filter_cons, List.filter_nil]
      split <;> rfl


/-! ## Which member-adding requests notify -/

/-- C23 (as stated, false for the two panelist endpoints): HR names developer 1
panelist of project 11 with `assignPanelist`; the call succeeds, the developer
is appended to `panelists`, and `notifyAllProjectMembers` is not called and no
mail is handed to the transport, whatever the mail environment. The same holds
for `assignRandomPanelist`. The sibling requests do notify: the approval of
the developer's panelist request calls `notifyAllProjectMembers` for project
11 with the developer and the role `Panelist`, and the direct assignment of
intern 2 calls it with the intern and the role `Intern`. -/
theorem direct_panelist_assignment_is_not_notified :
    Op.addsMember strictSchema demoStore directPanelistOp ∧
      (ProjectAssignment.findById (step strictSchema demoStore directPanelistOp).store 101).map
          (fun a => a.panelists.map (fun e => e.userId)) = some [1] ∧
      (∀ env : MailEnv,
        (stepTraced env strictSchema demoStore directPanelistOp).notified = [] ∧
          (stepTraced env strictSchema demoStore directPanelistOp).sent = []) ∧
      Op.addsMember strictSchema demoStore randomPanelistOp ∧
      (ProjectAssignment.findById (step strictSchema demoStore randomPanelistOp).store 101).map
          (fun a => a.panelists.map (fun e => e.userId)) = some [1] ∧
      (∀ env : MailEnv,
        (stepTraced env strictSchema demoStore randomPanelistOp).notified = [] ∧
          (stepTraced env strictSchema demoStore randomPanelistOp).sent = []) ∧
      Op.addsMember strictSchema panelRequestStore approvePanelistOp ∧
      (stepTraced workingEnv strictSchema panelRequestStore approvePanelistOp).notified =
        [{ projectId := 11, newlyAssignedUser := userDev, newlyAssignedUserRole := "Panelist",
           triggeredByUserId := 9 }] ∧
      (stepTraced workingEnv strictSchema panelRequestStore approvePanelistOp).sent.map
          (fun m => m.to_) = ["dev@acme.com"] ∧
      Op.addsMember strictSchema demoStore directInternOp ∧
      (stepTraced workingEnv strictSchema demoStore directInternOp).notified =
        [{ projectId := 11, newlyAssignedUser := userIna, newlyAssignedUserRole := "Intern",
           triggeredByUserId := 9 }] ∧
      (stepTraced workingEnv strictSchema demoStore directInternOp).sent.map
          (fun m => m.to_) = ["ina@acme.com"] := by
  refine ⟨?_, by decide, fun env => ⟨rfl, rfl⟩, ?_, by decide, fun env => ⟨rfl, rfl⟩, ?_,
    by decide, by decide, ?_, by decide, by decide⟩
  · exact ⟨by decide, trivial⟩
  · exact ⟨by decide, trivial⟩
  · exact ⟨by decide, rfl⟩
  · exact ⟨by decide, trivial⟩

theorem notify_rechecks_authorization_witness :
    notifyAllProjectMembers failingEnv demoStore 10 userIna "Intern" 39 = (.returned, []) ∧
      (notifyAllProjectMembers flakyEnv demoStore 10 userIna "Intern" 9).1 = .returned ∧
      (notifyAllProjectMembers flakyEnv demoStore 10 userIna "Intern" 9).2.map
          (fun m => m.to_) = ["dev@acme.com", "ina@acme.com"] :=
  notify_rechecks_authorization failingEnv flakyEnv demoStore demoStore 10 10 userIna userIna
    "Intern" "Intern" 39 9
    { emptyAssignment 100 10 "Acme" with
      assignedDevelopers := [{ userId := 1, assignedBy := some 9, assignedAt := 0 }] }
    { _id := 10, name := "Billing", company := "Acme", isApproved := true,
      suggested_by := some "hr@acme.com" }
    { _id := 9, name := "Hra", email := "hr@acme.com", type := "hr", company := some "Acme" }
    [userDev] [] [] (Or.inl rfl) rfl rfl rfl rfl rfl (Or.inr ⟨rfl, rfl⟩) rfl rfl rfl


/-! ## The previous working days -/

theorem workingDaysLoop_mono (numDays : Nat) (fuel : Nat) :
    ∀ (date : JsDate) (days l : List JsDate),
      workingDaysLoop numDays fuel date days = some l →
      ∀ k, workingDaysLoop numDays (fuel + k) date days = some l := by
  induction fuel with
  | zero =>
    intro date days l h k
    unfold workingDaysLoop at h
    split at h
    · cases h
    · next hlen =>
      cases k with
      | zero => unfold workingDaysLoop; rw [if_neg hlen]; exact h
      | succ k =>
        rw [Nat.zero_add]
        unfold workingDaysLoop
        rw [if_neg hlen]
        exact h
  | succ fuel ih =>
    intro date days l h k
    rw [Nat.add_right_comm]
    unfold workingDaysLoop at h ⊢
    split at h
    · next hlen =>
      rw [if_pos hlen]
      dsimp only at h ⊢
      split at h
      · next hw =>
        rw [if_pos hw]
        exact ih _ _ _ h k
      · next hw =>
        rw [if_neg hw]
        exact ih _ _ _ h k
    · next hlen =>
      rw [if_neg hlen]
      exact h

theorem workingDaysLoop_spec (numDays : Nat) (fuel : Nat) :
    ∀ (date : JsDate) (days : List JsDate) (r : Nat),
      days.length + r = numDays → 3 * r ≤ fuel + skipCredit date.day →
      ∃ new, workingDaysLoop numDays fuel date days = some (days ++ new) ∧
        new.length = r ∧ RecentWeekdays date new := by
  induction fuel with
  | zero =>
    intro date days r hlen hfuel
    have hr : r = 0 := by
      unfold skipCredit at hfuel
      split_ifs at hfuel <;> omega
    subst hr
    refine ⟨[], ?_, rfl, ?_⟩
    · unfold workingDaysLoop
      rw [if_neg (by omega), List.append_nil]
    · exact ⟨fun e he => (by cases he), List.Pairwise.nil, fun e he => (by cases he)⟩
  | succ fuel ih =>
    intro date days r hlen hfuel
    cases r with
    | zero =>
      refine ⟨[], ?_, rfl, ?_⟩
      · unfold workingDaysLoop
        rw [if_neg (by omega), List.append_nil]
      · exact ⟨fun e he => (by cases he), List.Pairwise.nil, fun e he => (by cases he)⟩
    | succ r =>
      unfold workingDaysLoop
      rw [if_pos (by omega)]
      dsimp only
      by_cases hw : getDay date.previousDay.day ≠ 0 ∧ getDay date.previousDay.day ≠ 6
      · rw [if_pos hw]
        obtain ⟨new, hrun, hnl, hall, hsorted, hcomplete⟩ :=
          ih date.previousDay (days ++ [date.previousDay]) r
            (by rw [List.length_append, List.length_singleton]; omega)
            (by
              unfold skipCredit at hfuel
              split_ifs at hfuel <;> omega)
        refine ⟨date.previousDay :: new, ?_, by rw [List.length_cons, hnl], ?_, ?_, ?_⟩
        · rw [hrun, List.append_assoc]
          rfl
        · intro e he
          rcases List.mem_cons.mp he with h | h
          · subst h
            exact ⟨rfl, by show date.day - 1 < date.day; omega, hw⟩
          · obtain ⟨h1, h2, h3⟩ := hall e h
            exact ⟨h1, by
              have : date.previousDay.day = date.day - 1 := rfl
              omega, h3⟩
        · refine List.Pairwise.cons ?_ hsorted
          intro e he
          exact (hall e he).2.1
        · intro e he x hx1 hx2 hxw
          by_cases hx : x = date.day - 1
          · exact ⟨date.previousDay, List.mem_cons_self _ _, hx.symm⟩
          · rcases List.mem_cons.mp he with h | h
            · subst h
              have : date.previousDay.day = date.day - 1 := rfl
              omega
            · obtain ⟨e1, he1, hd⟩ := hcomplete e h x hx1
                (by
                  have : date.previousDay.day = date.day - 1 := rfl
                  omega) hxw
              exact ⟨e1, List.mem_cons_of_mem _ he1, hd⟩
      · rw [if_neg hw]
        have hprev : date.previousDay.day = date.day - 1 := rfl
        have hweekend : getDay (date.day - 1) = 0 ∨ getDay (date.day - 1) = 6 := by
          rw [hprev] at hw
          by_cases h0 : getDay (date.day - 1) = 0
          · exact Or.inl h0
          · by_cases h6 : getDay (date.day - 1) = 6
            · exact Or.inr h6
            · exact absurd ⟨h0, h6⟩ hw
        obtain ⟨new, hrun, hnl, hall, hsorted, hcomplete⟩ :=
          ih date.previousDay days (r + 1) hlen
            (by
              rw [hprev]
              unfold skipCredit getDay at *
              split_ifs at hfuel ⊢ <;> omega)
        refine ⟨new, hrun, hnl, ?_, hsorted, ?_⟩
        · intro e he
          obtain ⟨h1, h2, h3⟩ := hall e he
          exact ⟨h1, by omega, h3⟩
        · intro e he x hx1 hx2 hxw
          have hx : x ≠ date.day - 1 := by
            intro h
            rw [h] at hxw
            rcases hweekend with h0 | h6
            · exact hxw.1 h0
            · exact hxw.2 h6
          exact hcomplete e he x hx1 (by omega) hxw

/-- C28: `getPreviousWorkingDays(numDays, fromDate)` terminates, within three
iterations for each requested day, and returns exactly `numDays` dates: each
at local midnight, each before the day of `fromDate`, none on a Saturday or
Sunday, in strictly decreasing order, and with no weekday between the earliest
returned date and `fromDate` left out. -/
theorem getPreviousWorkingDays_returns_recent_weekdays (numDays : Nat) (fromDate : JsDate) :
    ∃ days,
      (∀ fuel, 3 * numDays ≤ fuel →
        getPreviousWorkingDays fuel numDays fromDate = some days) ∧
      days.length = numDays ∧
      (∀ e ∈ days, e.ms = 0 ∧ e.day < fromDate.day ∧ isWeekday e.day) ∧
      days.Pairwise (fun a b => b.day < a.day) ∧
      (∀ e ∈ days, ∀ x, e.day ≤ x → x < fromDate.day → isWeekday x →
        { day := x, ms := 0 } ∈ days) := by
  obtain ⟨new, hrun, hlen, hall, hsorted, hcomplete⟩ :=
    workingDaysLoop_spec numDays (3 * numDays) fromDate.startOfDay [] numDays
      (by rw [List.length_nil, Nat.zero_add]) (Nat.le_add_right _ _)
  rw [List.nil_append] at hrun
  refine ⟨new, ?_, hlen, hall, hsorted, ?_⟩
  · intro fuel hfuel
    obtain ⟨k, hk⟩ := Nat.exists_eq_add_of_le hfuel
    rw [hk]
    exact workingDaysLoop_mono numDays _ _ _ _ hrun k
  · intro e he x hx1 hx2 hxw
    obtain ⟨e1, he1, hd⟩ := hcomplete e he x hx1 hx2 hxw
    have hms : e1.ms = 0 := (hall e1 he1).1
    have : e1 = { day := x, ms := 0 } := by
      cases e1
      simp only [JsDate.mk.injEq]
      exact ⟨hd, hms⟩
    rw [← this]
    exact he1

theorem getPreviousWorkingDays_returns_recent_weekdays_witness :
    getPreviousWorkingDays 9 3 { day := 4, ms := 1234 } =
        some [{ day := 1, ms := 0 }, { day := 0, ms := 0 }, { day := -1, ms := 0 }] ∧
      ∃ days, getPreviousWorkingDays 9 3 { day := 4, ms := 1234 } = some days ∧
        days.length = 3 ∧
        ∀ e ∈ days, e.ms = 0 ∧ e.day < 4 ∧ isWeekday e.day :=
  ⟨by decide,
    (getPreviousWorkingDays_returns_recent_weekdays 3 { day := 4, ms := 1234 }).imp
      (fun _ h => ⟨h.1 9 (by decide), h.2.1, h.2.2.1⟩)⟩


/-! ## The attendance backfill -/

theorem any_key_iff (att : List Attendance) (userId : UserId) (day : Int) :
    att.any (fun r => r.userId == userId && r.date == day) = true ↔ HasRecord att userId day := by
  unfold HasRecord
  simp only [List.any_eq_true, Bool.and_eq_true, beq_iff_eq]

theorem hasRecord_append_left {att : List Attendance} {userId : UserId} {day : Int}
    (h : HasRecord att userId day) (more : List Attendance) :
    HasRecord (att ++ more) userId day := by
  obtain ⟨r, hr, h1, h2⟩ := h
  exact ⟨r, List.mem_append_left _ hr, h1, h2⟩

/-- What one day of the loop does: nothing, or one `Absent` record for a
weekday that had no record and was not in the set read before the loop. -/
theorem backfillDay_cases (userId : UserId) (now : JsDate) (existingDates : List Int)
    (currentDate : Int) (att : List Attendance) :
    (backfillDay userId now existingDates currentDate att = att ∧
        (isWeekday currentDate → currentDate ∈ existingDates ∨
          HasRecord att userId currentDate)) ∨
      (backfillDay userId now existingDates currentDate att =
          att ++ [absentRecord userId currentDate now] ∧
        isWeekday currentDate ∧ ¬ HasRecord att userId currentDate ∧
        currentDate ∉ existingDates) := by
  unfold backfillDay Attendance.create
  dsimp only
  by_cases hw : getDay currentDate ≠ 0 ∧ getDay currentDate ≠ 6 ∧
      ¬ existingDates.contains currentDate = true
  · rw [if_pos hw]
    by_cases hk : att.any (fun r => r.userId == (absentRecord userId currentDate now).userId &&
        r.date == (absentRecord userId currentDate now).date) = true
    · rw [if_pos hk]
      exact Or.inl ⟨rfl, fun _ => Or.inr ((any_key_iff att userId currentDate).mp hk)⟩
    · rw [if_neg hk]
      refine Or.inr ⟨rfl, ⟨hw.1, hw.2.1⟩, ?_, ?_⟩
      · intro h
        exact hk ((any_key_iff att userId currentDate).mpr h)
      · intro h
        exact hw.2.2 (by simpa using h)
  · rw [if_neg hw]
    refine Or.inl ⟨rfl, fun hwd => Or.inl ?_⟩
    by_contra hne
    exact hw ⟨hwd.1, hwd.2, fun hc => hne (by simpa using hc)⟩

/-- A loop started after the last day of the window does nothing. -/
theorem backfillLoop_done (userId : UserId) (now : JsDate) (existingDates : List Int)
    (endDate : Int) (fuel : Nat) (currentDate : Int) (att : List Attendance)
    (h : endDate < currentDate) :
    backfillLoop userId now existingDates endDate fuel currentDate att = att := by
  cases fuel with
  | zero => rfl
  | succ fuel =>
    unfold backfillLoop
    rw [if_neg (by omega)]

/-- The iterations of the loop beyond the number of days left change nothing:
with as many iterations as days the loop ends by its own condition. -/
theorem backfillLoop_fuel (userId : UserId) (now : JsDate) (existingDates : List Int)
    (endDate : Int) (fuel : Nat) :
    ∀ (currentDate : Int) (att : List Attendance) (extra : Nat),
      (endDate + 1 - currentDate).toNat ≤ fuel →
      backfillLoop userId now existingDates endDate (fuel + extra) currentDate att =
        backfillLoop userId now existingDates endDate fuel currentDate att := by
  induction fuel with
  | zero =>
    intro currentDate att extra h
    have hdone : endDate < currentDate := by omega
    rw [backfillLoop_done _ _ _ _ _ _ _ hdone, backfillLoop_done _ _ _ _ _ _ _ hdone]
  | succ fuel ih =>
    intro currentDate att extra h
    rw [Nat.add_right_comm]
    unfold backfillLoop
    by_cases hc : currentDate < endDate + 1
    · rw [if_pos hc, if_pos hc]
      exact ih _ _ _ (by omega)
    · rw [if_neg hc, if_neg hc]

/-- The records a run of the loop adds. -/
theorem backfillLoop_created (userId : UserId) (now : JsDate) (existingDates : List Int)
    (endDate : Int) (fuel : Nat) :
    ∀ (currentDate : Int) (att : List Attendance),
      ∃ created,
        backfillLoop userId now existingDates endDate fuel currentDate att = att ++ created ∧
        ∀ r ∈ created, r = absentRecord userId r.date now ∧ isWeekday r.date ∧
          currentDate ≤ r.date ∧ r.date ≤ endDate ∧ ¬ HasRecord att userId r.date ∧
          r.date ∉ existingDates := by
  induction fuel with
  | zero =>
    intro currentDate att
    exact ⟨[], by rw [List.append_nil]; rfl, fun r hr => by cases hr⟩
  | succ fuel ih =>
    intro currentDate att
    unfold backfillLoop
    by_cases hc : currentDate < endDate + 1
    · rw [if_pos hc]
      obtain ⟨created, hrun, hcreated⟩ :=
        ih (currentDate + 1) (backfillDay userId now existingDates currentDate att)
      rcases backfillDay_cases userId now existingDates currentDate att with
        ⟨hday, _⟩ | ⟨hday, hwd, hno, hne⟩
      · rw [hday] at hrun hcreated ⊢
        refine ⟨created, hrun, fun r hr => ?_⟩
        obtain ⟨h1, h2, h3, h4, h5, h6⟩ := hcreated r hr
        exact ⟨h1, h2, by omega, h4, h5, h6⟩
      · rw [hday] at hrun hcreated ⊢
        refine ⟨absentRecord userId currentDate now :: created, ?_, fun r hr => ?_⟩
        · rw [hrun, List.append_assoc]
          rfl
        · rcases List.mem_cons.mp hr with h | h
          · subst h
            exact ⟨rfl, hwd, le_refl _, by
              show currentDate ≤ endDate
              omega, hno, hne⟩
          · obtain ⟨h1, h2, h3, h4, h5, h6⟩ := hcreated r h
            exact ⟨h1, h2, by omega, h4, fun hh => h5 (hasRecord_append_left hh _), h6⟩
    · rw [if_neg hc]
      exact ⟨[], by rw [List.append_nil], fun r hr => by cases hr⟩

/-- After the loop every weekday it passed has a record, provided the set read
before the loop holds only dates that have one. -/
theorem backfillLoop_covers (userId : UserId) (now : JsDate) (existingDates : List Int)
    (endDate : Int) (fuel : Nat) :
    ∀ (currentDate : Int) (att : List Attendance),
      (∀ d ∈ existingDates, HasRecord att userId d) →
      ∀ d, currentDate ≤ d → d < currentDate + fuel → d ≤ endDate → isWeekday d →
        HasRecord (backfillLoop userId now existingDates endDate fuel currentDate att)
          userId d := by
  induction fuel with
  | zero =>
    intro currentDate att _ d h1 h2
    omega
  | succ fuel ih =>
    intro currentDate att hsound d h1 h2 h3 hwd
    unfold backfillLoop
    rw [if_pos (by omega)]
    have hday : HasRecord (backfillDay userId now existingDates currentDate att) userId
        currentDate ∨ ¬ isWeekday currentDate := by
      by_cases hw : isWeekday currentDate
      · refine Or.inl ?_
        rcases backfillDay_cases userId now existingDates currentDate att with
          ⟨hday, hex⟩ | ⟨hday, _, _, _⟩
        · rw [hday]
          rcases hex hw with h | h
          · exact hsound _ h
          · exact h
        · rw [hday]
          exact ⟨absentRecord userId currentDate now,
            List.mem_append_right _ (List.mem_singleton_self _), rfl, rfl⟩
      · exact Or.inr hw
    have hsound1 : ∀ d ∈ existingDates,
        HasRecord (backfillDay userId now existingDates currentDate att) userId d := by
      intro x hx
      rcases backfillDay_cases userId now existingDates currentDate att with
        ⟨hd, _⟩ | ⟨hd, _, _, _⟩
      · rw [hd]
        exact hsound x hx
      · rw [hd]
        exact hasRecord_append_left (hsound x hx) _
    by_cases hd : d = currentDate
    · subst hd
      rcases hday with h | h
      · obtain ⟨created, hrun, _⟩ := backfillLoop_created userId now existingDates endDate fuel
          (d + 1) (backfillDay userId now existingDates d att)
        rw [hrun]
        exact hasRecord_append_left h _
      · exact absurd hwd h
    · exact ih (currentDate + 1) _ hsound1 d (by omega) (by omega) h3 hwd

/-- A loop over days that all have their record does nothing. -/
theorem backfillLoop_noop (userId : UserId) (now : JsDate) (existingDates : List Int)
    (endDate : Int) (fuel : Nat) :
    ∀ (currentDate : Int) (att : List Attendance),
      (∀ d, currentDate ≤ d → d ≤ endDate → isWeekday d → HasRecord att userId d) →
      backfillLoop userId now existingDates endDate fuel currentDate att = att := by
  induction fuel with
  | zero => intro _ _ _; rfl
  | succ fuel ih =>
    intro currentDate att hcov
    unfold backfillLoop
    by_cases hc : currentDate < endDate + 1
    · rw [if_pos hc]
      have hday : backfillDay userId now existingDates currentDate att = att := by
        rcases backfillDay_cases userId now existingDates currentDate att with
          ⟨hd, _⟩ | ⟨_, hwd, hno, _⟩
        · exact hd
        · exact absurd (hcov currentDate (le_refl _) (by omega) hwd) hno
      rw [hday]
      exact ih _ _ (fun d h1 h2 h3 => hcov d (by omega) h2 h3)
    · rw [if_neg hc]

/-- The set read before the loop only saves attempts: with any set of dates
that have a record, also the empty one, the loop ends in the same collection,
the rejected inserts (duplicate key, code 11000) being skipped. -/
theorem backfillLoop_snapshot (userId : UserId) (now : JsDate) (existingDates : List Int)
    (endDate : Int) (fuel : Nat) :
    ∀ (currentDate : Int) (att : List Attendance),
      (∀ d ∈ existingDates, HasRecord att userId d) →
      backfillLoop userId now existingDates endDate fuel currentDate att =
        backfillLoop userId now [] endDate fuel currentDate att := by
  induction fuel with
  | zero => intro _ _ _; rfl
  | succ fuel ih =>
    intro currentDate att hsound
    unfold backfillLoop
    by_cases hc : currentDate < endDate + 1
    · rw [if_pos hc, if_pos hc]
      have hday : backfillDay userId now existingDates currentDate att =
          backfillDay userId now [] currentDate att := by
        rcases backfillDay_cases userId now existingDates currentDate att with
          ⟨h1, hex⟩ | ⟨h1, hwd, hno, _⟩ <;>
        rcases backfillDay_cases userId now [] currentDate att with
          ⟨h2, hex2⟩ | ⟨h2, hwd2, hno2, _⟩
        · rw [h1, h2]
        · exfalso
          rcases hex hwd2 with h | h
          · exact hno2 (hsound _ h)
          · exact hno2 h
        · exfalso
          rcases hex2 hwd with h | h
          · cases h
          · exact hno h
        · rw [h1, h2]
      rw [hday]
      refine ih _ _ (fun d hd => ?_)
      rcases backfillDay_cases userId now [] currentDate att with ⟨h2, _⟩ | ⟨h2, _, _, _⟩
      · rw [h2]
        exact hsound d hd
      · rw [h2]
        exact hasRecord_append_left (hsound d hd) _
    · simp only [if_neg hc]


theorem snapshot_sound (att : List Attendance) (userId : UserId) (startDate endDate : Int) :
    ∀ d ∈ (att.filter (fun r =>
        r.userId == userId && decide (startDate ≤ r.date) && decide (r.date ≤ endDate))).map
          (fun r => r.date),
      HasRecord att userId d := by
  intro d hd
  obtain ⟨r, hr, hrd⟩ := List.mem_map.mp hd
  obtain ⟨hmem, hcond⟩ := List.mem_filter.mp hr
  simp only [Bool.and_eq_true, beq_iff_eq, decide_eq_true_eq] at hcond
  exact ⟨r, hmem, hcond.1.1, hrd⟩

theorem windowEnd_lt_today (now : JsDate) (data : InternData) : windowEnd now data < now.day := by
  unfold windowEnd
  have := min_le_right (match data.endDate with
    | some e => e.day
    | none => now.day - 1) (now.day - 1)
  omega

/-- The records one intern gets. -/
theorem backfillIntern_created (now : JsDate) (att : List Attendance) (data : InternData) :
    ∃ created,
      backfillIntern now att data = att ++ created ∧
      ∀ r ∈ created, r = absentRecord data.userId r.date now ∧ isWeekday r.date ∧
        InWindow now data r.date ∧ ¬ HasRecord att data.userId r.date := by
  unfold backfillIntern
  dsimp only
  split
  · exact ⟨[], by rw [List.append_nil], fun r hr => by cases hr⟩
  · obtain ⟨created, hrun, hcreated⟩ := backfillLoop_created data.userId now
      ((att.filter (fun r => r.userId == data.userId && decide (data.startDate.day ≤ r.date) &&
        decide (r.date ≤ windowEnd now data))).map (fun r => r.date))
      (windowEnd now data) (windowEnd now data + 1 - data.startDate.day).toNat
      data.startDate.day att
    refine ⟨created, hrun, fun r hr => ?_⟩
    obtain ⟨h1, h2, h3, h4, h5, _⟩ := hcreated r hr
    exact ⟨h1, h2, ⟨h3, h4⟩, h5⟩

/-- After the loop of an intern every weekday of the window has a record. -/
theorem backfillIntern_covers (now : JsDate) (att : List Attendance) (data : InternData)
    (d : Int) (hin : InWindow now data d) (hwd : isWeekday d) :
    HasRecord (backfillIntern now att data) data.userId d := by
  unfold backfillIntern
  dsimp only
  obtain ⟨h1, h2⟩ := hin
  rw [if_neg (by omega)]
  exact backfillLoop_covers data.userId now _ (windowEnd now data) _ data.startDate.day att
    (snapshot_sound att data.userId data.startDate.day (windowEnd now data)) d h1 (by omega) h2
    hwd

/-- An intern whose window is covered gets nothing. -/
theorem backfillIntern_noop (now : JsDate) (att : List Attendance) (data : InternData)
    (hcov : ∀ d, InWindow now data d → isWeekday d → HasRecord att data.userId d) :
    backfillIntern now att data = att := by
  unfold backfillIntern
  dsimp only
  split
  · rfl
  · exact backfillLoop_noop data.userId now _ (windowEnd now data) _ data.startDate.day att
      (fun d h1 h2 h3 => hcov d ⟨h1, h2⟩ h3)

theorem backfill_cons (now : JsDate) (att : List Attendance) (data : InternData)
    (rest : List InternData) :
    backfill now att (data :: rest) = backfill now (backfillIntern now att data) rest := rfl

/-- The records a backfill adds: the collection before is a prefix of the
collection after, and every added record is an `Absent` record marked by
`System` for a weekday inside the window of one of the interns. -/
theorem backfill_created (now : JsDate) (internData : List InternData) :
    ∀ att : List Attendance,
      ∃ created,
        backfill now att internData = att ++ created ∧
        ∀ r ∈ created, isWeekday r.date ∧
          ∃ data ∈ internData, r = absentRecord data.userId r.date now ∧
            InWindow now data r.date := by
  induction internData with
  | nil =>
    intro att
    exact ⟨[], by rw [List.append_nil]; rfl, fun r hr => by cases hr⟩
  | cons data rest ih =>
    intro att
    rw [backfill_cons]
    obtain ⟨c1, h1, hc1⟩ := backfillIntern_created now att data
    obtain ⟨c2, h2, hc2⟩ := ih (backfillIntern now att data)
    refine ⟨c1 ++ c2, by rw [h2, h1, List.append_assoc], fun r hr => ?_⟩
    rcases List.mem_append.mp hr with h | h
    · obtain ⟨ha, hb, hc, _⟩ := hc1 r h
      exact ⟨hb, data, List.mem_cons_self _ _, ha, hc⟩
    · obtain ⟨hb, d, hd, ha, hc⟩ := hc2 r h
      exact ⟨hb, d, List.mem_cons_of_mem _ hd, ha, hc⟩

/-- After a backfill every weekday in the window of every intern of
`internData` has a record. -/
theorem backfill_covers (now : JsDate) (internData : List InternData) :
    ∀ att : List Attendance, ∀ data ∈ internData, ∀ d, InWindow now data d → isWeekday d →
      HasRecord (backfill now att internData) data.userId d := by
  induction internData with
  | nil => intro _ data hd; cases hd
  | cons x rest ih =>
    intro att data hdata d hin hwd
    rw [backfill_cons]
    rcases List.mem_cons.mp hdata with h | h
    · subst h
      obtain ⟨created, hrun, _⟩ := backfill_created now rest (backfillIntern now att data)
      rw [hrun]
      exact hasRecord_append_left (backfillIntern_covers now att data d hin hwd) _
    · exact ih _ data h d hin hwd

/-- A backfill over interns whose windows are covered does nothing. -/
theorem backfill_noop (now : JsDate) (internData : List InternData) :
    ∀ att : List Attendance,
      (∀ data ∈ internData, ∀ d, InWindow now data d → isWeekday d →
        HasRecord att data.userId d) →
      backfill now att internData = att := by
  induction internData with
  | nil => intro _ _; rfl
  | cons x rest ih =>
    intro att hcov
    rw [backfill_cons,
      backfillIntern_noop now att x (hcov x (List.mem_cons_self _ _))]
    exact ih att (fun data hd => hcov data (List.mem_cons_of_mem _ hd))

theorem backfill_idempotent (now : JsDate) (att : List Attendance)
    (internData : List InternData) :
    backfill now (backfill now att internData) internData = backfill now att internData :=
  backfill_noop now internData _ (backfill_covers now internData att)

theorem uniqueKeys_append_absent {att : List Attendance} {userId : UserId} {day : Int}
    (now : JsDate) (hu : UniqueKeys att) (hno : ¬ HasRecord att userId day) :
    UniqueKeys (att ++ [absentRecord userId day now]) := by
  unfold UniqueKeys at hu ⊢
  rw [List.map_append, List.nodup_append]
  refine ⟨hu, List.nodup_singleton _, ?_⟩
  intro k hk hk2
  rw [List.map_singleton, List.mem_singleton] at hk2
  obtain ⟨r, hr, hrk⟩ := List.mem_map.mp hk
  rw [hk2] at hrk
  have h1 : r.userId = userId := congrArg Prod.fst hrk
  have h2 : r.date = day := congrArg Prod.snd hrk
  exact hno ⟨r, hr, h1, h2⟩

theorem backfillLoop_unique (userId : UserId) (now : JsDate) (existingDates : List Int)
    (endDate : Int) (fuel : Nat) :
    ∀ (currentDate : Int) (att : List Attendance), UniqueKeys att →
      UniqueKeys (backfillLoop userId now existingDates endDate fuel currentDate att) := by
  induction fuel with
  | zero => intro _ _ h; exact h
  | succ fuel ih =>
    intro currentDate att hu
    unfold backfillLoop
    split
    · refine ih _ _ ?_
      rcases backfillDay_cases userId now existingDates currentDate att with
        ⟨hd, _⟩ | ⟨hd, _, hno, _⟩
      · rw [hd]
        exact hu
      · rw [hd]
        exact uniqueKeys_append_absent now hu hno
    · exact hu

/-- The backfill never stores a second record for a `(userId, date)`. -/
theorem backfill_unique (now : JsDate) (internData : List InternData) :
    ∀ att : List Attendance, UniqueKeys att → UniqueKeys (backfill now att internData) := by
  induction internData with
  | nil => intro _ h; exact h
  | cons x rest ih =>
    intro att hu
    rw [backfill_cons]
    refine ih _ ?_
    unfold backfillIntern
    dsimp only
    split
    · exact hu
    · exact backfillLoop_unique _ _ _ _ _ _ _ hu

theorem joinedApplications_nil (applications : List Application) :
    joinedApplications applications [] = [] := by
  unfold joinedApplications
  rw [List.filter_eq_nil_iff]
  intro a _
  simp

/-- Both controllers end in the backfill over their map `internData`; the
early returns are the cases in which the map is empty. -/
theorem attendance_controllers_backfill (s : Store) (actor : Actor)
    (applications : List Application) (att : List Attendance) (now : JsDate) :
    getAllAttendance s applications att now =
        backfill now att
          (collectInternData (joinedApplications applications (internUserIds s))) ∧
      (actor.type = "developer" →
        getAssignedInternsAttendance s actor applications att now =
          backfill now att
            (collectInternData
              (joinedApplications applications (assignedInternIds s actor.userId)))) := by
  constructor
  · unfold getAllAttendance
    split
    · next h =>
      rw [List.length_eq_zero.mp h, joinedApplications_nil]
      rfl
    · rfl
  · intro ht
    unfold getAssignedInternsAttendance
    rw [if_neg (not_not.mpr ht)]
    split
    · next h =>
      rw [List.length_eq_zero.mp h, joinedApplications_nil]
      rfl
    · rfl


/-! ## The map `internData` -/

theorem before_trans {a b c : JsDate} (h1 : a.before b = true) (h2 : b.before c = true) :
    a.before c = true := by
  unfold JsDate.before at *
  simp only [Bool.or_eq_true, Bool.and_eq_true, decide_eq_true_eq] at *
  omega

theorem before_irrefl (a : JsDate) : a.before a = false := by
  unfold JsDate.before
  simp

theorem mem_internDataSet_self (entry : InternData) (l : List InternData) :
    entry ∈ internDataSet entry l := by
  induction l with
  | nil => exact List.mem_singleton_self _
  | cons y ys ih =>
    unfold internDataSet
    split
    · exact List.mem_cons_self _ _
    · exact List.mem_cons_of_mem _ ih

theorem mem_internDataSet_of_ne {entry x : InternData} {l : List InternData} (hx : x ∈ l)
    (hne : x.userId ≠ entry.userId) : x ∈ internDataSet entry l := by
  induction l with
  | nil => cases hx
  | cons y ys ih =>
    unfold internDataSet
    rcases List.mem_cons.mp hx with h | h
    · subst h
      rw [if_neg hne]
      exact List.mem_cons_self _ _
    · split
      · exact List.mem_cons_of_mem _ h
      · exact List.mem_cons_of_mem _ (ih h)

theorem mem_internDataSet {entry x : InternData} {l : List InternData}
    (hu : (l.map (fun d => d.userId)).Nodup) (h : x ∈ internDataSet entry l) :
    x = entry ∨ (x ∈ l ∧ x.userId ≠ entry.userId) := by
  induction l with
  | nil =>
    rw [internDataSet, List.mem_singleton] at h
    exact Or.inl h
  | cons y ys ih =>
    rw [List.map_cons, List.nodup_cons] at hu
    unfold internDataSet at h
    split at h
    · next hy =>
      rcases List.mem_cons.mp h with h1 | h1
      · exact Or.inl h1
      · refine Or.inr ⟨List.mem_cons_of_mem _ h1, fun hxe => hu.1 ?_⟩
        rw [hy, ← hxe]
        exact List.mem_map_of_mem _ h1
    · next hy =>
      rcases List.mem_cons.mp h with h1 | h1
      · subst h1
        exact Or.inr ⟨List.mem_cons_self _ _, hy⟩
      · rcases ih hu.2 h1 with h2 | ⟨h2, h3⟩
        · exact Or.inl h2
        · exact Or.inr ⟨List.mem_cons_of_mem _ h2, h3⟩

theorem nodup_internDataSet {entry : InternData} {l : List InternData}
    (hu : (l.map (fun d => d.userId)).Nodup) :
    ((internDataSet entry l).map (fun d => d.userId)).Nodup := by
  induction l with
  | nil => exact List.nodup_singleton _
  | cons y ys ih =>
    have hu0 := hu
    rw [List.map_cons, List.nodup_cons] at hu
    unfold internDataSet
    split
    · next hy =>
      rw [List.map_cons, ← hy]
      exact hu0
    · next hy =>
      rw [List.map_cons, List.nodup_cons]
      refine ⟨fun hmem => ?_, ih hu.2⟩
      obtain ⟨x, hx, hxy⟩ := List.mem_map.mp hmem
      rcases mem_internDataSet hu.2 hx with h | ⟨h, _⟩
      · rw [h] at hxy
        exact hy hxy.symm
      · exact hu.1 (hxy ▸ List.mem_map_of_mem _ h)

theorem earliestStarts_mono {seen : List Application} {acc : List InternData}
    (h : EarliestStarts seen acc) (app : Application)
    (hskip : ∀ i st, app.internshipId = some i → i.internshipStartDate = some st →
      ∃ data ∈ acc, data.userId = app.userId ∧ st.before data.startDate = false) :
    EarliestStarts (seen ++ [app]) acc := by
  obtain ⟨h1, h2, h3⟩ := h
  refine ⟨fun data hd => ?_, fun a ha i st hi hst => ?_, h3⟩
  · obtain ⟨a, ha, rest⟩ := h1 data hd
    exact ⟨a, List.mem_append_left _ ha, rest⟩
  · rcases List.mem_append.mp ha with h | h
    · exact h2 a h i st hi hst
    · rw [List.mem_singleton] at h
      subst h
      exact hskip i st hi hst

theorem earliestStarts_set {seen : List Application} {acc : List InternData}
    (h : EarliestStarts seen acc) (app : Application) (i : Internship) (st : JsDate)
    (hi : app.internshipId = some i) (hst : i.internshipStartDate = some st)
    (hbetter : ∀ data ∈ acc, data.userId = app.userId → st.before data.startDate = true) :
    EarliestStarts (seen ++ [app])
      (internDataSet { startDate := st, endDate := i.internshipEndDate, userId := app.userId }
        acc) := by
  obtain ⟨h1, h2, h3⟩ := h
  refine ⟨fun data hd => ?_, fun a ha i1 st1 hi1 hst1 => ?_, nodup_internDataSet h3⟩
  · rcases mem_internDataSet h3 hd with hd1 | ⟨hd1, _⟩
    · subst hd1
      exact ⟨app, List.mem_append_right _ (List.mem_singleton_self _), i, hi, hst, rfl, rfl⟩
    · obtain ⟨a, ha, rest⟩ := h1 data hd1
      exact ⟨a, List.mem_append_left _ ha, rest⟩
  · rcases List.mem_append.mp ha with hmem | hmem
    · obtain ⟨data, hd, hdu, hdb⟩ := h2 a hmem i1 st1 hi1 hst1
      by_cases hsame : data.userId = app.userId
      · refine ⟨_, mem_internDataSet_self _ _, by rw [← hdu, hsame], ?_⟩
        cases hb : st1.before st with
        | false => rfl
        | true =>
          have := before_trans hb (hbetter data hd hsame)
          rw [hdb] at this
          cases this
      · exact ⟨data, mem_internDataSet_of_ne hd hsame, hdu, hdb⟩
    · rw [List.mem_singleton] at hmem
      subst hmem
      rw [hi] at hi1
      cases hi1
      rw [hst] at hst1
      cases hst1
      exact ⟨_, mem_internDataSet_self _ _, rfl, before_irrefl _⟩

theorem collectStep_earliest {seen : List Application} {acc : List InternData}
    (h : EarliestStarts seen acc) (app : Application) :
    EarliestStarts (seen ++ [app]) (collectStep acc app) := by
  unfold collectStep
  split
  · next hi =>
    exact earliestStarts_mono h app (fun i st h1 _ => by rw [hi] at h1; cases h1)
  · next i hi =>
    split
    · next hst =>
      refine earliestStarts_mono h app (fun i1 st h1 h2 => ?_)
      rw [hi] at h1
      cases h1
      rw [hst] at h2
      cases h2
    · next st hst =>
      dsimp only
      split
      · next hfind =>
        refine earliestStarts_set h app i st hi hst (fun data hd hdu => ?_)
        have := List.find?_eq_none.mp hfind data hd
        simp only [beq_iff_eq] at this
        exact absurd hdu this
      · next current hfind =>
        have hcur : current ∈ acc := List.mem_of_find?_eq_some hfind
        have hcu : current.userId = app.userId := by
          have := List.find?_some hfind
          simpa using this
        split
        · next hb =>
          refine earliestStarts_set h app i st hi hst (fun data hd hdu => ?_)
          have : data = current :=
            List.inj_on_of_nodup_map h.2.2 hd hcur (hdu.trans hcu.symm)
          rw [this]
          exact hb
        · next hb =>
          refine earliestStarts_mono h app (fun i1 st1 h1 h2 => ?_)
          rw [hi] at h1
          cases h1
          rw [hst] at h2
          cases h2
          exact ⟨current, hcur, hcu, by simpa using hb⟩

theorem foldl_collectStep_earliest (applications : List Application) :
    ∀ (seen : List Application) (acc : List InternData), EarliestStarts seen acc →
      EarliestStarts (seen ++ applications) (applications.foldl collectStep acc) := by
  induction applications with
  | nil =>
    intro seen acc h
    rw [List.append_nil]
    exact h
  | cons app rest ih =>
    intro seen acc h
    have := ih (seen ++ [app]) (collectStep acc app) (collectStep_earliest h app)
    rw [List.append_assoc] at this
    exact this

/-- The map `internData` holds one entry for each intern with a fetched
application whose internship has a start date, taken from an application of
that intern with the earliest start. -/
theorem collectInternData_earliest (applications : List Application) :
    EarliestStarts applications (collectInternData applications) := by
  have h := foldl_collectStep_earliest applications [] []
    ⟨fun _ hd => (by cases hd), fun _ ha => (by cases ha), List.nodup_nil⟩
  rw [List.nil_append] at h
  exact h


/-! ## The result of the backfill -/

theorem backfill_result (now : JsDate) (att : List Attendance) (internData : List InternData) :
    BackfillResult now att (backfill now att internData) internData := by
  refine ⟨?_, backfill_covers now internData att⟩
  obtain ⟨created, hrun, hcreated⟩ := backfill_created now internData att
  refine ⟨created, hrun, fun r hr => ?_⟩
  obtain ⟨hwd, data, hd, hrec, hin⟩ := hcreated r hr
  have hlt := windowEnd_lt_today now data
  refine ⟨by rw [hrec]; rfl, by rw [hrec]; rfl, hwd, by have := hin.2; omega, data, hd,
    by rw [hrec]; rfl, hin⟩

/-- C24 (as stated, false): intern 2 joined two internships, the second one
from Monday 2 February 1970 (day 32) to Friday 6 February; on 2 March the
backfill of `getAllAttendance`, and that of `getAssignedInternsAttendance` for
the mentor of the intern, creates the records of the first internship only:
the map `internData` keeps one entry per intern, the one with the earliest
start, and no record exists for Monday 2 February. -/
theorem second_internship_is_not_backfilled :
    internUserIds demoStore = [2] ∧
      twoInternships.map (fun a => (a.userId, a.status)) = [(2, "joined"), (2, "joined")] ∧
      collectInternData (joinedApplications twoInternships (internUserIds demoStore)) =
        [{ startDate := { day := 4, ms := 0 }, endDate := some { day := 8, ms := 0 },
           userId := 2 }] ∧
      isWeekday 32 ∧ (32 : Int) ≤ min 36 (march2.day - 1) ∧
      (getAllAttendance demoStore twoInternships [] march2).map (fun r => (r.userId, r.date)) =
        [(2, 4), (2, 5), (2, 6), (2, 7), (2, 8)] ∧
      ¬ HasRecord (getAllAttendance demoStore twoInternships [] march2) 2 32 ∧
      assignedInternIds mentoredStore devAcme.userId = [2] ∧
      ¬ HasRecord (getAssignedInternsAttendance mentoredStore devAcme twoInternships []
        march2) 2 32 := by
  refine ⟨by decide, by decide, by decide, by decide, by decide, by decide, ?_, by decide, ?_⟩
  · unfold HasRecord
    decide
  · unfold HasRecord
    decide

/-- C24 (amended): the backfill of `getAllAttendance`, and that of
`getAssignedInternsAttendance` called by a developer, works on the map
`internData`, which holds for each intern with a joined application whose
internship has a start date the start and end of one such application with
the earliest start. After the backfill a record exists for every weekday `d`
with `start ≤ d ≤ min(end, yesterday)` of every entry of the map (`end` taken
as yesterday when absent); the records that existed before are unchanged;
every record created has status `Absent` and `markedBy` `System`, and is for a
weekday before today inside the window of an entry. -/
theorem attendance_backfill_result (s : Store) (actor : Actor)
    (applications : List Application) (att : List Attendance) (now : JsDate)
    (hdev : actor.type = "developer") :
    BackfillResult now att (getAllAttendance s applications att now)
        (collectInternData (joinedApplications applications (internUserIds s))) ∧
      EarliestStarts (joinedApplications applications (internUserIds s))
        (collectInternData (joinedApplications applications (internUserIds s))) ∧
      BackfillResult now att (getAssignedInternsAttendance s actor applications att now)
        (collectInternData
          (joinedApplications applications (assignedInternIds s actor.userId))) ∧
      EarliestStarts (joinedApplications applications (assignedInternIds s actor.userId))
        (collectInternData
          (joinedApplications applications (assignedInternIds s actor.userId))) := by
  obtain ⟨h1, h2⟩ := attendance_controllers_backfill s actor applications att now
  rw [h1, h2 hdev]
  exact ⟨backfill_result _ _ _, collectInternData_earliest _, backfill_result _ _ _,
    collectInternData_earliest _⟩

theorem attendance_backfill_result_witness :
    (getAllAttendance mentoredStore oneInternship [checkInRecord] january13).map
        (fun r => (r.date, r.status)) =
        [(6, "Present"), (4, "Absent"), (5, "Absent"), (7, "Absent"), (8, "Absent"),
          (11, "Absent")] ∧
      BackfillResult january13 [checkInRecord]
        (getAllAttendance mentoredStore oneInternship [checkInRecord] january13)
        (collectInternData (joinedApplications oneInternship (internUserIds mentoredStore))) ∧
      BackfillResult january13 [checkInRecord]
        (getAssignedInternsAttendance mentoredStore devAcme oneInternship [checkInRecord]
          january13)
        (collectInternData
          (joinedApplications oneInternship (assignedInternIds mentoredStore devAcme.userId))) :=
  ⟨by decide,
    (attendance_backfill_result mentoredStore devAcme oneInternship [checkInRecord] january13
      rfl).1,
    (attendance_backfill_result mentoredStore devAcme oneInternship [checkInRecord] january13
      rfl).2.2.1⟩

/-! ## Running the backfill twice -/

/-- C25: a second backfill right after a first one, at the same current date,
leaves the attendance collection as the first one left it, in
`getAllAttendance` and in `getAssignedInternsAttendance`; a collection without
two records for one `(userId, date)` stays so. Inside the loop an insert for a
key that has a record is rejected with code 11000, the rejection is swallowed
and the loop goes on: with a set of existing dates that misses records, even
the empty set, the loop ends in the same collection as with the set it reads;
and the loop ends by its own condition within as many iterations as the window
has days. -/
theorem backfill_twice_is_backfill_once (s : Store) (actor : Actor)
    (applications : List Application) (att : List Attendance) (now : JsDate)
    (userId : UserId) (existingDates : List Int) (endDate currentDate : Int) (extra : Nat)
    (day : Int)
    (hu : UniqueKeys att)
    (hsound : ∀ d ∈ existingDates, HasRecord att userId d)
    (hrec : HasRecord att userId day) :
    getAllAttendance s applications (getAllAttendance s applications att now) now =
        getAllAttendance s applications att now ∧
      getAssignedInternsAttendance s actor applications
          (getAssignedInternsAttendance s actor applications att now) now =
        getAssignedInternsAttendance s actor applications att now ∧
      UniqueKeys (getAllAttendance s applications att now) ∧
      UniqueKeys (getAssignedInternsAttendance s actor applications att now) ∧
      Attendance.create att (absentRecord userId day now) = .error 11000 ∧
      backfillDay userId now [] day att = att ∧
      backfillLoop userId now existingDates endDate (endDate + 1 - currentDate).toNat
          currentDate att =
        backfillLoop userId now [] endDate (endDate + 1 - currentDate).toNat currentDate att ∧
      backfillLoop userId now existingDates endDate
          ((endDate + 1 - currentDate).toNat + extra) currentDate att =
        backfillLoop userId now existingDates endDate (endDate + 1 - currentDate).toNat
          currentDate att := by
  have hall := (attendance_controllers_backfill s actor applications att now).1
  have hall2 := (attendance_controllers_backfill s actor applications
    (getAllAttendance s applications att now) now).1
  have hcreate : Attendance.create att (absentRecord userId day now) = .error 11000 := by
    have hany : att.any (fun r => r.userId == (absentRecord userId day now).userId &&
        r.date == (absentRecord userId day now).date) = true :=
      (any_key_iff att userId day).mpr hrec
    unfold Attendance.create
    rw [if_pos hany]
  refine ⟨?_, ?_, ?_, ?_, hcreate, ?_, ?_, ?_⟩
  · rw [hall2, hall]
    exact backfill_idempotent _ _ _
  · by_cases hdev : actor.type = "developer"
    · have h1 := (attendance_controllers_backfill s actor applications att now).2 hdev
      have h2 := (attendance_controllers_backfill s actor applications
        (getAssignedInternsAttendance s actor applications att now) now).2 hdev
      rw [h2, h1]
      exact backfill_idempotent _ _ _
    · unfold getAssignedInternsAttendance
      rw [if_pos hdev, if_pos hdev]
  · rw [hall]
    exact backfill_unique _ _ _ hu
  · by_cases hdev : actor.type = "developer"
    · rw [(attendance_controllers_backfill s actor applications att now).2 hdev]
      exact backfill_unique _ _ _ hu
    · unfold getAssignedInternsAttendance
      rw [if_pos hdev]
      exact hu
  · rcases backfillDay_cases userId now [] day att with ⟨h, _⟩ | ⟨_, _, hno, _⟩
    · exact h
    · exact absurd hrec hno
  · exact backfillLoop_snapshot userId now existingDates endDate _ currentDate att hsound
  · exact backfillLoop_fuel userId now existingDates endDate _ currentDate att extra (le_refl _)

theorem backfill_twice_is_backfill_once_witness :
    getAllAttendance mentoredStore oneInternship
        (getAllAttendance mentoredStore oneInternship [checkInRecord] january13) january13 =
        getAllAttendance mentoredStore oneInternship [checkInRecord] january13 ∧
      UniqueKeys (getAllAttendance mentoredStore oneInternship [checkInRecord] january13) ∧
      Attendance.create [checkInRecord] (absentRecord 2 6 january13) = .error 11000 ∧
      backfillLoop 2 january13 [6] 11 8 4 [checkInRecord] =
        backfillLoop 2 january13 [] 11 8 4 [checkInRecord] :=
  have h := backfill_twice_is_backfill_once mentoredStore devAcme oneInternship [checkInRecord]
    january13 2 [6] 11 4 0 6 (by unfold UniqueKeys; decide)
    (by unfold HasRecord; decide) (by unfold HasRecord; decide)
  ⟨h.1, h.2.2.1, h.2.2.2.2.1, h.2.2.2.2.2.2.1⟩


end InternManage
